import Mathlib

/-!
Verification of the ADF volume engine of amiga-fuse (src/amiga-fuse.cpp)
against its natural-language specification.

A 512-byte block is embedded as a byte map `Nat → Nat` (only indices 0..511
are meaningful; values are taken mod 256 where the code reads bytes).
Machine 32-bit arithmetic is `Nat` arithmetic taken mod `U32 = 2^32`.
-/

namespace AmigaFuse

def U32 : Nat := 4294967296

/-- Big-endian 32-bit word `i` of a block given as a byte map, exactly as the
C code's `endian::from_big_endian(data[i])` reads it from memory. -/
def bytesWord (b : Nat → Nat) (i : Nat) : Nat :=
  b (4*i) % 256 * 16777216 + b (4*i+1) % 256 * 65536 +
    b (4*i+2) % 256 * 256 + b (4*i+3) % 256

/-- Sum of all 128 big-endian words of a block. -/
def sumWords (b : Nat → Nat) : Nat :=
  (Finset.range 128).sum fun i => bytesWord b i

/-- The Amiga block checksum over a word map: two's-complement negation
(mod 2^32) of the mod-2^32 running sum of the 128 words, skipping the word
at `off` (`AdfImage::calculate_checksum`, the loop `if (i != checksum_offset)
sum += ...; return -sum;`). -/
def chkOfWords (w : Nat → Nat) (off : Nat) : Nat :=
  (U32 - ((Finset.range 128).sum fun i => if i = off then 0 else w i % U32) % U32) % U32

/-- `AdfImage::calculate_checksum(block, checksum_offset)` on a byte-level block. -/
def calculate_checksum (b : Nat → Nat) (off : Nat) : Nat :=
  chkOfWords (bytesWord b) off

/-- Store a 32-bit value big-endian at byte offset `p` (what
`data[checksum_offset] = endian::to_big_endian(v)` does to the block bytes). -/
def write32 (b : Nat → Nat) (p v : Nat) : Nat → Nat :=
  fun j =>
    if j = p then v / 16777216 % 256
    else if j = p + 1 then v / 65536 % 256
    else if j = p + 2 then v / 256 % 256
    else if j = p + 3 then v % 256
    else b j

/-- `AdfImage::update_checksum(block, checksum_offset)`: clear the checksum
word, recompute, store it big-endian. -/
def update_checksum (b : Nat → Nat) (off : Nat) : Nat → Nat :=
  let b0 := write32 b (4*off) 0
  write32 b0 (4*off) (calculate_checksum b0 off)

lemma bytesWord_lt (b : Nat → Nat) (i : Nat) : bytesWord b i < U32 := by
  unfold bytesWord U32
  omega

lemma write32_ne (b : Nat → Nat) (p v j : Nat)
    (h1 : j ≠ p) (h2 : j ≠ p + 1) (h3 : j ≠ p + 2) (h4 : j ≠ p + 3) :
    write32 b p v j = b j := by
  simp only [write32, if_neg h1, if_neg h2, if_neg h3, if_neg h4]

lemma bytesWord_write32_other (b : Nat → Nat) (off v i : Nat) (h : i ≠ off) :
    bytesWord (write32 b (4*off) v) i = bytesWord b i := by
  unfold bytesWord
  rw [write32_ne b _ v _ (by omega) (by omega) (by omega) (by omega),
      write32_ne b _ v _ (by omega) (by omega) (by omega) (by omega),
      write32_ne b _ v _ (by omega) (by omega) (by omega) (by omega),
      write32_ne b _ v _ (by omega) (by omega) (by omega) (by omega)]

lemma bytesWord_write32_same (b : Nat → Nat) (off v : Nat) :
    bytesWord (write32 b (4*off) v) off = v % U32 := by
  unfold bytesWord write32
  rw [if_pos rfl, if_neg (by omega), if_pos rfl, if_neg (by omega), if_neg (by omega),
      if_pos rfl, if_neg (by omega), if_neg (by omega), if_neg (by omega), if_pos rfl]
  unfold U32
  omega

/-- Sum of the words of a block other than the checksum word. -/
def skipSum (b : Nat → Nat) (off : Nat) : Nat :=
  (((Finset.range 128).erase off).sum fun i => bytesWord b i)

lemma skipSum_write32 (b : Nat → Nat) (off v : Nat) :
    skipSum (write32 b (4*off) v) off = skipSum b off := by
  unfold skipSum
  refine Finset.sum_congr rfl fun x hx => ?_
  exact bytesWord_write32_other b off v x (Finset.mem_erase.mp hx).1

lemma ite_sum_eq_skipSum (h : Nat → Nat) (off : Nat) (hoff : off < 128)
    (hh : ∀ i, i ≠ off → h i = bytesWord h0 i) :
    ((Finset.range 128).sum fun i => if i = off then 0 else h i) = skipSum h0 off := by
  have hmem : off ∈ Finset.range 128 := Finset.mem_range.mpr hoff
  rw [← Finset.add_sum_erase _ _ hmem, if_pos rfl, Nat.zero_add]
  refine Finset.sum_congr rfl fun x hx => ?_
  have hx' : x ≠ off := (Finset.mem_erase.mp hx).1
  rw [if_neg hx', hh x hx']

lemma sumWords_split (c : Nat → Nat) (off : Nat) (hoff : off < 128) :
    sumWords c = bytesWord c off + skipSum c off := by
  unfold sumWords skipSum
  exact (Finset.add_sum_erase _ _ (Finset.mem_range.mpr hoff)).symm

lemma calc_chk_eq (b : Nat → Nat) (off : Nat) (hoff : off < 128) :
    calculate_checksum b off = (U32 - skipSum b off % U32) % U32 := by
  unfold calculate_checksum chkOfWords
  rw [ite_sum_eq_skipSum (fun i => bytesWord b i % U32) off hoff
    (fun i _ => Nat.mod_eq_of_lt (bytesWord_lt b i))]

/-- Claim C2: for every 512-byte block and checksum-word offset below 128,
`calculate_checksum` returns the two's-complement negation (mod 2^32) of the
sum of all 128 big-endian 32-bit words of the block with the word at the
checksum offset taken as zero, and after `update_checksum` the sum of all 128
big-endian 32-bit words of the block is 0 mod 2^32. -/
theorem checksum_discipline (b : Nat → Nat) (off : Nat) (hoff : off < 128) :
    calculate_checksum b off
        = (U32 - sumWords (write32 b (4*off) 0) % U32) % U32 ∧
      sumWords (update_checksum b off) % U32 = 0 := by
  have hz : sumWords (write32 b (4*off) 0) = skipSum b off := by
    rw [sumWords_split _ off hoff, bytesWord_write32_same, skipSum_write32]
    simp [U32]
  constructor
  · rw [calc_chk_eq b off hoff, hz]
  · unfold update_checksum
    rw [sumWords_split _ off hoff, bytesWord_write32_same, skipSum_write32,
        skipSum_write32, calc_chk_eq _ off hoff, skipSum_write32]
    set S := skipSum b off with hS
    unfold U32
    omega

/-- Witness for C2 at a concrete block (all bytes 7) and offset 5. -/
theorem checksum_discipline_witness :
    (5 : Nat) < 128 ∧
      (calculate_checksum (fun _ => 7) 5
          = (U32 - sumWords (write32 (fun _ => 7) (4*5) 0) % U32) % U32 ∧
        sumWords (update_checksum (fun _ => 7) 5) % U32 = 0) :=
  ⟨by decide, checksum_discipline (fun _ => 7) 5 (by decide)⟩

/-!
Typed views of 512-byte blocks, one structure per `#pragma pack` struct of
the source.  Field values are 32-bit words stored as `Nat` (real states keep
them below 2^32); byte arrays are byte maps `Nat → Nat`.  The image is kept
as one view map per block role; this matches the byte image whenever each
block is accessed through a single view, which is how every code path the
claims cover behaves.
-/

/-- `struct DataBlock`: type, header_key, seq_num, data_size, next_data,
checksum, 488 payload bytes. -/
structure DataBlk where
  dtype : Nat
  headerKey : Nat
  seqNum : Nat
  dataSize : Nat
  nextData : Nat
  chk : Nat
  pay : Nat → Nat

/-- `struct FileBlock` (file or directory header). `hashSlots` is the
`data_blocks[72]` array, used as a hash table for directories. -/
structure FileHdr where
  htype : Nat
  headerKey : Nat
  highSeq : Nat
  hdrDataSize : Nat
  firstData : Nat
  chk : Nat
  hashSlots : Nat → Nat
  pad1 : Nat → Nat
  fileSize : Nat
  comment : Nat → Nat
  days : Nat
  mins : Nat
  ticks : Nat
  pad2 : Nat → Nat
  filename : Nat → Nat
  pad3 : Nat → Nat
  hashChain : Nat
  parent : Nat
  extension : Nat
  secType : Nat

/-- `struct RootBlock`. -/
structure RootBlk where
  rtype : Nat
  headerKey : Nat
  highSeq : Nat
  htSize : Nat
  firstSize : Nat
  chk : Nat
  hashSlots : Nat → Nat
  bmFlag : Nat
  bmPages : Nat → Nat
  bmExt : Nat
  days : Nat
  mins : Nat
  ticks : Nat
  name : Nat → Nat
  res1 : Nat → Nat
  days2 : Nat
  mins2 : Nat
  ticks2 : Nat
  cDays : Nat
  cMins : Nat
  cTicks : Nat
  nextHash : Nat
  parent : Nat
  extension : Nat
  secType : Nat

/-- `struct BitmapBlock`: checksum word then 127 map words. -/
structure BitmapBlk where
  chk : Nat
  map : Nat → Nat

/-- `struct Entry` of the directory layer. -/
structure Entry where
  name : List Nat
  isDir : Bool
  size : Nat
  mtime : Nat
  blockNum : Nat
deriving DecidableEq

/-- Secondary-type constants as unsigned 32-bit words (`ST_FILE = -3`). -/
def ST_ROOT : Nat := 1
def ST_DIR : Nat := 2
def ST_FILE : Nat := U32 - 3
def T_HEADER : Nat := 2
def T_DATA : Nat := 8

/-- The in-memory volume: the mapped image (as per-role typed views of each
block), the root block (block 880 on a DD floppy), the free/used sets and
the directory cache of `AdfImage`. -/
structure FS where
  imgBytes : Nat
  readOnly : Bool
  boot : Nat → Nat
  root : RootBlk
  hdrs : Nat → FileHdr
  datas : Nat → DataBlk
  bms : Nat → BitmapBlk
  free : Finset Nat
  used : Finset Nat
  cache : List (List Nat × List Entry)

def totalBlocks (st : FS) : Nat := st.imgBytes / 512

/-- `get_block<T>(b)` succeeds: the image is valid (≥ 2 blocks) and the block
lies inside the mapped bytes (`(b+1)*512 ≤ file_size_`). -/
def gbOK (st : FS) (b : Nat) : Bool :=
  decide (1024 ≤ st.imgBytes) && decide ((b + 1) * 512 ≤ st.imgBytes)

/-- `get_block_writable<T>(b)` succeeds: additionally not read-only. -/
def wOK (st : FS) (b : Nat) : Bool := gbOK st b && !st.readOnly

def getHdr (st : FS) (b : Nat) : Option FileHdr :=
  if gbOK st b then some (st.hdrs b) else none

def getData (st : FS) (b : Nat) : Option DataBlk :=
  if gbOK st b then some (st.datas b) else none

def getBm (st : FS) (b : Nat) : Option BitmapBlk :=
  if gbOK st b then some (st.bms b) else none

def getRoot (st : FS) : Option RootBlk :=
  if gbOK st 880 then some st.root else none

/-- Serialisation of a data block to its 128 big-endian words. -/
def dbWords (d : DataBlk) : Nat → Nat := fun i =>
  if i = 0 then d.dtype % U32
  else if i = 1 then d.headerKey % U32
  else if i = 2 then d.seqNum % U32
  else if i = 3 then d.dataSize % U32
  else if i = 4 then d.nextData % U32
  else if i = 5 then d.chk % U32
  else bytesWord d.pay (i - 6)

/-- Serialisation of a file/directory header to its 128 words. -/
def fhWords (h : FileHdr) : Nat → Nat := fun i =>
  if i = 0 then h.htype % U32
  else if i = 1 then h.headerKey % U32
  else if i = 2 then h.highSeq % U32
  else if i = 3 then h.hdrDataSize % U32
  else if i = 4 then h.firstData % U32
  else if i = 5 then h.chk % U32
  else if i < 78 then h.hashSlots (i - 6) % U32
  else if i < 81 then bytesWord h.pad1 (i - 78)
  else if i = 81 then h.fileSize % U32
  else if i < 102 then bytesWord h.comment (i - 82)
  else if i = 102 then h.days % U32
  else if i = 103 then h.mins % U32
  else if i = 104 then h.ticks % U32
  else if i < 108 then bytesWord h.pad2 (i - 105)
  else if i < 116 then bytesWord h.filename (i - 108)
  else if i < 124 then bytesWord h.pad3 (i - 116)
  else if i = 124 then h.hashChain % U32
  else if i = 125 then h.parent % U32
  else if i = 126 then h.extension % U32
  else h.secType % U32

/-- Serialisation of the root block to its 128 words. -/
def rootWords (r : RootBlk) : Nat → Nat := fun i =>
  if i = 0 then r.rtype % U32
  else if i = 1 then r.headerKey % U32
  else if i = 2 then r.highSeq % U32
  else if i = 3 then r.htSize % U32
  else if i = 4 then r.firstSize % U32
  else if i = 5 then r.chk % U32
  else if i < 78 then r.hashSlots (i - 6) % U32
  else if i = 78 then r.bmFlag % U32
  else if i < 104 then r.bmPages (i - 79) % U32
  else if i = 104 then r.bmExt % U32
  else if i = 105 then r.days % U32
  else if i = 106 then r.mins % U32
  else if i = 107 then r.ticks % U32
  else if i < 116 then bytesWord r.name (i - 108)
  else if i < 118 then bytesWord r.res1 (i - 116)
  else if i = 118 then r.days2 % U32
  else if i = 119 then r.mins2 % U32
  else if i = 120 then r.ticks2 % U32
  else if i = 121 then r.cDays % U32
  else if i = 122 then r.cMins % U32
  else if i = 123 then r.cTicks % U32
  else if i = 124 then r.nextHash % U32
  else if i = 125 then r.parent % U32
  else if i = 126 then r.extension % U32
  else r.secType % U32

/-- Serialisation of a bitmap block to its 128 words. -/
def bmWords (m : BitmapBlk) : Nat → Nat := fun i =>
  if i = 0 then m.chk % U32 else m.map (i - 1) % U32

/-- `update_checksum` on a data block (checksum word 5). -/
def updChkD (d : DataBlk) : DataBlk :=
  let d0 : DataBlk := { d with chk := 0 }
  { d0 with chk := chkOfWords (dbWords d0) 5 }

/-- `update_checksum` on a header block (checksum word 5). -/
def updChkH (h : FileHdr) : FileHdr :=
  let h0 : FileHdr := { h with chk := 0 }
  { h0 with chk := chkOfWords (fhWords h0) 5 }

/-- `update_checksum` on the root block (checksum word 5). -/
def updChkR (r : RootBlk) : RootBlk :=
  let r0 : RootBlk := { r with chk := 0 }
  { r0 with chk := chkOfWords (rootWords r0) 5 }

/-- `update_bitmap_checksum` (checksum word 0). -/
def updChkB (m : BitmapBlk) : BitmapBlk :=
  let m0 : BitmapBlk := { m with chk := 0 }
  { m0 with chk := chkOfWords (bmWords m0) 0 }

def zeroDB : DataBlk := ⟨0, 0, 0, 0, 0, 0, fun _ => 0⟩

def zeroFH : FileHdr :=
  ⟨0, 0, 0, 0, 0, 0, fun _ => 0, fun _ => 0, 0, fun _ => 0, 0, 0, 0,
    fun _ => 0, fun _ => 0, fun _ => 0, 0, 0, 0, 0⟩

def zeroRoot : RootBlk :=
  ⟨0, 0, 0, 0, 0, 0, fun _ => 0, 0, fun _ => 0, 0, 0, 0, 0,
    fun _ => 0, fun _ => 0, 0, 0, 0, 0, 0, 0, 0, 0, 0, 0⟩

def zeroBM : BitmapBlk := ⟨0, fun _ => 0⟩

/-- `memset(block, 0, 512)` after allocation: zero every view of block `b`. -/
def zeroBlock (st : FS) (b : Nat) : FS :=
  { st with
    boot := if b = 0 then fun _ => 0 else st.boot
    root := if b = 880 then zeroRoot else st.root
    hdrs := Function.update st.hdrs b zeroFH
    datas := Function.update st.datas b zeroDB
    bms := Function.update st.bms b zeroBM }

/-- The new value of the touched bitmap word: set the bit (free) or clear
it (used), as 32-bit `|=`/`&= ~`. -/
def bmWordUpd (w biti : Nat) (isFree : Bool) : Nat :=
  if isFree then w % U32 ||| 2 ^ biti else w % U32 &&& (U32 - 1 - 2 ^ biti)

/-- `AdfImage::update_bitmap_for_block(block, is_free)`: locate the bitmap
page (`block / 4064`) and word/bit, flip the bit, refresh the bitmap
checksum; silently skip when out of range, page missing or not writable. -/
def updateBitmapForBlock (st : FS) (b : Nat) (isFree : Bool) : FS :=
  if totalBlocks st ≤ b then st
  else if 25 ≤ b / 4064 then st
  else if ¬ gbOK st 880 then st
  else if st.root.bmPages (b / 4064) = 0 then st
  else if ¬ wOK st (st.root.bmPages (b / 4064)) then st
  else
    { st with bms := (Function.update st.bms (st.root.bmPages (b / 4064))
        (updChkB { st.bms (st.root.bmPages (b / 4064)) with
          map := (Function.update (st.bms (st.root.bmPages (b / 4064))).map
            (b % 4064 / 32)
            (bmWordUpd ((st.bms (st.root.bmPages (b / 4064))).map (b % 4064 / 32))
              (b % 4064 % 32) isFree)) })) }

/-- `AdfImage::allocate_block()`: pop the lowest free block, pre-check the
bitmap page, update sets, bitmap and checksum, zero the block.  Returns 0 on
failure. -/
def allocateBlock (st : FS) : Nat × FS :=
  if h : st.free.Nonempty then
    let b := st.free.min' h
    if 25 ≤ b / 4064 then (0, st)
    else if ¬ gbOK st 880 then (0, st)
    else if st.root.bmPages (b / 4064) = 0 then (0, st)
    else
      let st1 : FS := { st with free := st.free.erase b, used := insert b st.used }
      let st2 := updateBitmapForBlock st1 b false
      let st3 := if wOK st2 b then zeroBlock st2 b else st2
      (b, st3)
  else (0, st)

/-- `AdfImage::free_block(block)`. -/
def freeBlock (st : FS) (b : Nat) : FS :=
  if b < 2 ∨ b = 880 then st
  else
    let st1 : FS := { st with used := st.used.erase b, free := insert b st.free }
    updateBitmapForBlock st1 b true

/-- `amiga_to_unix_time`. -/
def amigaToUnix (days mins ticks : Nat) : Nat :=
  days * 86400 + mins * 60 + ticks / 50 + 252460800

/-- `unix_to_amiga_time` (days, mins, ticks); host times before the Amiga
epoch do not occur. -/
def unixToAmiga (t : Nat) : Nat × Nat × Nat :=
  let a := t - 252460800
  (a / 86400, a % 86400 / 60, a % 86400 % 60 * 50)

/-- `touch_fileblock`. -/
def touchH (h : FileHdr) (now : Nat) : FileHdr :=
  { h with days := (unixToAmiga now).1, mins := (unixToAmiga now).2.1,
           ticks := (unixToAmiga now).2.2 }

/-- `touch_rootblock`. -/
def touchR (r : RootBlk) (now : Nat) : RootBlk :=
  { r with days := (unixToAmiga now).1, mins := (unixToAmiga now).2.1,
           ticks := (unixToAmiga now).2.2 }

/-!  The read path (`AdfImage::read_file`). -/

/-- The seek loop of `read_file`: follow `next_data` for `steps` logical
blocks; a dead or invalid link yields 0. -/
def seekLoop (st : FS) (cur : Nat) : Nat → Nat
  | 0 => cur
  | k + 1 =>
    if cur = 0 then 0
    else
      match getData st cur with
      | none => 0
      | some db => seekLoop st db.nextData k

/-- The produce loop of `read_file`: emit bytes one logical block at a time.
`pos` is the position inside the current logical block; a null `cur` is a
sparse hole (zero fill); an unreadable block ends the copy, leaving the rest
of the zero-initialised output vector.  Fuel bounds the iteration count; the
callers pass fuel ≥ remaining, which lemma `produceLoop_spec` shows is enough. -/
def produceLoop (st : FS) : Nat → Nat → Nat → Nat → List Nat
  | 0, _, _, remaining => List.replicate remaining 0
  | fuel + 1, cur, pos, remaining =>
    if remaining = 0 then []
    else if cur = 0 then
      let can := min remaining (488 - pos)
      List.replicate can 0 ++
        produceLoop st fuel 0 (if 488 ≤ pos + can then 0 else pos + can) (remaining - can)
    else
      match getData st cur with
      | none => List.replicate remaining 0
      | some db =>
        let dbsz := min 488 db.dataSize
        let need := min remaining (488 - pos)
        let take := if pos < dbsz then min need (dbsz - pos) else 0
        let chunk := (List.range take).map (fun t => db.pay (pos + t) % 256) ++
          List.replicate (need - take) 0
        if 488 ≤ pos + need then
          chunk ++ produceLoop st fuel db.nextData 0 (remaining - need)
        else
          chunk ++ produceLoop st fuel cur (pos + need) (remaining - need)

/-- `AdfImage::read_file(file_block_num, offset, size)`. -/
def readFile (st : FS) (fbn offset n : Nat) : List Nat :=
  if fbn = 0 then []
  else
    match getHdr st fbn with
    | none => []
    | some fh =>
      if fh.fileSize ≤ offset then []
      else
        let size := min n (fh.fileSize - offset)
        let cur := seekLoop st fh.firstData (offset / 488)
        produceLoop st size cur (offset % 488) size

/-!  Spec-level view of a file's data chain, written from the spec's words:
logical position `p` lives in data block `p / 488` at offset `p mod 488`. -/

/-- Block number at chain index `i` of the chain rooted at `first`; `none`
when the chain terminates (`next_data == 0`) or hits an unreadable block at
or before index `i`. -/
def chainAt (st : FS) : Nat → Nat → Option Nat
  | 0, first =>
    if first = 0 then none
    else if (getData st first).isSome then some first else none
  | i + 1, first =>
    if first = 0 then none
    else
      match getData st first with
      | none => none
      | some db => chainAt st i db.nextData

/-- The byte a sparse-aware read yields at logical position `p`: payload byte
`p mod 488` of the chain block at index `p / 488` when that block exists and
`p mod 488 < data_size`, zero otherwise. -/
def specByte (st : FS) (first p : Nat) : Nat :=
  match chainAt st (p / 488) first with
  | none => 0
  | some b =>
    match getData st b with
    | none => 0
    | some db => if p % 488 < db.dataSize then db.pay (p % 488) % 256 else 0

lemma chainAt_succ (st : FS) :
    ∀ i first, chainAt st (i + 1) first =
      (chainAt st i first).bind (fun b =>
        match getData st b with
        | none => none
        | some db =>
          if db.nextData = 0 then none
          else if (getData st db.nextData).isSome then some db.nextData else none) := by
  intro i
  induction i with
  | zero =>
    intro first
    by_cases h0 : first = 0
    · simp [chainAt, h0]
    · cases hg : getData st first with
      | none => simp [chainAt, h0, hg]
      | some db => simp [chainAt, h0, hg]
  | succ i ih =>
    intro first
    by_cases h0 : first = 0
    · simp [chainAt, h0]
    · cases hg : getData st first with
      | none => simp [chainAt, h0, hg]
      | some db =>
        have l : chainAt st (i + 1 + 1) first = chainAt st (i + 1) db.nextData := by
          simp [chainAt, h0, hg]
        have r : chainAt st (i + 1) first = chainAt st i db.nextData := by
          simp [chainAt, h0, hg]
        rw [l, r, ih db.nextData]

lemma chainAt_none_succ (st : FS) {i first : Nat} (h : chainAt st i first = none) :
    chainAt st (i + 1) first = none := by
  rw [chainAt_succ, h]
  rfl

lemma chainAt_none_mono (st : FS) {i j first : Nat} (hij : i ≤ j)
    (h : chainAt st i first = none) : chainAt st j first = none := by
  induction j with
  | zero => exact (Nat.le_zero.mp hij) ▸ h
  | succ j ih =>
    rcases Nat.lt_or_ge i (j + 1) with hl | hg
    · exact chainAt_none_succ st (ih (by omega))
    · have : i = j + 1 := by omega
      exact this ▸ h

lemma chainAt_some_valid (st : FS) :
    ∀ i first b, chainAt st i first = some b → (getData st b).isSome := by
  intro i
  induction i with
  | zero =>
    intro first b h
    by_cases h0 : first = 0
    · simp [chainAt, h0] at h
    · cases hg : (getData st first).isSome
      · simp [chainAt, h0, hg] at h
      · simp [chainAt, h0, hg] at h
        exact h ▸ hg
  | succ i ih =>
    intro first b h
    by_cases h0 : first = 0
    · simp [chainAt, h0] at h
    · cases hg : getData st first with
      | none => simp [chainAt, h0, hg] at h
      | some db =>
        simp [chainAt, h0, hg] at h
        exact ih db.nextData b h

lemma seek_rel (st : FS) :
    ∀ k first,
      (chainAt st k first = some (seekLoop st first k) ∧ seekLoop st first k ≠ 0) ∨
      (chainAt st k first = none ∧
        (seekLoop st first k = 0 ∨ getData st (seekLoop st first k) = none)) := by
  intro k
  induction k with
  | zero =>
    intro first
    by_cases h0 : first = 0
    · right
      simp [chainAt, seekLoop, h0]
    · cases hg : getData st first with
      | none =>
        right
        simp [chainAt, seekLoop, h0, hg]
      | some db =>
        left
        simp [chainAt, seekLoop, h0, hg]
  | succ k ih =>
    intro first
    by_cases h0 : first = 0
    · right
      simp [chainAt, seekLoop, h0]
    · cases hg : getData st first with
      | none =>
        right
        simp [chainAt, seekLoop, h0, hg]
      | some db =>
        have hs : seekLoop st first (k + 1) = seekLoop st db.nextData k := by
          simp [seekLoop, h0, hg]
        have hc : chainAt st (k + 1) first = chainAt st k db.nextData := by
          simp [chainAt, h0, hg]
        rw [hs, hc]
        exact ih db.nextData

/-- Loop invariant tying the produce loop's current block to the spec chain
at logical position `P`. -/
def curInv (st : FS) (first P cur : Nat) : Prop :=
  (cur = 0 ∧ chainAt st (P / 488) first = none) ∨
  (cur ≠ 0 ∧ (chainAt st (P / 488) first = some cur ∨
    (getData st cur = none ∧ chainAt st (P / 488) first = none)))

lemma specByte_zero_of_none (st : FS) {first P : Nat}
    (h : chainAt st (P / 488) first = none) (t : Nat) :
    specByte st first (P + t) = 0 := by
  unfold specByte
  rw [chainAt_none_mono st (Nat.div_le_div_right (Nat.le_add_right P t)) h]

lemma produceLoop_nil (st : FS) (fuel cur pos : Nat) :
    produceLoop st fuel cur pos 0 = [] := by
  cases fuel <;> simp [produceLoop]

lemma map_range_zero {n : Nat} {f : Nat → Nat} (hf : ∀ t < n, f t = 0) :
    (List.range n).map f = List.replicate n 0 := by
  refine List.eq_replicate_iff.mpr ⟨by simp, ?_⟩
  intro b hb
  rcases List.mem_map.mp hb with ⟨t, ht, rfl⟩
  exact hf t (List.mem_range.mp ht)

lemma map_range_split (f : Nat → Nat) (a b n : Nat) (hn : n = a + b) :
    (List.range n).map f =
      (List.range a).map f ++ (List.range b).map (fun t => f (a + t)) := by
  subst hn
  rw [List.range_add, List.map_append, List.map_map]
  rfl

lemma produceLoop_spec (st : FS) (first : Nat) :
    ∀ fuel remaining cur P, remaining ≤ fuel → curInv st first P cur →
      produceLoop st fuel cur (P % 488) remaining =
        (List.range remaining).map (fun t => specByte st first (P + t)) := by
  intro fuel
  induction fuel with
  | zero =>
    intro remaining cur P hle _
    have h0 : remaining = 0 := Nat.le_zero.mp hle
    subst h0
    simp [produceLoop]
  | succ fuel ih =>
    intro remaining cur P hle hinv
    by_cases hr0 : remaining = 0
    · subst hr0; simp [produceLoop]
    have hpos : P % 488 < 488 := Nat.mod_lt _ (by omega)
    rcases hinv with ⟨hc0, hnone⟩ | ⟨hcne, hdisj⟩
    · -- sparse hole: cur = 0, zero fill one logical block, recurse
      subst hc0
      rw [show produceLoop st (fuel + 1) 0 (P % 488) remaining =
        List.replicate (min remaining (488 - P % 488)) 0 ++
          produceLoop st fuel 0
            (if 488 ≤ P % 488 + min remaining (488 - P % 488) then 0
              else P % 488 + min remaining (488 - P % 488))
            (remaining - min remaining (488 - P % 488)) from by
          simp [produceLoop, hr0]]
      set can := min remaining (488 - P % 488) with hcan
      have hcan1 : 1 ≤ can := by omega
      have hcanr : can ≤ remaining := by omega
      have hcan488 : P % 488 + can ≤ 488 := by omega
      have hpos' : (if 488 ≤ P % 488 + can then 0 else P % 488 + can) = (P + can) % 488 := by
        by_cases hb : 488 ≤ P % 488 + can
        · rw [if_pos hb]; omega
        · rw [if_neg hb]; omega
      have hnone' : chainAt st ((P + can) / 488) first = none :=
        chainAt_none_mono st (Nat.div_le_div_right (Nat.le_add_right P can)) hnone
      rw [hpos', ih (remaining - can) 0 (P + can) (by omega) (Or.inl ⟨rfl, hnone'⟩),
        map_range_split _ can (remaining - can) remaining (by omega)]
      congr 1
      · exact (map_range_zero fun t _ => specByte_zero_of_none st hnone t).symm
      · refine List.map_congr_left fun t _ => ?_
        show specByte st first (P + can + t) = specByte st first (P + (can + t))
        rw [Nat.add_assoc]
    · -- cur ≠ 0
      have hvalid := chainAt_some_valid st (P / 488) first cur
      rcases hdisj with hsome | ⟨hgnone, hnone⟩
      · -- live block
        rcases Option.isSome_iff_exists.mp (hvalid hsome) with ⟨db, hg⟩
        set pos := P % 488 with hposdef
        set dbsz := min 488 db.dataSize with hdbsz
        set need := min remaining (488 - pos) with hneed
        set tk := if pos < dbsz then min need (dbsz - pos) else 0 with htk
        have hdbcase : (dbsz = 488 ∧ 488 ≤ db.dataSize) ∨
            (dbsz = db.dataSize ∧ db.dataSize ≤ 488) := by
          rw [hdbsz]
          rcases Nat.le_total 488 db.dataSize with h | h
          · exact Or.inl ⟨Nat.min_eq_left h, h⟩
          · exact Or.inr ⟨Nat.min_eq_right h, h⟩
        have hneedr : need ≤ remaining := by rw [hneed]; exact Nat.min_le_left _ _
        have hneedp : need ≤ 488 - pos := by rw [hneed]; exact Nat.min_le_right _ _
        have hneed1 : 1 ≤ need := by
          rw [hneed]; exact Nat.le_min.mpr ⟨by omega, by omega⟩
        have hneed488 : pos + need ≤ 488 := by omega
        have htkneed : tk ≤ need := by
          rw [htk]
          by_cases hpd : pos < dbsz
          · rw [if_pos hpd]; exact Nat.min_le_left _ _
          · rw [if_neg hpd]; omega
        have hA : ∀ u, u < tk → pos + u < db.dataSize := by
          intro u hu
          rw [htk] at hu
          by_cases hpd : pos < dbsz
          · rw [if_pos hpd] at hu
            have h1 : u < dbsz - pos := lt_of_lt_of_le hu (Nat.min_le_right _ _)
            rcases hdbcase with ⟨h2, h3⟩ | ⟨h2, h3⟩ <;> omega
          · rw [if_neg hpd] at hu; omega
        have hB : ∀ u, tk ≤ u → u < need → ¬ (pos + u < db.dataSize) := by
          intro u h1 h2
          rw [htk] at h1
          by_cases hpd : pos < dbsz
          · rw [if_pos hpd] at h1
            have h3 : dbsz - pos ≤ u := by
              rcases Nat.le_total need (dbsz - pos) with hc | hc
              · rw [Nat.min_eq_left hc] at h1; omega
              · rw [Nat.min_eq_right hc] at h1; omega
            rcases hdbcase with ⟨h4, h5⟩ | ⟨h4, h5⟩ <;> omega
          · rw [if_neg hpd] at h1
            rcases hdbcase with ⟨h4, h5⟩ | ⟨h4, h5⟩ <;> omega
        have hunf : produceLoop st (fuel + 1) cur pos remaining =
            ((List.range tk).map (fun t => db.pay (pos + t) % 256) ++
              List.replicate (need - tk) 0) ++
            (if 488 ≤ pos + need then
              produceLoop st fuel db.nextData 0 (remaining - need)
            else produceLoop st fuel cur (pos + need) (remaining - need)) := by
          by_cases hb : 488 ≤ pos + need
          · simp [produceLoop, hr0, hcne, hg, hb, ← hdbsz, ← hneed, ← htk]
          · simp [produceLoop, hr0, hcne, hg, hb, ← hdbsz, ← hneed, ← htk]
        rw [hunf]
        have hspec : ∀ t, t < need →
            specByte st first (P + t) =
              if pos + t < db.dataSize then db.pay (pos + t) % 256 else 0 := by
          intro t ht
          unfold specByte
          have hq : (P + t) / 488 = P / 488 := by omega
          have hm : (P + t) % 488 = pos + t := by omega
          rw [hq, hm, hsome]
          simp only [hg]
        have hchunk : ((List.range tk).map (fun t => db.pay (pos + t) % 256) ++
            List.replicate (need - tk) 0) =
            (List.range need).map (fun t => specByte st first (P + t)) := by
          rw [map_range_split _ tk (need - tk) need (by omega)]
          congr 1
          · refine (List.map_congr_left fun t htm => ?_).symm
            have ht : t < tk := List.mem_range.mp htm
            rw [hspec t (by omega), if_pos (hA t ht)]
          · refine (map_range_zero fun t htr => ?_).symm
            show specByte st first (P + (tk + t)) = 0
            rw [hspec (tk + t) (by omega),
              if_neg (hB (tk + t) (Nat.le_add_right _ _) (by omega))]
        rw [hchunk, map_range_split (fun t => specByte st first (P + t)) need
          (remaining - need) remaining (by omega)]
        congr 1
        by_cases hadv : 488 ≤ pos + need
        · rw [if_pos hadv]
          have hP' : (P + need) % 488 = 0 := by omega
          have hq' : (P + need) / 488 = P / 488 + 1 := by omega
          have hchain' := chainAt_succ st (P / 488) first
          rw [hsome] at hchain'
          have hinv' : curInv st first (P + need) db.nextData := by
            by_cases hnxt : db.nextData = 0
            · refine Or.inl ⟨hnxt, ?_⟩
              rw [hq', hchain']
              simp [hg, hnxt]
            · cases hvn : (getData st db.nextData) with
              | none =>
                refine Or.inr ⟨hnxt, Or.inr ⟨hvn, ?_⟩⟩
                rw [hq', hchain']
                simp [hg, hnxt, hvn]
              | some db2 =>
                refine Or.inr ⟨hnxt, Or.inl ?_⟩
                rw [hq', hchain']
                simp [hg, hnxt, hvn]
          have hihr := ih (remaining - need) db.nextData (P + need) (by omega) hinv'
          rw [hP'] at hihr
          rw [hihr]
          refine List.map_congr_left fun t _ => ?_
          show specByte st first (P + need + t) = specByte st first (P + (need + t))
          rw [Nat.add_assoc]
        · rw [if_neg hadv]
          have hre : remaining - need = 0 := by omega
          rw [hre, produceLoop_nil]
          simp
      · -- current block unreadable: copy stops, rest of the vector stays zero
        rw [show produceLoop st (fuel + 1) cur (P % 488) remaining =
            List.replicate remaining 0 from by simp [produceLoop, hr0, hcne, hgnone]]
        exact (map_range_zero fun t _ => specByte_zero_of_none st hnone t).symm

/-- Claim C4: sparse-aware read.  `read_file` returns the empty result when
`offset ≥ file_size`, and otherwise exactly `min(n, file_size − offset)`
bytes, where the byte at logical position `p` is payload byte `p mod 488` of
the chain block at index `p / 488` when that block exists and
`p mod 488 < data_size`, and zero when `p mod 488 ≥ data_size` or the chain
ends before index `p / 488` (`specByte`). -/
theorem read_file_sparse (st : FS) (fbn offset n : Nat) (fh : FileHdr)
    (hnz : fbn ≠ 0) (hv : getHdr st fbn = some fh) :
    readFile st fbn offset n =
      if fh.fileSize ≤ offset then []
      else (List.range (min n (fh.fileSize - offset))).map
        (fun q => specByte st fh.firstData (offset + q)) := by
  unfold readFile
  rw [if_neg hnz, hv]
  show (if fh.fileSize ≤ offset then []
      else produceLoop st (min n (fh.fileSize - offset))
        (seekLoop st fh.firstData (offset / 488)) (offset % 488)
        (min n (fh.fileSize - offset))) = _
  by_cases hoff : fh.fileSize ≤ offset
  · rw [if_pos hoff, if_pos hoff]
  · rw [if_neg hoff, if_neg hoff]
    have hseek := seek_rel st (offset / 488) fh.firstData
    have hinv : curInv st fh.firstData offset (seekLoop st fh.firstData (offset / 488)) := by
      rcases hseek with ⟨hsome, hne⟩ | ⟨hnone, hcase⟩
      · exact Or.inr ⟨hne, Or.inl hsome⟩
      · rcases hcase with h0 | hdead
        · exact Or.inl ⟨h0, hnone⟩
        · by_cases hz : seekLoop st fh.firstData (offset / 488) = 0
          · exact Or.inl ⟨hz, hnone⟩
          · exact Or.inr ⟨hz, Or.inr ⟨hdead, hnone⟩⟩
    exact produceLoop_spec st fh.firstData (min n (fh.fileSize - offset))
      (min n (fh.fileSize - offset)) _ offset le_rfl hinv

/-- A tiny concrete volume: a standard 901120-byte image with a file header
at block 881 (size 10, one data block at 882 holding 4 valid bytes). -/
def c4hdr : FileHdr := { zeroFH with fileSize := 10, firstData := 882 }

def c4fs : FS :=
  { imgBytes := 901120
    readOnly := false
    boot := fun _ => 0
    root := zeroRoot
    hdrs := Function.update (fun _ => zeroFH) 881 c4hdr
    datas := Function.update (fun _ => zeroDB) 882
      { zeroDB with dataSize := 4, pay := fun i => i + 1 }
    bms := fun _ => zeroBM
    free := ∅
    used := ∅
    cache := [] }

/-- Witness for C4 on the concrete volume `c4fs`. -/
theorem read_file_sparse_witness :
    readFile c4fs 881 0 10 =
      if c4hdr.fileSize ≤ 0 then []
      else (List.range (min 10 (c4hdr.fileSize - 0))).map
        (fun q => specByte c4fs c4hdr.firstData (0 + q)) :=
  read_file_sparse c4fs 881 0 10 c4hdr (by decide) (by rfl)

/-- Claim C9 (implicit): for every block number `b` with `(b+1)·512` beyond
the image size, `get_block` and `get_block_writable` return null (and
`get_block_writable` returns null on any read-only volume), and a caller
receiving null degrades: `read_file` on such a header block yields the empty
result. -/
theorem get_block_bounds (st : FS) (b offset n : Nat)
    (h : st.imgBytes < (b + 1) * 512) :
    (getHdr st b = none ∧ getData st b = none ∧ getBm st b = none ∧
        wOK st b = false) ∧
      (∀ st2 : FS, ∀ b2 : Nat, st2.readOnly = true → wOK st2 b2 = false) ∧
      readFile st b offset n = [] := by
  have hle : ¬ ((b + 1) * 512 ≤ st.imgBytes) := by omega
  have hg : gbOK st b = false := by simp [gbOK, hle]
  refine ⟨⟨?_, ?_, ?_, ?_⟩, ?_, ?_⟩
  · simp [getHdr, hg]
  · simp [getData, hg]
  · simp [getBm, hg]
  · simp [wOK, hg]
  · intro st2 b2 hro
    simp [wOK, hro]
  · by_cases hb0 : b = 0
    · simp [readFile, hb0]
    · simp [readFile, hb0, getHdr, hg]

/-- Witness for C9: block 1760 of a standard 901120-byte image is out of
bounds. -/
theorem get_block_bounds_witness :
    c4fs.imgBytes < (1760 + 1) * 512 ∧
      ((getHdr c4fs 1760 = none ∧ getData c4fs 1760 = none ∧
          getBm c4fs 1760 = none ∧ wOK c4fs 1760 = false) ∧
        (∀ st2 : FS, ∀ b2 : Nat, st2.readOnly = true → wOK st2 b2 = false) ∧
        readFile c4fs 1760 0 4 = []) :=
  ⟨by decide, get_block_bounds c4fs 1760 0 4 (by decide)⟩

/-!  `AdfImage::parse_filesystem` (everything before `parse_bitmap`). -/

def DOS_FFS : Nat := 0x444F5301
def DOS_FFS_INTL : Nat := 0x444F5303
def DOS_FFS_DC : Nat := 0x444F5305

/-- `BcplString::read(data, max_len)`. -/
def bcplRead (f : Nat → Nat) (maxLen : Nat) : List Nat :=
  if f 0 % 256 = 0 then []
  else (List.range (min (f 0 % 256) maxLen)).map fun i => f (i + 1) % 256

/-- What `parse_filesystem` establishes on success. -/
structure ParseRes where
  dosType : Nat
  isFFS : Bool
  rootNum : Nat
  volName : List Nat
deriving DecidableEq

/-- `AdfImage::parse_filesystem` up to (and excluding) the `parse_bitmap`
call: read the DOS type word from block 0, fix the root at 880, set the FFS
flag by full 32-bit comparison with the three DOS_FFS variants, tolerate a
non-`DOS\0` prefix, then validate the root block's type and sec_type. -/
def parseFilesystem (st : FS) : Option ParseRes :=
  if ¬ gbOK st 0 then none
  else
    let dosType := bytesWord st.boot 0
    let isFFS : Bool := dosType = DOS_FFS ∨ dosType = DOS_FFS_INTL ∨ dosType = DOS_FFS_DC
    -- the source checks `(dos_type_ & 0xFFFFFF00) != 0x444F5300` but the
    -- if-body is empty: non-DOS prefixes fall through to standard geometry
    if ¬ gbOK st 880 then none
    else if st.root.rtype ≠ T_HEADER then none
    else if st.root.secType ≠ ST_ROOT ∧ st.root.secType ≠ 0 then none
    else some ⟨dosType, isFFS, 880, bcplRead st.root.name 30⟩

/-- A volume whose boot block carries DOS type 0x41414101 (`AAA\x01`): the
low byte is 1 but the three high bytes are not `DOS\0`. -/
def c8fs : FS :=
  { c4fs with
    boot := fun i => if i = 3 then 1 else if i < 3 then 65 else 0
    root := { zeroRoot with rtype := 2, secType := 1 } }

/-- Counterexample for C8: the image `c8fs` has DOS-type low byte 1 (in
{1,3,5}) and is accepted with root 880, yet the FFS flag is `false` — the
source compares the full 32-bit DOS type, not the low byte alone. -/
theorem parse_ffs_flag_counterexample :
    bytesWord c8fs.boot 0 % 256 = 1 ∧
      parseFilesystem c8fs =
        some { dosType := 1094795521, isFFS := false, rootNum := 880, volName := [] } := by
  constructor
  · decide
  · decide

/-- Claim C8 as amended: on successful parse the root block is fixed at 880
and the FFS flag is set exactly when the full 32-bit DOS type equals one of
0x444F5301, 0x444F5303, 0x444F5305 (low byte in {1,3,5} AND `DOS\0` prefix);
any image passing the root-block checks is accepted regardless of its DOS
prefix, with the standard geometry. -/
theorem parse_ffs_flag (st : FS) (r : ParseRes) (h : parseFilesystem st = some r) :
    r.rootNum = 880 ∧
      (r.isFFS = true ↔ (bytesWord st.boot 0 = DOS_FFS ∨
        bytesWord st.boot 0 = DOS_FFS_INTL ∨ bytesWord st.boot 0 = DOS_FFS_DC)) ∧
      (∀ st2 : FS, gbOK st2 0 = true → gbOK st2 880 = true →
        st2.root.rtype = T_HEADER → (st2.root.secType = ST_ROOT ∨ st2.root.secType = 0) →
        (parseFilesystem st2).isSome = true) := by
  have hside : ∀ st2 : FS, gbOK st2 0 = true → gbOK st2 880 = true →
      st2.root.rtype = T_HEADER → (st2.root.secType = ST_ROOT ∨ st2.root.secType = 0) →
      (parseFilesystem st2).isSome = true := by
    intro st2 h0 h880 hrt hst
    unfold parseFilesystem
    have hst' : ¬ (st2.root.secType ≠ ST_ROOT ∧ st2.root.secType ≠ 0) := by
      rcases hst with h | h
      · intro hc; exact hc.1 h
      · intro hc; exact hc.2 h
    simp [h0, h880, hrt, hst']
  unfold parseFilesystem at h
  by_cases h0 : gbOK st 0
  case neg => simp [h0] at h
  by_cases h880 : gbOK st 880
  case neg => simp [h0, h880] at h
  by_cases hrt : st.root.rtype ≠ T_HEADER
  case pos => simp [h0, h880, hrt] at h
  by_cases hst : st.root.secType ≠ ST_ROOT ∧ st.root.secType ≠ 0
  case pos => simp [h0, h880, hrt, hst] at h
  simp only [h0, h880, hrt, hst] at h
  simp at h
  refine ⟨?_, ?_, hside⟩
  · rw [← h]
  · rw [← h]
    simp

/-!  The write path (`AdfImage::write_file`). -/

def EROFS : Nat := 30
def ENOENT : Nat := 2
def EIO : Nat := 5
def ENOSPC : Nat := 28

/-- Result of `write_file`: an errno (returned negated in C) or a byte
count. -/
inductive WriteRes where
  | err : Nat → WriteRes
  | ok : Nat → WriteRes
deriving DecidableEq

/-- Outcome of the main write loop: an errno return, the bare
`return bytes_written` taken on allocation failure (no timestamp touch), or
normal loop exit. -/
inductive WLRes where
  | fail : Nat → FS → WLRes
  | early : Nat → FS → WLRes
  | done : FS → WLRes

/-- The seek phase of `write_file`: walk the existing chain by 488-byte
strides until the next stride would cover `offset`.  Pure (no mutation).
Fuel-exhaustion (unreachable at the fuel the caller picks, since `pos` grows
by 488 each step and the loop stops once `pos + 488 > offset`) reports EIO. -/
def seekW (st : FS) (offset : Nat) : Nat → Nat → Nat → Nat → Except Nat (Nat × Nat × Nat)
  | 0, _, _, _ => Except.error EIO
  | k + 1, cur, prev, pos =>
    if cur = 0 then Except.ok (cur, prev, pos)
    else
      match getData st cur with
      | none => Except.error EIO
      | some db =>
        if offset < pos + 488 then Except.ok (cur, prev, pos)
        else seekW st offset k db.nextData cur (pos + 488)

/-- Outcome of the shared allocate–initialise–link step of the bridge and
copy loops of `write_file`. -/
inductive LinkRes where
  | noSpace : FS → LinkRes
  | ioErr : FS → LinkRes
  | linked : Nat → FS → LinkRes

/-- The allocate–initialise–link step duplicated in the bridge and copy
loops: allocate a block, initialise it as a zeroed OFS data block with the
given seq_num, link it after `prev` (or as the file's `first_data`), refresh
the checksums of the touched blocks. -/
def allocLink (fbn seq : Nat) (st : FS) (prev : Nat) : LinkRes :=
  match allocateBlock st with
  | (b, st1) =>
    if b = 0 then LinkRes.noSpace st1
    else if ¬ wOK st1 b then LinkRes.ioErr st1
    else
      let nb1 : DataBlk :=
        { st1.datas b with
          dtype := T_DATA, headerKey := fbn, seqNum := seq,
          dataSize := 0, nextData := 0, pay := fun _ => 0 }
      let st2 : FS := { st1 with datas := Function.update st1.datas b nb1 }
      let st3 : FS :=
        if prev ≠ 0 then
          if wOK st2 prev then
            { st2 with datas := (Function.update st2.datas prev
                (updChkD { st2.datas prev with nextData := b })) }
          else st2
        else
          { st2 with hdrs := (Function.update st2.hdrs fbn
              (updChkH { st2.hdrs fbn with firstData := b })) }
      let st4 : FS :=
        { st3 with datas := Function.update st3.datas b (updChkD (st3.datas b)) }
      LinkRes.linked b st4

/-- The gap-bridging phase of `write_file`: while `pos + 488 ≤ offset`,
allocate a zero-filled block with the seq_num of the stride at `pos`, link it
after `prev` (or as `first_data`), refresh checksums, and advance.  Note the
loop leaves `current_block` pointing at the last bridge block. -/
def bridgeW (fbn offset : Nat) :
    Nat → FS → Nat → Nat → Nat → FS × Except Nat (Nat × Nat × Nat)
  | 0, st, _, _, _ => (st, Except.error EIO)
  | k + 1, st, cur, prev, pos =>
    if pos + 488 ≤ offset then
      match allocLink fbn (pos / 488 + 1) st prev with
      | LinkRes.noSpace st1 => (st1, Except.error ENOSPC)
      | LinkRes.ioErr st1 => (st1, Except.error EIO)
      | LinkRes.linked b st4 => bridgeW fbn offset k st4 b b (pos + 488)
    else (st, Except.ok (cur, prev, pos))

/-- The copy loop of `write_file`: allocate-and-link missing blocks (partial
return of `bytes_written` on allocation failure), copy each chunk into the
payload at `write_pos - block_start`, grow `data_size`, refresh the block
checksum, advance by strides. -/
def writeLoopW (fbn : Nat) (buf : List Nat) :
    Nat → FS → Nat → Nat → Nat → Nat → Nat → WLRes
  | 0, st, _, _, _, _, _ => WLRes.fail EIO st
  | k + 1, st, cur, prev, pos, bw, wpos =>
    if buf.length ≤ bw then WLRes.done st
    else
      match (if cur = 0 then
          match allocLink fbn (pos / 488 + 1) st prev with
          | LinkRes.noSpace st1 => Sum.inl (WLRes.early bw st1)
          | LinkRes.ioErr st1 => Sum.inl (WLRes.fail EIO st1)
          | LinkRes.linked b st4 => Sum.inr (st4, b)
        else Sum.inr (st, cur)) with
      | Sum.inl r => r
      | Sum.inr (st', cur') =>
        if ¬ wOK st' cur' then WLRes.fail EIO st'
        else
          let db := st'.datas cur'
          let boff := wpos - pos / 488 * 488
          let wsize := min (buf.length - bw) (488 - boff)
          if 488 ≤ boff then WLRes.fail EIO st'
          else
            let db' := updChkD
              { db with
                pay := fun j => if boff ≤ j ∧ j < boff + wsize
                  then buf.getD (bw + (j - boff)) 0 else db.pay j,
                dataSize := max db.dataSize (boff + wsize) }
            let st2 : FS := { st' with datas := Function.update st'.datas cur' db' }
            if 488 ≤ boff + wsize then
              writeLoopW fbn buf k st2 db.nextData cur' (pos / 488 * 488 + 488)
                (bw + wsize) (wpos + wsize)
            else
              writeLoopW fbn buf k st2 cur' prev pos (bw + wsize) (wpos + wsize)

/-- The tail of `write_file` after the size commitment: first-block
allocation, seek, bridge, copy loop, final timestamp/checksum refresh. -/
def writeCore (st1 : FS) (fbn : Nat) (buf : List Nat) (offset now : Nat) : WriteRes × FS :=
  let fd0 := (st1.hdrs fbn).firstData
  let step5 : (WriteRes × FS) ⊕ (FS × Nat) :=
    if fd0 = 0 ∧ 0 < buf.length then
      match allocateBlock st1 with
      | (b, st2) =>
        if b = 0 then Sum.inl (WriteRes.err ENOSPC, st2)
        else
          let st3 : FS :=
            { st2 with hdrs := (Function.update st2.hdrs fbn
                (updChkH { st2.hdrs fbn with firstData := b })) }
          let nb1 : DataBlk :=
            { st3.datas b with
              dtype := T_DATA, headerKey := fbn, seqNum := 1, nextData := 0 }
          let st4 : FS :=
            if wOK st3 b then
              { st3 with datas := Function.update st3.datas b nb1 }
            else st3
          Sum.inr (st4, b)
    else Sum.inr (st1, fd0)
  match step5 with
  | Sum.inl r => r
  | Sum.inr (stA, fdb) =>
    match seekW stA offset (offset / 488 + 2) fdb 0 0 with
    | Except.error e => (WriteRes.err e, stA)
    | Except.ok (cur, prev, pos) =>
      match bridgeW fbn offset (offset / 488 + 2) stA cur prev pos with
      | (stB, Except.error e) => (WriteRes.err e, stB)
      | (stB, Except.ok (cur2, prev2, pos2)) =>
        match writeLoopW fbn buf (buf.length + 1) stB cur2 prev2 pos2 0 offset with
        | WLRes.fail e stC => (WriteRes.err e, stC)
        | WLRes.early bw stC => (WriteRes.ok bw, stC)
        | WLRes.done stC =>
          (WriteRes.ok buf.length,
            { stC with hdrs :=
                (Function.update stC.hdrs fbn (updChkH (touchH (stC.hdrs fbn) now))) })

/-- `AdfImage::write_file(file_block_num, buf, size, offset)`; `now` stands
for the host clock read by `touch_fileblock`. -/
def writeFile (st : FS) (fbn : Nat) (buf : List Nat) (offset now : Nat) : WriteRes × FS :=
  if st.readOnly then (WriteRes.err EROFS, st)
  else if fbn = 0 then (WriteRes.err ENOENT, st)
  else if ¬ wOK st fbn then (WriteRes.err EIO, st)
  else
    let currentSize := (st.hdrs fbn).fileSize
    let newSize := max currentSize ((offset + buf.length) % U32)
    let st1 : FS :=
      if newSize ≠ currentSize then
        { st with hdrs := (Function.update st.hdrs fbn
            (updChkH { st.hdrs fbn with fileSize := newSize })) }
      else st
    writeCore st1 fbn buf offset now

/-!  Claim C10: the size commitment of `write_file`.  The header's
`file_size` is raised to `max(old, offset+n)` (and its checksum refreshed)
before any payload byte is written, and no later step of the write path
touches `file_size` again — so a partial write (allocation failure) leaves
the committed size in place. -/

/-- What the write path preserves: the header's `file_size` and the fact
that the header block is not in the free set (so allocation never zeroes
it). -/
def sizeInv (fbn v : Nat) (st : FS) : Prop :=
  (st.hdrs fbn).fileSize = v ∧ fbn ∉ st.free

lemma updChkH_fileSize (h : FileHdr) : (updChkH h).fileSize = h.fileSize := by
  cases h
  rfl

lemma touchH_fileSize (h : FileHdr) (now : Nat) : (touchH h now).fileSize = h.fileSize := by
  cases h
  rfl

lemma setFirst_fileSize (h : FileHdr) (b : Nat) :
    ({ h with firstData := b } : FileHdr).fileSize = h.fileSize := by
  cases h
  rfl

lemma setSize_fileSize (h : FileHdr) (v : Nat) :
    ({ h with fileSize := v } : FileHdr).fileSize = v := by
  cases h
  rfl

lemma updBM_frame (st : FS) (b : Nat) (f : Bool) :
    (updateBitmapForBlock st b f).hdrs = st.hdrs ∧
      (updateBitmapForBlock st b f).free = st.free := by
  unfold updateBitmapForBlock
  split_ifs <;> exact ⟨rfl, rfl⟩

lemma updBM_frame_full (st : FS) (b : Nat) (f : Bool) :
    (updateBitmapForBlock st b f).hdrs = st.hdrs ∧
      (updateBitmapForBlock st b f).free = st.free ∧
      (updateBitmapForBlock st b f).used = st.used ∧
      (updateBitmapForBlock st b f).datas = st.datas ∧
      (updateBitmapForBlock st b f).imgBytes = st.imgBytes ∧
      (updateBitmapForBlock st b f).readOnly = st.readOnly ∧
      (updateBitmapForBlock st b f).root = st.root := by
  unfold updateBitmapForBlock
  split_ifs <;> exact ⟨rfl, rfl, rfl, rfl, rfl, rfl, rfl⟩

lemma alloc_sizeInv (st : FS) (fbn v : Nat) (h : sizeInv fbn v st) :
    sizeInv fbn v (allocateBlock st).2 := by
  rcases h with ⟨h1, h2⟩
  unfold allocateBlock
  by_cases hne : st.free.Nonempty
  · rw [dif_pos hne]
    dsimp only
    set b := st.free.min' hne with hb
    have hbmem : b ∈ st.free := st.free.min'_mem hne
    have hbne : b ≠ fbn := fun hc => h2 (hc ▸ hbmem)
    set st1 : FS := { st with free := st.free.erase b, used := insert b st.used } with hst1
    have hfr := updBM_frame st1 b false
    have hsub1 : (updateBitmapForBlock st1 b false).hdrs fbn = st.hdrs fbn := by
      rw [hfr.1]
    have hsub2 : fbn ∉ (updateBitmapForBlock st1 b false).free := by
      rw [hfr.2]
      intro hc
      exact h2 (Finset.mem_of_mem_erase hc)
    by_cases h25 : 25 ≤ b / 4064
    · rw [if_pos h25]
      exact ⟨h1, h2⟩
    rw [if_neg h25]
    by_cases hroot : gbOK st 880
    case neg =>
      rw [if_pos (by simpa using hroot)]
      exact ⟨h1, h2⟩
    rw [if_neg (by simpa using hroot)]
    by_cases hbm : st.root.bmPages (b / 4064) = 0
    · rw [if_pos hbm]
      exact ⟨h1, h2⟩
    rw [if_neg hbm]
    show sizeInv fbn v (if wOK (updateBitmapForBlock st1 b false) b then
      zeroBlock (updateBitmapForBlock st1 b false) b else updateBitmapForBlock st1 b false)
    by_cases hw : wOK (updateBitmapForBlock st1 b false) b
    · rw [if_pos hw]
      constructor
      · show ((Function.update (updateBitmapForBlock st1 b false).hdrs b zeroFH) fbn).fileSize = v
        rw [Function.update_noteq (fun hc => hbne hc.symm), hsub1]
        exact h1
      · show fbn ∉ (updateBitmapForBlock st1 b false).free
        exact hsub2
    · rw [if_neg hw]
      exact ⟨by rw [hsub1]; exact h1, hsub2⟩
  · rw [dif_neg hne]
    exact ⟨h1, h2⟩

lemma alloc_mem (st : FS) : (allocateBlock st).1 = 0 ∨ (allocateBlock st).1 ∈ st.free := by
  unfold allocateBlock
  by_cases hne : st.free.Nonempty
  · rw [dif_pos hne]
    dsimp only
    by_cases h25 : 25 ≤ st.free.min' hne / 4064
    · rw [if_pos h25]
      exact Or.inl rfl
    rw [if_neg h25]
    by_cases hroot : gbOK st 880
    case neg =>
      rw [if_pos (by simpa using hroot)]
      exact Or.inl rfl
    rw [if_neg (by simpa using hroot)]
    by_cases hbm : st.root.bmPages (st.free.min' hne / 4064) = 0
    · rw [if_pos hbm]
      exact Or.inl rfl
    rw [if_neg hbm]
    exact Or.inr (st.free.min'_mem hne)
  · rw [dif_neg hne]
    exact Or.inl rfl

/-- `sizeInv` transported to each outcome of `allocLink`. -/
def lrInv (fbn v : Nat) : LinkRes → Prop
  | LinkRes.noSpace st => sizeInv fbn v st
  | LinkRes.ioErr st => sizeInv fbn v st
  | LinkRes.linked _ st => sizeInv fbn v st

lemma allocLink_inv (fbn seq : Nat) (st : FS) (prev v : Nat) (h : sizeInv fbn v st) :
    lrInv fbn v (allocLink fbn seq st prev) := by
  have halloc := alloc_sizeInv st fbn v h
  unfold allocLink
  rcases hab : allocateBlock st with ⟨b0, st1⟩
  rw [hab] at halloc
  have halloc1 : sizeInv fbn v st1 := halloc
  dsimp only
  by_cases hb0 : b0 = 0
  · rw [if_pos hb0]
    exact halloc1
  · rw [if_neg hb0]
    by_cases hw : wOK st1 b0
    · rw [if_neg (by simpa using hw)]
      show sizeInv fbn v _
      constructor
      · split_ifs with hp hwp
        · exact halloc1.1
        · exact halloc1.1
        · show ((Function.update st1.hdrs fbn
              (updChkH { st1.hdrs fbn with firstData := b0 })) fbn).fileSize = v
          rw [Function.update_same, updChkH_fileSize, setFirst_fileSize]
          exact halloc1.1
      · split_ifs with hp hwp
        · exact halloc1.2
        · exact halloc1.2
        · exact halloc1.2
    · rw [if_pos (by simpa using hw)]
      exact halloc1

lemma bridge_sizeInv (fbn offset v : Nat) :
    ∀ fuel st cur prev pos, sizeInv fbn v st →
      sizeInv fbn v (bridgeW fbn offset fuel st cur prev pos).1 := by
  intro fuel
  induction fuel with
  | zero =>
    intro st _ _ _ h
    exact h
  | succ k ih =>
    intro st cur prev pos h
    unfold bridgeW
    by_cases hlt : pos + 488 ≤ offset
    · rw [if_pos hlt]
      have hlk := allocLink_inv fbn (pos / 488 + 1) st prev v h
      cases hl : allocLink fbn (pos / 488 + 1) st prev with
      | noSpace st1 =>
        rw [hl] at hlk
        exact hlk
      | ioErr st1 =>
        rw [hl] at hlk
        exact hlk
      | linked b st4 =>
        rw [hl] at hlk
        exact ih st4 b b (pos + 488) hlk
    · rw [if_neg hlt]
      exact h

/-- `sizeInv` transported to each outcome of the write loop. -/
def wlInv (fbn v : Nat) : WLRes → Prop
  | WLRes.fail _ st => sizeInv fbn v st
  | WLRes.early _ st => sizeInv fbn v st
  | WLRes.done st => sizeInv fbn v st

lemma writeLoop_inv (fbn : Nat) (buf : List Nat) (v : Nat) :
    ∀ fuel st cur prev pos bw wpos, sizeInv fbn v st →
      wlInv fbn v (writeLoopW fbn buf fuel st cur prev pos bw wpos) := by
  intro fuel
  induction fuel with
  | zero =>
    intro st cur prev pos bw wpos h
    exact h
  | succ k ih =>
    intro st cur prev pos bw wpos h
    unfold writeLoopW
    by_cases hdone : buf.length ≤ bw
    · rw [if_pos hdone]
      exact h
    rw [if_neg hdone]
    have hcopy : ∀ st' cur', sizeInv fbn v st' →
        wlInv fbn v (
          if ¬ wOK st' cur' then WLRes.fail EIO st'
          else
            let db := st'.datas cur'
            let boff := wpos - pos / 488 * 488
            let wsize := min (buf.length - bw) (488 - boff)
            if 488 ≤ boff then WLRes.fail EIO st'
            else
              let db2 := updChkD
                { db with
                  pay := fun j => if boff ≤ j ∧ j < boff + wsize
                    then buf.getD (bw + (j - boff)) 0 else db.pay j,
                  dataSize := max db.dataSize (boff + wsize) }
              let st2 : FS := { st' with datas := Function.update st'.datas cur' db2 }
              if 488 ≤ boff + wsize then
                writeLoopW fbn buf k st2 db.nextData cur' (pos / 488 * 488 + 488)
                  (bw + wsize) (wpos + wsize)
              else
                writeLoopW fbn buf k st2 cur' prev pos (bw + wsize) (wpos + wsize)) := by
      intro st' cur' h'
      by_cases hw : wOK st' cur'
      · rw [if_neg (by simpa using hw)]
        dsimp only
        by_cases hb : 488 ≤ wpos - pos / 488 * 488
        · rw [if_pos hb]
          exact h'
        · rw [if_neg hb]
          have h2 : sizeInv fbn v { st' with datas := (Function.update st'.datas cur'
              (updChkD
                { st'.datas cur' with
                  pay := fun j => if wpos - pos / 488 * 488 ≤ j ∧
                      j < wpos - pos / 488 * 488 +
                        min (buf.length - bw) (488 - (wpos - pos / 488 * 488))
                    then buf.getD (bw + (j - (wpos - pos / 488 * 488))) 0 else (st'.datas cur').pay j,
                  dataSize := max (st'.datas cur').dataSize
                    (wpos - pos / 488 * 488 +
                      min (buf.length - bw) (488 - (wpos - pos / 488 * 488))) })) } :=
            ⟨h'.1, h'.2⟩
          by_cases hadv : 488 ≤ wpos - pos / 488 * 488 +
              min (buf.length - bw) (488 - (wpos - pos / 488 * 488))
          · rw [if_pos hadv]
            exact ih _ _ _ _ _ _ h2
          · rw [if_neg hadv]
            exact ih _ _ _ _ _ _ h2
      · rw [if_pos (by simpa using hw)]
        exact h'
    by_cases hc : cur = 0
    · simp only [hc, if_pos]
      have hlk := allocLink_inv fbn (pos / 488 + 1) st prev v h
      cases hl : allocLink fbn (pos / 488 + 1) st prev with
      | noSpace st1 =>
        rw [hl] at hlk
        exact hlk
      | ioErr st1 =>
        rw [hl] at hlk
        exact hlk
      | linked b st4 =>
        rw [hl] at hlk
        exact hcopy st4 b hlk
    · simp only [hc, if_neg]
      exact hcopy st cur h

lemma writeCore_inv (st1 : FS) (fbn : Nat) (buf : List Nat) (offset now v : Nat)
    (h : sizeInv fbn v st1) :
    ((writeCore st1 fbn buf offset now).2.hdrs fbn).fileSize = v := by
  unfold writeCore
  dsimp only
  have hrest : ∀ stA : FS, ∀ fdb : Nat, sizeInv fbn v stA →
      ((match seekW stA offset (offset / 488 + 2) fdb 0 0 with
        | Except.error e => (WriteRes.err e, stA)
        | Except.ok (cur, prev, pos) =>
          match bridgeW fbn offset (offset / 488 + 2) stA cur prev pos with
          | (stB, Except.error e) => (WriteRes.err e, stB)
          | (stB, Except.ok (cur2, prev2, pos2)) =>
            match writeLoopW fbn buf (buf.length + 1) stB cur2 prev2 pos2 0 offset with
            | WLRes.fail e stC => (WriteRes.err e, stC)
            | WLRes.early bw stC => (WriteRes.ok bw, stC)
            | WLRes.done stC =>
              (WriteRes.ok buf.length,
                { stC with hdrs :=
                    (Function.update stC.hdrs fbn (updChkH (touchH (stC.hdrs fbn) now))) })
        ).2.hdrs fbn).fileSize = v := by
    intro stA fdb hA
    cases hseek : seekW stA offset (offset / 488 + 2) fdb 0 0 with
    | error e => exact hA.1
    | ok tup =>
      rcases tup with ⟨cur, prev, pos⟩
      dsimp only
      have hbr := bridge_sizeInv fbn offset v (offset / 488 + 2) stA cur prev pos hA
      rcases hb : bridgeW fbn offset (offset / 488 + 2) stA cur prev pos with ⟨stB, rb⟩
      rw [hb] at hbr
      cases rb with
      | error e => exact hbr.1
      | ok tup2 =>
        rcases tup2 with ⟨cur2, prev2, pos2⟩
        dsimp only
        have hwl := writeLoop_inv fbn buf v (buf.length + 1) stB cur2 prev2 pos2 0 offset hbr
        cases hw : writeLoopW fbn buf (buf.length + 1) stB cur2 prev2 pos2 0 offset with
        | fail e stC =>
          rw [hw] at hwl
          exact hwl.1
        | early bw stC =>
          rw [hw] at hwl
          exact hwl.1
        | done stC =>
          rw [hw] at hwl
          show ((Function.update stC.hdrs fbn
            (updChkH (touchH (stC.hdrs fbn) now))) fbn).fileSize = v
          rw [Function.update_same, updChkH_fileSize, touchH_fileSize]
          exact hwl.1
  by_cases h5 : (st1.hdrs fbn).firstData = 0 ∧ 0 < buf.length
  · rw [if_pos h5]
    have ha := alloc_sizeInv st1 fbn v h
    rcases hab : allocateBlock st1 with ⟨b, st2⟩
    rw [hab] at ha
    dsimp only
    by_cases hb0 : b = 0
    · rw [if_pos hb0]
      exact ha.1
    · rw [if_neg hb0]
      have h3 : sizeInv fbn v { st2 with hdrs := (Function.update st2.hdrs fbn
          (updChkH { st2.hdrs fbn with firstData := b })) } := by
        constructor
        · show ((Function.update st2.hdrs fbn
            (updChkH { st2.hdrs fbn with firstData := b })) fbn).fileSize = v
          rw [Function.update_same, updChkH_fileSize, setFirst_fileSize]
          exact ha.1
        · exact ha.2
      refine hrest _ b ?_
      split_ifs with hwk
      · exact ⟨h3.1, h3.2⟩
      · exact h3
  · rw [if_neg h5]
    exact hrest st1 ((st1.hdrs fbn).firstData) h

/-- Claim C10 (implicit): `write_file` commits the header's `file_size` to
`max(old_file_size, offset + n)` (refreshing the header checksum) before any
payload byte is written, so whenever it returns a byte count — including a
partial count after a mid-write allocation failure — the stored `file_size`
still equals `max(old_file_size, offset + n)`; the size is never rolled back
to the committed byte count. -/
theorem write_size_commitment (st : FS) (fbn : Nat) (buf : List Nat) (offset now r : Nat)
    (hnf : fbn ∉ st.free) (hsz : offset + buf.length < U32)
    (hres : (writeFile st fbn buf offset now).1 = WriteRes.ok r) :
    ((writeFile st fbn buf offset now).2.hdrs fbn).fileSize
      = max (st.hdrs fbn).fileSize (offset + buf.length) := by
  have hmod : (offset + buf.length) % U32 = offset + buf.length := Nat.mod_eq_of_lt hsz
  unfold writeFile at hres ⊢
  by_cases hro : st.readOnly
  · rw [if_pos hro] at hres
    exact absurd hres (by simp)
  rw [if_neg hro] at hres ⊢
  by_cases hf0 : fbn = 0
  · rw [if_pos hf0] at hres
    exact absurd hres (by simp)
  rw [if_neg hf0] at hres ⊢
  by_cases hwk : wOK st fbn
  case neg =>
    rw [if_pos (by simpa using hwk)] at hres
    exact absurd hres (by simp)
  rw [if_neg (by simpa using hwk)]
  dsimp only
  set newSize := max (st.hdrs fbn).fileSize ((offset + buf.length) % U32) with hns
  have h1 : sizeInv fbn newSize (if newSize ≠ (st.hdrs fbn).fileSize then
      { st with hdrs := (Function.update st.hdrs fbn
          (updChkH { st.hdrs fbn with fileSize := newSize })) } else st) := by
    split_ifs with hd
    · constructor
      · show ((Function.update st.hdrs fbn
          (updChkH { st.hdrs fbn with fileSize := newSize })) fbn).fileSize = newSize
        rw [Function.update_same, updChkH_fileSize, setSize_fileSize]
      · exact hnf
    · exact ⟨(not_ne_iff.mp hd).symm, hnf⟩
  refine Eq.trans (writeCore_inv _ fbn buf offset now newSize h1) ?_
  rw [hns, hmod]

/-- A file of size 500 with a one-block chain on a volume with no free
blocks: writing 10 bytes at offset 600 commits file_size 610 and then
returns a partial count of 0 when the needed allocation fails. -/
def c10fs : FS :=
  { imgBytes := 901120
    readOnly := false
    boot := fun _ => 0
    root := { zeroRoot with bmPages := fun i => if i = 0 then 884 else 0 }
    hdrs := Function.update (fun _ => zeroFH) 881
      { zeroFH with fileSize := 500, firstData := 882 }
    datas := Function.update (fun _ => zeroDB) 882 { zeroDB with dataSize := 488 }
    bms := fun _ => zeroBM
    free := ∅
    used := {0, 1, 880, 881, 882, 884}
    cache := [] }

def c10buf : List Nat := [1, 2, 3, 4, 5, 6, 7, 8, 9, 10]

/-- Witness for C10: on `c10fs` the write returns the partial count 0, and
the stored file_size equals max(500, 600+10) = 610. -/
theorem write_size_commitment_witness :
    (881 ∉ c10fs.free) ∧ 600 + c10buf.length < U32 ∧
      (writeFile c10fs 881 c10buf 600 0).1 = WriteRes.ok 0 ∧
      ((writeFile c10fs 881 c10buf 600 0).2.hdrs 881).fileSize
        = max ((c10fs.hdrs 881).fileSize) (600 + c10buf.length) :=
  ⟨by decide, by decide, by decide,
    write_size_commitment c10fs 881 c10buf 600 0 0 (by decide) (by decide) (by decide)⟩

/-!  `AdfImage::truncate_file` (the body after the path lookup resolves the
file's header block; the directory layer that does the lookup is embedded
further below). -/

/-- The chain-freeing loop shared by truncate and unlink: read `next_data`,
`free_block`, advance.  Fuel bounds the walk; callers pass more fuel than any
terminating chain can use. -/
def freeChain : Nat → FS → Nat → FS
  | 0, st, _ => st
  | k + 1, st, dataBlock =>
    if dataBlock = 0 then st
    else
      let nxt := match getData st dataBlock with
                 | some d => d.nextData
                 | none => 0
      freeChain k (freeBlock st dataBlock) nxt

/-- The walk of `truncate_file` to the new terminal block: advance while
`data_block ≠ 0 ∧ block_count < blocks_needed`; returns (prev, data_block).
The fuel is exactly `blocks_needed`. -/
def truncWalk (st : FS) : Nat → Nat → Nat → Nat × Nat
  | 0, dataBlock, prev => (prev, dataBlock)
  | k + 1, dataBlock, prev =>
    if dataBlock = 0 then (prev, dataBlock)
    else
      let nxt := match getData st dataBlock with
                 | some d => d.nextData
                 | none => 0
      truncWalk st k nxt dataBlock

/-- `AdfImage::truncate_file` once the path has resolved to header block
`fbn` (read-only/ENOENT/EISDIR are handled before this point by the lookup).
Returns the (positive) errno, 0 on success. -/
def truncateCore (st : FS) (fbn size now : Nat) : Nat × FS :=
  if ¬ wOK st fbn then ( EIO, st)
  else
    let currentSize := (st.hdrs fbn).fileSize
    if size = currentSize then (0, st)
    else
      let st1 : FS :=
        if size < currentSize then
          let blocksNeeded := (size + 487) / 488
          let currentBlocks := (currentSize + 487) / 488
          if blocksNeeded < currentBlocks then
            let wr := truncWalk st blocksNeeded (st.hdrs fbn).firstData 0
            let stF := freeChain (totalBlocks st + currentBlocks + 2) st wr.2
            if wr.1 ≠ 0 then
              if wOK stF wr.1 then
                let remainder0 := size % 488
                let remainder := if remainder0 = 0 ∧ 0 < size then 488 else remainder0
                { stF with datas := (Function.update stF.datas wr.1
                    (updChkD { stF.datas wr.1 with nextData := 0, dataSize := remainder })) }
              else stF
            else if size = 0 then
              { stF with hdrs := (Function.update stF.hdrs fbn
                  { stF.hdrs fbn with firstData := 0 }) }
            else stF
          else st
        else st
      let h' := updChkH (touchH { st1.hdrs fbn with fileSize := size % U32 } now)
      (0, { st1 with hdrs := Function.update st1.hdrs fbn h' })

/-- A sparse file as produced by `create` + `truncate`-growth: header at 881
with file_size 1000 and an empty data chain, two free blocks, bitmap page 0
at block 884. -/
def c1fs : FS :=
  { imgBytes := 901120
    readOnly := false
    boot := fun _ => 0
    root := { zeroRoot with bmPages := fun i => if i = 0 then 884 else 0 }
    hdrs := Function.update (fun _ => zeroFH) 881 { zeroFH with fileSize := 1000 }
    datas := fun _ => zeroDB
    bms := fun _ => zeroBM
    free := {882, 883}
    used := {0, 1, 880, 881, 884}
    cache := [] }

def c1buf : List Nat := [7, 7, 7, 7, 7, 7, 7, 7, 7, 7]

/-- Claim C1 fails on the code: writing 10 bytes at offset 976 into a sparse
file of size 1000 (offset+length within [0, N)) reports full success, yet
reading the same range back immediately afterwards yields zeros — the
gap-bridging loop leaves `current_block` on the last bridge block, so the
payload lands one 488-byte stride early in the chain. -/
theorem write_read_roundtrip_failure :
    (writeFile c1fs 881 c1buf 976 0).1 = WriteRes.ok c1buf.length ∧
      976 + c1buf.length ≤ (c1fs.hdrs 881).fileSize ∧
      readFile (writeFile c1fs 881 c1buf 976 0).2 881 976 c1buf.length =
        List.replicate 10 0 ∧
      c1buf ≠ List.replicate 10 0 := by
  refine ⟨by decide, by decide, by decide, by decide⟩

/-- The state of C5's failing input: file of size 950 whose chain is
882 (full, 488) → 883 (terminal, data_size 462). -/
def c5fs : FS :=
  { imgBytes := 901120
    readOnly := false
    boot := fun _ => 0
    root := { zeroRoot with bmPages := fun i => if i = 0 then 884 else 0 }
    hdrs := Function.update (fun _ => zeroFH) 881
      { zeroFH with fileSize := 950, firstData := 882 }
    datas := (Function.update
      (Function.update (fun _ => zeroDB) 882 { zeroDB with dataSize := 488, nextData := 883 })
      883 { zeroDB with dataSize := 462 })
    bms := fun _ => zeroBM
    free := ∅
    used := {0, 1, 880, 881, 882, 883, 884}
    cache := [] }

/-- Claim C5 fails on the code: truncating the 950-byte file to 900 keeps
the same block count (⌈900/488⌉ = ⌈950/488⌉ = 2), so the code skips the
terminal-block update entirely: data_size stays 462 instead of the claimed
900 mod 488 = 412, violating the spec's terminal-data_size invariant while
file_size is set to 900. -/
theorem truncate_same_block_count_bug :
    (truncateCore c5fs 881 900 0).1 = 0 ∧
      ((truncateCore c5fs 881 900 0).2.hdrs 881).fileSize = 900 ∧
      ((truncateCore c5fs 881 900 0).2.datas 883).dataSize = 462 ∧
      900 % 488 = 412 := by
  refine ⟨by decide, by decide, by decide, by decide⟩

/-!  `AdfImage::parse_bitmap` and `scan_used_blocks`: building the in-memory
free/used block sets on volume open. -/

/-- Mark one block used (the paired `used_blocks_.insert` /
`free_blocks_.erase` of the source). -/
def markUsed (st : FS) (b : Nat) : FS :=
  { st with used := insert b st.used, free := st.free.erase b }

/-- The data-chain marking of `scan_used_blocks` for `ST_FILE` headers:
`while (data_block != 0) { mark; if unreadable break; advance }`. -/
def markChain : Nat → FS → Nat → FS
  | 0, st, _ => st
  | fuel + 1, st, dataBlock =>
    if dataBlock = 0 then st
    else
      match getData (markUsed st dataBlock) dataBlock with
      | none => markUsed st dataBlock
      | some db => markChain fuel (markUsed st dataBlock) db.nextData

/-- `scan_used_blocks` as a depth-first worklist (children of a visited
header are prepended, so the visit order is exactly the source's recursion):
skip null or already-used blocks; mark; for root/directory headers push the
non-zero hash slots; for file headers mark the data chain; then push the
hash_chain successor. -/
def scanList : Nat → FS → List Nat → FS
  | 0, st, _ => st
  | _ + 1, st, [] => st
  | fuel + 1, st, b :: rest =>
    if b = 0 ∨ b ∈ st.used then scanList fuel st rest
    else
      match getHdr (markUsed st b) b with
      | none => scanList fuel (markUsed st b) rest
      | some fh =>
        scanList fuel
          (if fh.secType = ST_FILE then
              markChain (totalBlocks (markUsed st b) + 2) (markUsed st b) fh.firstData
            else markUsed st b)
          ((if fh.secType = ST_ROOT ∨ fh.secType = 0 ∨ fh.secType = ST_DIR then
              ((List.range 72).map
                  (if b = 880 then (markUsed st b).root.hashSlots else fh.hashSlots)).filter
                (fun x => x ≠ 0)
            else []) ++ (if fh.hashChain ≠ 0 then fh.hashChain :: rest else rest))

/-- The per-page bit scan of `parse_bitmap`: every CLEAR bit marks its block
used.  The source `break`s the bit loop once `block_num ≥ total_blocks`;
since block numbers grow monotonically in (word, bit), skipping the
remaining positions is the same. -/
def bmBits (st : FS) (i bm : Nat) : FS :=
  (List.range 127).foldl
    (fun s j =>
      (List.range 32).foldl
        (fun s2 bit =>
          if totalBlocks s2 ≤ i * 4064 + j * 32 + bit then s2
          else if (s2.bms bm).map j % U32 / 2 ^ bit % 2 = 0 then
            markUsed s2 (i * 4064 + j * 32 + bit)
          else s2)
        s)
    st

/-- The bitmap-page loop of `parse_bitmap`: stop at the first zero
`bm_pages` entry; mark each page block used; read its bitmap (skip if
unreadable) and apply `bmBits`. -/
def bmLoop : Nat → FS → Nat → FS
  | 0, st, _ => st
  | k + 1, st, i =>
    if st.root.bmPages i = 0 then st
    else
      bmLoop k
        (match getBm (markUsed st (st.root.bmPages i)) (st.root.bmPages i) with
          | none => markUsed st (st.root.bmPages i)
          | some _ => bmBits (markUsed st (st.root.bmPages i)) i (st.root.bmPages i))
        (i + 1)

/-- The initial sets of `AdfImage::parse_bitmap`: all of 2..total−1 free,
0 and 1 used.  (The source inserts 2..total−1 into `free_blocks_`; as a set
that is `range total` minus 0 and 1.) -/
def parseInit (st : FS) : FS :=
  { st with
    free := ((Finset.range (totalBlocks st)).erase 0).erase 1
    used := ({0, 1} : Finset Nat) }

/-- The final phase of `parse_bitmap`: re-read the root block and scan
every nonzero root hash slot. -/
def parseScan (st2 : FS) : FS :=
  match getRoot st2 with
  | none => st2
  | some root2 =>
    scanList (74 * (totalBlocks st2 + 1) + 74) st2
      (((List.range 72).map root2.hashSlots).filter (fun x => x ≠ 0))

/-- `AdfImage::parse_bitmap`: rebuild the free/used sets — initial sets,
then the bitmap pages, then mark the root and scan every root hash bucket.
The scan fuel dominates every terminating traversal: each visit pushes at
most 73 successors and at most `total` blocks are ever freshly visited. -/
def parseBitmap (st : FS) : FS :=
  match getRoot (parseInit st) with
  | none => parseInit st
  | some _ => parseScan (markUsed (bmLoop 25 (parseInit st) 0) 880)

/-- The free/used partition invariant of claim C3. -/
def PartInv (st : FS) : Prop :=
  Disjoint st.free st.used ∧
    st.free ∪ st.used = Finset.range (totalBlocks st) ∧
    0 ∈ st.used ∧ 1 ∈ st.used ∧ 880 ∈ st.used

/-- All block references stored on the disk image are below the block
count (a well-formed image; the scan inserts whatever numbers it reads, so
out-of-range references would leak out-of-range members into the sets). -/
def BoundedFS (st : FS) : Prop :=
  (∀ i, st.root.bmPages i ≠ 0 → st.root.bmPages i < totalBlocks st) ∧
    (∀ i, st.root.hashSlots i < totalBlocks st) ∧
    (∀ b i, (st.hdrs b).hashSlots i < totalBlocks st) ∧
    (∀ b, (st.hdrs b).hashChain < totalBlocks st) ∧
    (∀ b, (st.hdrs b).firstData < totalBlocks st) ∧
    (∀ b, (st.datas b).nextData < totalBlocks st)

/-- The pre-root part of the partition invariant (before block 880 is
marked). -/
def PrePart (st : FS) : Prop :=
  Disjoint st.free st.used ∧
    st.free ∪ st.used = Finset.range (totalBlocks st) ∧
    0 ∈ st.used ∧ 1 ∈ st.used

/-- The on-disk content and geometry are untouched by the set-building
passes. -/
def SameDisk (st0 st : FS) : Prop :=
  st.hdrs = st0.hdrs ∧ st.datas = st0.datas ∧ st.root = st0.root ∧
    st.imgBytes = st0.imgBytes

lemma markUsed_pre (st : FS) (b : Nat) (hb : b < totalBlocks st) (h : PrePart st) :
    PrePart (markUsed st b) ∧ st.used ⊆ (markUsed st b).used := by
  rcases h with ⟨hd, hu, h0, h1⟩
  refine ⟨⟨?_, ?_, ?_, ?_⟩, ?_⟩
  · rw [Finset.disjoint_left]
    intro x hx hx2
    rcases Finset.mem_insert.mp hx2 with rfl | hxu
    · exact (Finset.mem_erase.mp hx).1 rfl
    · exact (Finset.disjoint_left.mp hd) (Finset.mem_erase.mp hx).2 hxu
  · ext x
    show x ∈ st.free.erase b ∪ insert b st.used ↔ x ∈ Finset.range (totalBlocks st)
    constructor
    · intro hx
      rcases Finset.mem_union.mp hx with hf | hi
      · have : x ∈ st.free ∪ st.used :=
          Finset.mem_union_left _ (Finset.mem_of_mem_erase hf)
        rw [hu] at this
        exact this
      · rcases Finset.mem_insert.mp hi with rfl | hxu
        · exact Finset.mem_range.mpr hb
        · have : x ∈ st.free ∪ st.used := Finset.mem_union_right _ hxu
          rw [hu] at this
          exact this
    · intro hx
      rw [← hu] at hx
      rcases Finset.mem_union.mp hx with hf | hxu
      · by_cases hxb : x = b
        · exact Finset.mem_union_right _ (Finset.mem_insert.mpr (Or.inl hxb))
        · exact Finset.mem_union_left _ (Finset.mem_erase.mpr ⟨hxb, hf⟩)
      · exact Finset.mem_union_right _ (Finset.mem_insert.mpr (Or.inr hxu))
  · exact Finset.mem_insert_of_mem h0
  · exact Finset.mem_insert_of_mem h1
  · intro x hx
    exact Finset.mem_insert_of_mem hx

lemma markUsed_disk (st0 st : FS) (b : Nat) (h : SameDisk st0 st) :
    SameDisk st0 (markUsed st b) := h

lemma markChain_pre (st0 : FS) (hbd : BoundedFS st0) :
    ∀ fuel st dataBlock, SameDisk st0 st → PrePart st →
      dataBlock < totalBlocks st0 →
      (PrePart (markChain fuel st dataBlock) ∧
        SameDisk st0 (markChain fuel st dataBlock) ∧
        st.used ⊆ (markChain fuel st dataBlock).used) := by
  intro fuel
  induction fuel with
  | zero =>
    intro st d hsd hp hd
    exact ⟨hp, hsd, fun x hx => hx⟩
  | succ k ih =>
    intro st d hsd hp hd
    unfold markChain
    by_cases hd0 : d = 0
    · rw [if_pos hd0]
      exact ⟨hp, hsd, fun x hx => hx⟩
    rw [if_neg hd0]
    have htot : totalBlocks st = totalBlocks st0 := by
      unfold totalBlocks
      rw [hsd.2.2.2]
    have h1 := markUsed_pre st d (by omega) hp
    have hsd1 : SameDisk st0 (markUsed st d) := hsd
    cases hg : getData (markUsed st d) d with
    | none =>
      exact ⟨h1.1, hsd1, h1.2⟩
    | some db =>
      have hdb : db = st0.datas d := by
        unfold getData at hg
        by_cases hok : gbOK (markUsed st d) d
        · rw [if_pos hok] at hg
          have : db = (markUsed st d).datas d := (Option.some.injEq _ _ ▸ hg).symm
          rw [this]
          show st.datas d = st0.datas d
          rw [hsd.2.1]
        · rw [if_neg hok] at hg
          cases hg
      have hnext : db.nextData < totalBlocks st0 := by
        rw [hdb]
        exact hbd.2.2.2.2.2 d
      have := ih (markUsed st d) db.nextData hsd1 h1.1 hnext
      exact ⟨this.1, this.2.1, Finset.Subset.trans h1.2 this.2.2⟩

lemma foldl_preserve {α : Type} (Q : FS → Prop) (mono : FS → FS → Prop)
    (f : FS → α → FS)
    (hrefl : ∀ s, mono s s)
    (htrans : ∀ a b c, mono a b → mono b c → mono a c)
    (hf : ∀ s a, Q s → Q (f s a) ∧ mono s (f s a)) :
    ∀ l s, Q s → Q (List.foldl f s l) ∧ mono s (List.foldl f s l) := by
  intro l
  induction l with
  | nil =>
    intro s h
    exact ⟨h, hrefl s⟩
  | cons a l ih =>
    intro s h
    have h1 := hf s a h
    have h2 := ih (f s a) h1.1
    exact ⟨h2.1, htrans _ _ _ h1.2 h2.2⟩

/-- The combined predicate threaded through the bitmap/scan passes. -/
def ScanQ (st0 : FS) (st : FS) : Prop := PrePart st ∧ SameDisk st0 st

/-- Monotonicity of the used set. -/
def UsedMono (a b : FS) : Prop := a.used ⊆ b.used

lemma bmBits_pre (st0 : FS) (i bm : Nat) :
    ∀ st, ScanQ st0 st → ScanQ st0 (bmBits st i bm) ∧ UsedMono st (bmBits st i bm) := by
  intro st h
  unfold bmBits
  refine foldl_preserve (ScanQ st0) UsedMono _ (fun s => Finset.Subset.refl _)
    (fun a b c hab hbc => Finset.Subset.trans hab hbc) ?_ _ st h
  intro s j hs
  refine foldl_preserve (ScanQ st0) UsedMono _ (fun s2 => Finset.Subset.refl _)
    (fun a b c hab hbc => Finset.Subset.trans hab hbc) ?_ _ s hs
  intro s2 bit hs2
  by_cases hrange : totalBlocks s2 ≤ i * 4064 + j * 32 + bit
  · rw [if_pos hrange]
    exact ⟨hs2, Finset.Subset.refl _⟩
  rw [if_neg hrange]
  by_cases hbit : (s2.bms bm).map j % U32 / 2 ^ bit % 2 = 0
  · rw [if_pos hbit]
    have := markUsed_pre s2 (i * 4064 + j * 32 + bit) (by omega) hs2.1
    exact ⟨⟨this.1, hs2.2⟩, this.2⟩
  · rw [if_neg hbit]
    exact ⟨hs2, Finset.Subset.refl _⟩

lemma bmLoop_pre (st0 : FS) (hbd : BoundedFS st0) :
    ∀ k st i, ScanQ st0 st → ScanQ st0 (bmLoop k st i) ∧ UsedMono st (bmLoop k st i) := by
  intro k
  induction k with
  | zero =>
    intro st i h
    exact ⟨h, Finset.Subset.refl _⟩
  | succ k ih =>
    intro st i h
    unfold bmLoop
    by_cases hz : st.root.bmPages i = 0
    · rw [if_pos hz]
      exact ⟨h, Finset.Subset.refl _⟩
    rw [if_neg hz]
    have hroot : st.root = st0.root := h.2.2.2.1
    have htot : totalBlocks st = totalBlocks st0 := by
      unfold totalBlocks
      rw [h.2.2.2.2]
    have hblt : st.root.bmPages i < totalBlocks st := by
      rw [hroot, htot]
      exact hbd.1 i (by rw [← hroot]; exact hz)
    have h1 := markUsed_pre st (st.root.bmPages i) hblt h.1
    have hq1 : ScanQ st0 (markUsed st (st.root.bmPages i)) := ⟨h1.1, h.2⟩
    cases hg : getBm (markUsed st (st.root.bmPages i)) (st.root.bmPages i) with
    | none =>
      have := ih (markUsed st (st.root.bmPages i)) (i + 1) hq1
      exact ⟨this.1, Finset.Subset.trans h1.2 this.2⟩
    | some m =>
      have hb := bmBits_pre st0 i (st.root.bmPages i) (markUsed st (st.root.bmPages i)) hq1
      have := ih _ (i + 1) hb.1
      exact ⟨this.1, Finset.Subset.trans h1.2 (Finset.Subset.trans hb.2 this.2)⟩

lemma scanList_pre (st0 : FS) (hbd : BoundedFS st0) :
    ∀ fuel st l, ScanQ st0 st → (∀ x ∈ l, x < totalBlocks st0) →
      ScanQ st0 (scanList fuel st l) ∧ UsedMono st (scanList fuel st l) := by
  intro fuel
  induction fuel with
  | zero =>
    intro st l h hl
    exact ⟨h, Finset.Subset.refl _⟩
  | succ k ih =>
    intro st l h hl
    match l with
    | [] => exact ⟨h, Finset.Subset.refl _⟩
    | b :: rest =>
      show ScanQ st0 (scanList (k + 1) st (b :: rest)) ∧ _
      unfold scanList
      by_cases hskip : b = 0 ∨ b ∈ st.used
      · rw [if_pos hskip]
        exact ih st rest h (fun x hx => hl x (List.mem_cons_of_mem b hx))
      rw [if_neg hskip]
      have htot : totalBlocks st = totalBlocks st0 := by
        unfold totalBlocks
        rw [h.2.2.2.2]
      have hblt : b < totalBlocks st := by
        rw [htot]
        exact hl b (List.mem_cons_self b rest)
      have h1 := markUsed_pre st b hblt h.1
      have hq1 : ScanQ st0 (markUsed st b) := ⟨h1.1, h.2⟩
      cases hg : getHdr (markUsed st b) b with
      | none =>
        have := ih (markUsed st b) rest hq1 (fun x hx => hl x (List.mem_cons_of_mem b hx))
        exact ⟨this.1, Finset.Subset.trans h1.2 this.2⟩
      | some fh =>
        have hfh : fh = st0.hdrs b := by
          unfold getHdr at hg
          by_cases hok : gbOK (markUsed st b) b
          · rw [if_pos hok] at hg
            have : fh = (markUsed st b).hdrs b := (Option.some.injEq _ _ ▸ hg).symm
            rw [this]
            show st.hdrs b = st0.hdrs b
            rw [h.2.1]
          · rw [if_neg hok] at hg
            cases hg
        have hkids : ∀ x ∈ (if fh.secType = ST_ROOT ∨ fh.secType = 0 ∨ fh.secType = ST_DIR then
            ((List.range 72).map
              (if b = 880 then (markUsed st b).root.hashSlots else fh.hashSlots)).filter
                (fun x => x ≠ 0)
          else []), x < totalBlocks st0 := by
          intro x hx
          by_cases hsec : fh.secType = ST_ROOT ∨ fh.secType = 0 ∨ fh.secType = ST_DIR
          · rw [if_pos hsec] at hx
            rcases List.mem_filter.mp hx with ⟨hxm, hxne⟩
            rcases List.mem_map.mp hxm with ⟨i, hi, hix⟩
            by_cases hb880 : b = 880
            · rw [if_pos hb880] at hix
              have hrt : (markUsed st b).root = st0.root := h.2.2.2.1
              rw [← hix, hrt]
              exact hbd.2.1 i
            · rw [if_neg hb880] at hix
              rw [← hix, hfh]
              exact hbd.2.2.1 b i
          · rw [if_neg hsec] at hx
            simp at hx
        have hfd : fh.firstData < totalBlocks st0 := by
          rw [hfh]
          exact hbd.2.2.2.2.1 b
        have hchain : fh.hashChain < totalBlocks st0 := by
          rw [hfh]
          exact hbd.2.2.2.1 b
        have h2 : ScanQ st0 (if fh.secType = ST_FILE then
            markChain (totalBlocks (markUsed st b) + 2) (markUsed st b) fh.firstData
          else markUsed st b) ∧
            UsedMono (markUsed st b) (if fh.secType = ST_FILE then
              markChain (totalBlocks (markUsed st b) + 2) (markUsed st b) fh.firstData
            else markUsed st b) := by
          by_cases hfile : fh.secType = ST_FILE
          · rw [if_pos hfile]
            have := markChain_pre st0 hbd (totalBlocks (markUsed st b) + 2)
              (markUsed st b) fh.firstData hq1.2 hq1.1 hfd
            exact ⟨⟨this.1, this.2.1⟩, this.2.2⟩
          · rw [if_neg hfile]
            exact ⟨hq1, Finset.Subset.refl _⟩
        have htail : ∀ x ∈ (if fh.hashChain ≠ 0 then fh.hashChain :: rest else rest),
            x < totalBlocks st0 := by
          intro x hx
          by_cases hh : fh.hashChain ≠ 0
          · rw [if_pos hh] at hx
            rcases List.mem_cons.mp hx with rfl | hxr
            · exact hchain
            · exact hl x (List.mem_cons_of_mem b hxr)
          · rw [if_neg hh] at hx
            exact hl x (List.mem_cons_of_mem b hx)
        have hall : ∀ x ∈ ((if fh.secType = ST_ROOT ∨ fh.secType = 0 ∨ fh.secType = ST_DIR then
            ((List.range 72).map
              (if b = 880 then (markUsed st b).root.hashSlots else fh.hashSlots)).filter
                (fun x => x ≠ 0)
          else []) ++ (if fh.hashChain ≠ 0 then fh.hashChain :: rest else rest)),
            x < totalBlocks st0 := by
          intro x hx
          rcases List.mem_append.mp hx with hx1 | hx2
          · exact hkids x hx1
          · exact htail x hx2
        have := ih _ _ h2.1 hall
        exact ⟨this.1, Finset.Subset.trans h1.2 (Finset.Subset.trans h2.2 this.2)⟩

lemma prePart_init (st : FS) (htot : 881 ≤ totalBlocks st) : PrePart (parseInit st) := by
  refine ⟨?_, ?_, ?_, ?_⟩
  · rw [Finset.disjoint_left]
    intro x hx hxu
    have h1 := Finset.mem_erase.mp hx
    have h0 := Finset.mem_erase.mp h1.2
    rcases Finset.mem_insert.mp hxu with rfl | hxu1
    · exact h0.1 rfl
    · exact h1.1 (Finset.mem_singleton.mp hxu1)
  · ext x
    show x ∈ ((Finset.range (totalBlocks st)).erase 0).erase 1 ∪ {0, 1} ↔
      x ∈ Finset.range (totalBlocks (parseInit st))
    have htb : totalBlocks (parseInit st) = totalBlocks st := rfl
    rw [htb]
    constructor
    · intro hx
      rcases Finset.mem_union.mp hx with hf | hue
      · exact Finset.mem_of_mem_erase (Finset.mem_of_mem_erase hf)
      · rcases Finset.mem_insert.mp hue with rfl | hx1
        · exact Finset.mem_range.mpr (by omega)
        · rw [Finset.mem_singleton.mp hx1]
          exact Finset.mem_range.mpr (by omega)
    · intro hx
      by_cases h0 : x = 0
      · exact Finset.mem_union_right _ (Finset.mem_insert.mpr (Or.inl h0))
      by_cases h1 : x = 1
      · refine Finset.mem_union_right _ (Finset.mem_insert_of_mem ?_)
        rw [h1]
        exact Finset.mem_singleton_self 1
      · exact Finset.mem_union_left _
          (Finset.mem_erase.mpr ⟨h1, Finset.mem_erase.mpr ⟨h0, hx⟩⟩)
  · exact Finset.mem_insert_self 0 {1}
  · exact Finset.mem_insert_of_mem (Finset.mem_singleton_self 1)

lemma parseBitmap_partInv (st : FS) (hbd : BoundedFS st) (htot : 881 ≤ totalBlocks st) :
    PartInv (parseBitmap st) := by
  have hP0 := prePart_init st htot
  have hSD0 : SameDisk st (parseInit st) := ⟨rfl, rfl, rfl, rfl⟩
  have himgP : (parseInit st).imgBytes = st.imgBytes := rfl
  have himg : 881 * 512 ≤ st.imgBytes := by
    have h512 : (0 : Nat) < 512 := by norm_num
    exact (Nat.le_div_iff_mul_le h512).mp htot
  have hok : gbOK (parseInit st) 880 = true := by
    unfold gbOK
    rw [himgP]
    simp only [Bool.and_eq_true, decide_eq_true_eq]
    omega
  have hroot0 : getRoot (parseInit st) = some (parseInit st).root := by
    unfold getRoot
    rw [if_pos hok]
  unfold parseBitmap
  rw [hroot0]
  have hQ1 := bmLoop_pre st hbd 25 (parseInit st) 0 ⟨hP0, hSD0⟩
  set stL := bmLoop 25 (parseInit st) 0 with hstL
  have htbL : totalBlocks stL = totalBlocks st := by
    unfold totalBlocks
    rw [hQ1.1.2.2.2.2]
  have h880lt : 880 < totalBlocks stL := by omega
  have hM := markUsed_pre stL 880 h880lt hQ1.1.1
  have hSDM : SameDisk st (markUsed stL 880) := hQ1.1.2
  have h880mem : 880 ∈ (markUsed stL 880).used := Finset.mem_insert_self _ _
  unfold parseScan
  cases hg : getRoot (markUsed stL 880) with
  | none =>
    exact ⟨hM.1.1, hM.1.2.1, hM.1.2.2.1, hM.1.2.2.2, h880mem⟩
  | some root2 =>
    have hroot2 : root2 = st.root := by
      unfold getRoot at hg
      by_cases hok2 : gbOK (markUsed stL 880) 880
      · rw [if_pos hok2] at hg
        have h2 := (Option.some.injEq _ _ ▸ hg).symm
        rw [h2]
        exact hSDM.2.2.1
      · rw [if_neg hok2] at hg
        cases hg
    have hlist : ∀ x ∈ ((List.range 72).map root2.hashSlots).filter (fun x => x ≠ 0),
        x < totalBlocks st := by
      intro x hx
      rcases List.mem_filter.mp hx with ⟨hxm, _⟩
      rcases List.mem_map.mp hxm with ⟨i, _, hix⟩
      rw [← hix, hroot2]
      exact hbd.2.1 i
    have hS := scanList_pre st hbd (74 * (totalBlocks (markUsed stL 880) + 1) + 74)
      (markUsed stL 880) _ ⟨hM.1, hSDM⟩ hlist
    exact ⟨hS.1.1.1, hS.1.1.2.1, hS.1.1.2.2.1, hS.1.1.2.2.2, hS.2 h880mem⟩

lemma updBM_partInv (st : FS) (b : Nat) (f : Bool) (h : PartInv st) :
    PartInv (updateBitmapForBlock st b f) := by
  rcases h with ⟨hd, hu, h0, h1, h880⟩
  have hfr := updBM_frame_full st b f
  have htb : totalBlocks (updateBitmapForBlock st b f) = totalBlocks st := by
    unfold totalBlocks
    rw [hfr.2.2.2.2.1]
  refine ⟨?_, ?_, ?_, ?_, ?_⟩
  · rw [hfr.2.1, hfr.2.2.1]
    exact hd
  · rw [hfr.2.1, hfr.2.2.1, htb]
    exact hu
  · rw [hfr.2.2.1]
    exact h0
  · rw [hfr.2.2.1]
    exact h1
  · rw [hfr.2.2.1]
    exact h880

lemma alloc_partInv (st : FS) (h : PartInv st) : PartInv (allocateBlock st).2 := by
  have hfull := h
  rcases h with ⟨hd, hu, h0, h1, h880⟩
  unfold allocateBlock
  by_cases hne : st.free.Nonempty
  case neg =>
    rw [dif_neg hne]
    exact ⟨hd, hu, h0, h1, h880⟩
  rw [dif_pos hne]
  dsimp only
  set b := st.free.min' hne with hb
  have hbmem : b ∈ st.free := st.free.min'_mem hne
  have hblt : b < totalBlocks st := by
    have hm : b ∈ st.free ∪ st.used := Finset.mem_union_left _ hbmem
    rw [hu] at hm
    exact Finset.mem_range.mp hm
  set st1 : FS := { st with free := st.free.erase b, used := insert b st.used } with hst1
  have hP1 : PrePart st1 ∧ st.used ⊆ st1.used := markUsed_pre st b hblt ⟨hd, hu, h0, h1⟩
  have hI1 : PartInv st1 :=
    ⟨hP1.1.1, hP1.1.2.1, hP1.1.2.2.1, hP1.1.2.2.2, hP1.2 h880⟩
  by_cases h25 : 25 ≤ b / 4064
  · rw [if_pos h25]
    exact hfull
  rw [if_neg h25]
  by_cases hroot : gbOK st 880
  case neg =>
    rw [if_pos (by simpa using hroot)]
    exact hfull
  rw [if_neg (by simpa using hroot)]
  by_cases hbm : st.root.bmPages (b / 4064) = 0
  · rw [if_pos hbm]
    exact hfull
  rw [if_neg hbm]
  show PartInv (if wOK (updateBitmapForBlock st1 b false) b then
    zeroBlock (updateBitmapForBlock st1 b false) b else updateBitmapForBlock st1 b false)
  have hPB : PartInv (updateBitmapForBlock st1 b false) := updBM_partInv st1 b false hI1
  by_cases hw : wOK (updateBitmapForBlock st1 b false) b
  · rw [if_pos hw]
    exact hPB
  · rw [if_neg hw]
    exact hPB

lemma free_partInv (st : FS) (b : Nat) (h : PartInv st) (hblt : b < totalBlocks st) :
    PartInv (freeBlock st b) := by
  have hfull := h
  rcases h with ⟨hd, hu, h0, h1, h880⟩
  unfold freeBlock
  by_cases hg : b < 2 ∨ b = 880
  · rw [if_pos hg]
    exact hfull
  rw [if_neg hg]
  show PartInv (updateBitmapForBlock
    { st with used := st.used.erase b, free := insert b st.free } b true)
  set st1 : FS := { st with used := st.used.erase b, free := insert b st.free } with hst1
  have hP1 : PartInv st1 := by
    refine ⟨?_, ?_, ?_, ?_, ?_⟩
    · rw [Finset.disjoint_left]
      intro x hx hxu
      have hx' : x ∈ insert b st.free := hx
      have hxu' : x ∈ st.used.erase b := hxu
      rcases Finset.mem_insert.mp hx' with rfl | hxf
      · exact (Finset.mem_erase.mp hxu').1 rfl
      · exact (Finset.disjoint_left.mp hd) hxf (Finset.mem_of_mem_erase hxu')
    · ext x
      show x ∈ insert b st.free ∪ st.used.erase b ↔ x ∈ Finset.range (totalBlocks st1)
      have htb : totalBlocks st1 = totalBlocks st := rfl
      rw [htb]
      constructor
      · intro hx
        rcases Finset.mem_union.mp hx with hf | hue
        · rcases Finset.mem_insert.mp hf with rfl | hxf
          · exact Finset.mem_range.mpr hblt
          · have hm : x ∈ st.free ∪ st.used := Finset.mem_union_left _ hxf
            rw [hu] at hm
            exact hm
        · have hm : x ∈ st.free ∪ st.used :=
            Finset.mem_union_right _ (Finset.mem_of_mem_erase hue)
          rw [hu] at hm
          exact hm
      · intro hx
        rw [← hu] at hx
        rcases Finset.mem_union.mp hx with hf | hxu
        · exact Finset.mem_union_left _ (Finset.mem_insert_of_mem hf)
        · by_cases hxb : x = b
          · exact Finset.mem_union_left _ (Finset.mem_insert.mpr (Or.inl hxb))
          · exact Finset.mem_union_right _ (Finset.mem_erase.mpr ⟨hxb, hxu⟩)
    · exact Finset.mem_erase.mpr ⟨by omega, h0⟩
    · exact Finset.mem_erase.mpr ⟨by omega, h1⟩
    · exact Finset.mem_erase.mpr ⟨by omega, h880⟩
  exact updBM_partInv st1 b true hP1

/-- Claim C3: free/used partition invariant.  After volume open
(`parse_bitmap`) the free-block set and the used-block set are disjoint,
their union is `{0, 1, …, total_blocks − 1}`, and blocks 0, 1 and 880 are
in the used set (given that on-disk block references are in range and the
image holds at least 881 blocks); and the invariant is preserved by every
`allocate_block` and by every `free_block` of an in-range block. -/
theorem free_used_partition (st : FS) (hbd : BoundedFS st)
    (htot : 881 ≤ totalBlocks st) :
    PartInv (parseBitmap st) ∧
      (∀ st2 : FS, PartInv st2 → PartInv (allocateBlock st2).2) ∧
      (∀ st2 : FS, ∀ b : Nat, PartInv st2 → b < totalBlocks st2 →
        PartInv (freeBlock st2 b)) :=
  ⟨parseBitmap_partInv st hbd htot, fun st2 h => alloc_partInv st2 h,
    fun st2 b h hb => free_partInv st2 b h hb⟩

/-- An all-zero standard-size volume (1760 blocks). -/
def c3fs : FS :=
  { imgBytes := 901120
    readOnly := false
    boot := fun _ => 0
    root := zeroRoot
    hdrs := fun _ => zeroFH
    datas := fun _ => zeroDB
    bms := fun _ => zeroBM
    free := ∅
    used := ∅
    cache := [] }

lemma c3bd : BoundedFS c3fs := by
  refine ⟨?_, ?_, ?_, ?_, ?_, ?_⟩
  · intro i h
    exact (h rfl).elim
  · intro i
    show (0 : Nat) < 1760
    decide
  · intro b i
    show (0 : Nat) < 1760
    decide
  · intro b
    show (0 : Nat) < 1760
    decide
  · intro b
    show (0 : Nat) < 1760
    decide
  · intro b
    show (0 : Nat) < 1760
    decide

/-- Witness for C3 on the concrete all-zero volume `c3fs`. -/
theorem free_used_partition_witness :
    BoundedFS c3fs ∧ 881 ≤ totalBlocks c3fs ∧ PartInv (parseBitmap c3fs) :=
  ⟨c3bd, by decide, (free_used_partition c3fs c3bd (by decide)).1⟩

/-- The `Entry` built by `list_directory` from a header block. -/
def mkEntry (bn : Nat) (fh : FileHdr) : Entry :=
  { name := bcplRead fh.filename 30
    isDir := fh.secType = ST_DIR
    size := if fh.secType = ST_DIR then 0 else fh.fileSize
    mtime := amigaToUnix fh.days fh.mins fh.ticks
    blockNum := bn }

/-- The per-slot `while (block_num != 0)` walk of `list_directory`: stop at
chain terminator 0 or an unreadable block; an entry whose BCPL filename is
empty is skipped but the walk continues along `hash_chain`. -/
def walkBucket : Nat → FS → Nat → List Entry
  | 0, _, _ => []
  | fuel + 1, st, bn =>
    if bn = 0 then []
    else
      match getHdr st bn with
      | none => []
      | some fh =>
        if bcplRead fh.filename 30 = [] then walkBucket fuel st fh.hashChain
        else mkEntry bn fh :: walkBucket fuel st fh.hashChain

/-- The raw hash chain from `bn`: every reachable header with its block
number, following `hash_chain` until 0 or an unreadable block. -/
def rawChain : Nat → FS → Nat → List (Nat × FileHdr)
  | 0, _, _ => []
  | fuel + 1, st, bn =>
    if bn = 0 then []
    else
      match getHdr st bn with
      | none => []
      | some fh => (bn, fh) :: rawChain fuel st fh.hashChain

/-- `list_directory` on a resolved directory block: concatenate the walks
of all 72 hash slots (root slots for the root block). -/
def listDirBlock (st : FS) (dirBlock : Nat) : Option (List Entry) :=
  match getHdr st dirBlock with
  | none => none
  | some dir =>
    some ((List.range 72).flatMap (fun i =>
      walkBucket (totalBlocks st + 1) st
        (if dirBlock = 880 then st.root.hashSlots i else dir.hashSlots i)))

lemma walkBucket_filter (st : FS) : ∀ fuel bn,
    walkBucket fuel st bn =
      ((rawChain fuel st bn).filter
          (fun p => bcplRead (p.2).filename 30 ≠ [])).map
        (fun p => mkEntry p.1 p.2) := by
  intro fuel
  induction fuel with
  | zero =>
    intro bn
    rfl
  | succ k ih =>
    intro bn
    unfold walkBucket rawChain
    by_cases h0 : bn = 0
    · rw [if_pos h0]
      rw [if_pos h0]
      rfl
    rw [if_neg h0]
    rw [if_neg h0]
    cases hg : getHdr st bn with
    | none => rfl
    | some fh =>
      dsimp only
      by_cases hname : bcplRead fh.filename 30 = []
      · rw [if_pos hname, ih fh.hashChain]
        simp [List.filter_cons, hname]
      · rw [if_neg hname, ih fh.hashChain]
        simp [List.filter_cons, hname]

/-- Claim C7: directory listing chain walk.  For a readable directory
block, `list_directory` enumerates, slot by slot over the 72 hash slots,
exactly the headers reachable along `hash_chain` until the terminator 0,
keeping every header whose BCPL filename is nonempty: an empty-named
header is skipped but does not stop the walk of its chain. -/
theorem list_directory_chain_walk (st : FS) (dirBlock : Nat) (dir : FileHdr)
    (hdir : getHdr st dirBlock = some dir) :
    listDirBlock st dirBlock =
      some ((List.range 72).flatMap (fun i =>
        ((rawChain (totalBlocks st + 1) st
            (if dirBlock = 880 then st.root.hashSlots i else dir.hashSlots i)).filter
          (fun p => bcplRead (p.2).filename 30 ≠ [])).map
        (fun p => mkEntry p.1 p.2))) := by
  unfold listDirBlock
  rw [hdir]
  simp only [walkBucket_filter]

/-- Witness for C7 on the all-zero volume: the root block is readable and
the listing matches the filtered chain description. -/
theorem list_directory_chain_walk_witness :
    listDirBlock c3fs 880 =
      some ((List.range 72).flatMap (fun i =>
        ((rawChain (totalBlocks c3fs + 1) c3fs
            (if 880 = 880 then c3fs.root.hashSlots i else zeroFH.hashSlots i)).filter
          (fun p => bcplRead (p.2).filename 30 ≠ [])).map
        (fun p => mkEntry p.1 p.2))) :=
  list_directory_chain_walk c3fs 880 zeroFH rfl

def ENAMETOOLONG : Nat := 36
def EEXIST : Nat := 17
def EISDIR : Nat := 21

/-- `std::toupper` on a byte in the C locale. -/
def toUpper (c : Nat) : Nat := if 97 ≤ c ∧ c ≤ 122 then c - 32 else c

/-- `hash_name`: seed the length, fold `hash * 13 + toupper(c)` in 32-bit
arithmetic, reduce mod 72. -/
def hashName (name : List Nat) : Nat :=
  (name.foldl (fun h c => (h * 13 + toUpper c) % U32) (name.length % U32)) % 72

/-- `BcplString::write` with `max_len = 30` over a 32-byte array: length
byte, the characters, the rest of the 31 string bytes cleared; byte 31 is
untouched. -/
def bcplWrite (f : Nat → Nat) (name : List Nat) : Nat → Nat := fun i =>
  if i = 0 then min name.length 30 % 256
  else if i ≤ min name.length 30 then name.getD (i - 1) 0 % 256
  else if i ≤ 30 then 0
  else f i

/-- Index of the last `/` (47) in a path, as `find_last_of`. -/
def lastSlash (p : List Nat) : Nat :=
  p.length - 1 - p.reverse.findIdx (fun c => c = 47)

/-- `path.substr(0, last_slash)`, or `/` when the last slash is first. -/
def splitParent (p : List Nat) : List Nat :=
  if lastSlash p = 0 then [47] else p.take (lastSlash p)

/-- `path.substr(last_slash + 1)`. -/
def splitName (p : List Nat) : List Nat := p.drop (lastSlash p + 1)

/-- `get_cached_dir`. -/
def lookupCache (c : List (List Nat × List Entry)) (p : List Nat) :
    Option (List Entry) :=
  match c.find? (fun q => q.1 = p) with
  | none => none
  | some q => some q.2

/-- The body of `find_directory_block` given the result of `get_entry` on
the same path. -/
def fdbAux (path : List Nat) (r : Option Entry) : Nat :=
  if path = [47] ∨ path = [] then 880
  else
    match r with
    | some e => if e.isDir then e.blockNum else 0
    | none => 0

/-- The body of `list_directory` given the result of `get_entry` on the
same path: cache lookup, then resolve the directory block and scan it.
(The source also stores the fresh listing in the cache; the operations
modelled here clear the cache before returning and the disk does not
change between the listings inside one operation, so the intermediate
fill is not observable in their results.) -/
def listDirAux (st : FS) (path : List Nat) (r : Option Entry) :
    Option (List Entry) :=
  match lookupCache st.cache path with
  | some es => some es
  | none =>
    if fdbAux path r = 0 then none
    else listDirBlock st (fdbAux path r)

/-- `get_entry`, with fuel bounding the recursion depth through parent
directories (one level per path component). -/
def getEntryF : Nat → FS → List Nat → Nat → Option Entry
  | 0, _, _, _ => none
  | fuel + 1, st, path, now =>
    if path = [47] ∨ path = [] then
      some { name := [], isDir := true, size := 0, mtime := now, blockNum := 880 }
    else
      match listDirAux st (splitParent path)
          (getEntryF fuel st (splitParent path) now) with
      | none => none
      | some entries => entries.find? (fun e => e.name = splitName path)

def getEntry (st : FS) (path : List Nat) (now : Nat) : Option Entry :=
  getEntryF (path.length + 1) st path now

def findDirectoryBlock (st : FS) (path : List Nat) (now : Nat) : Nat :=
  fdbAux path (getEntryF (path.length + 1) st path now)

/-- Write a hash-table slot of the root block. -/
def addRootSlot (st : FS) (hash v : Nat) : FS :=
  { st with root := ({ st.root with
      hashSlots := Function.update st.root.hashSlots hash v }) }

/-- Write a hash-table slot of a directory header block. -/
def addDirSlot (st : FS) (dir hash v : Nat) : FS :=
  { st with hdrs := (Function.update st.hdrs dir
      { st.hdrs dir with
        hashSlots := Function.update (st.hdrs dir).hashSlots hash v }) }

/-- Link the new header into the old chain: `file->hash_chain = existing;
update_checksum(file)` when the block is writable. -/
def linkChain (st : FS) (fb existing : Nat) : FS :=
  if wOK st fb then
    { st with hdrs := (Function.update st.hdrs fb
        (updChkH { st.hdrs fb with hashChain := existing })) }
  else st

/-- `touch_rootblock` then `update_checksum` on the root. -/
def touchRootState (st : FS) (now : Nat) : FS :=
  { st with root := updChkR (touchR st.root now) }

/-- `touch_fileblock` then `update_checksum` on a directory header. -/
def touchDirState (st : FS) (dir now : Nat) : FS :=
  { st with hdrs := (Function.update st.hdrs dir
      (updChkH (touchH (st.hdrs dir) now))) }

/-- `add_to_directory(dir_block, file_block, name)`. -/
def addToDirectory (st : FS) (dir fb : Nat) (name : List Nat) (now : Nat) : FS :=
  if dir = 880 then
    if ¬ wOK st 880 then st
    else
      touchRootState
        (linkChain (addRootSlot st (hashName name) fb) fb
          (st.root.hashSlots (hashName name))) now
  else
    if ¬ wOK st dir then st
    else
      touchDirState
        (linkChain (addDirSlot st dir (hashName name) fb) fb
          ((st.hdrs dir).hashSlots (hashName name))) dir now

/-- `remove_from_chain(start_block, target_block)`. -/
def removeFromChain : Nat → FS → Nat → Nat → Bool × FS
  | 0, st, _, _ => (false, st)
  | fuel + 1, st, current, target =>
    if current = 0 then (false, st)
    else if ¬ wOK st current then (false, st)
    else if (st.hdrs current).hashChain = target then
      (true, { st with hdrs := (Function.update st.hdrs current
        (updChkH { st.hdrs current with
          hashChain := if gbOK st target then (st.hdrs target).hashChain else 0 })) })
    else removeFromChain fuel st (st.hdrs current).hashChain target

/-- `remove_from_directory(dir_block, file_block, name)`. -/
def removeFromDirectory (st : FS) (dir fb : Nat) (name : List Nat) (now : Nat) : FS :=
  if dir = 880 then
    if ¬ wOK st 880 then st
    else if st.root.hashSlots (hashName name) = fb then
      touchRootState
        (addRootSlot st (hashName name)
          (if gbOK st fb then (st.hdrs fb).hashChain else 0)) now
    else
      match removeFromChain (totalBlocks st + 1) st
          (st.root.hashSlots (hashName name)) fb with
      | (true, st1) => touchRootState st1 now
      | (false, st1) => st1
  else
    if ¬ wOK st dir then st
    else if (st.hdrs dir).hashSlots (hashName name) = fb then
      touchDirState
        (addDirSlot st dir (hashName name)
          (if gbOK st fb then (st.hdrs fb).hashChain else 0)) dir now
    else
      match removeFromChain (totalBlocks st + 1) st
          ((st.hdrs dir).hashSlots (hashName name)) fb with
      | (true, st1) => touchDirState st1 dir now
      | (false, st1) => st1

/-- The freshly initialised file header of `create_file`: zeroed block,
type/header_key/parent/sec_type set, empty file, BCPL filename, current
timestamps, checksum. -/
def initFileHdr (fb parentBlock : Nat) (fname : List Nat) (now : Nat) : FileHdr :=
  updChkH (touchH
    { zeroFH with
      htype := T_HEADER
      headerKey := fb
      parent := parentBlock
      secType := ST_FILE
      fileSize := 0
      firstData := 0
      filename := bcplWrite zeroFH.filename fname } now)

def installHdr (st : FS) (fb : Nat) (h : FileHdr) : FS :=
  { st with hdrs := Function.update st.hdrs fb h }

def clearCache (st : FS) : FS := { st with cache := [] }

/-- `create_file(path, mode)`: returned as (errno, state) with errno 0 on
success (the source returns the negated errno). -/
def createFile (st : FS) (path : List Nat) (now : Nat) : Nat × FS :=
  if st.readOnly then (EROFS, st)
  else if 30 < (splitName path).length then (ENAMETOOLONG, st)
  else if (getEntry st path now).isSome then (EEXIST, st)
  else if findDirectoryBlock st (splitParent path) now = 0 then (ENOENT, st)
  else if (allocateBlock st).1 = 0 then (ENOSPC, (allocateBlock st).2)
  else if ¬ wOK (allocateBlock st).2 (allocateBlock st).1 then
    ( EIO, freeBlock (allocateBlock st).2 (allocateBlock st).1)
  else
    (0, clearCache (addToDirectory
      (installHdr (zeroBlock (allocateBlock st).2 (allocateBlock st).1)
        (allocateBlock st).1
        (initFileHdr (allocateBlock st).1
          (findDirectoryBlock st (splitParent path) now) (splitName path) now))
      (findDirectoryBlock st (splitParent path) now)
      (allocateBlock st).1 (splitName path) now))

/-- The data-chain freeing loop of `delete_file`. -/
def freeDataChain : Nat → FS → Nat → FS
  | 0, st, _ => st
  | fuel + 1, st, db =>
    if db = 0 then st
    else
      freeDataChain fuel (freeBlock st db)
        (match getData st db with
          | none => 0
          | some d => d.nextData)

/-- Free the data chain (when the header is readable) then the header
block itself. -/
def freeFileBlocks (st : FS) (fb : Nat) : FS :=
  freeBlock
    (match getHdr st fb with
      | none => st
      | some fh => freeDataChain (totalBlocks st + 1) st fh.firstData)
    fb

/-- `delete_file(path)` (the `unlink` entry point), as (errno, state). -/
def deleteFile (st : FS) (path : List Nat) (now : Nat) : Nat × FS :=
  if st.readOnly then (EROFS, st)
  else
    match getEntry st path now with
    | none => (ENOENT, st)
    | some e =>
      if e.isDir then (EISDIR, st)
      else
        (0, clearCache (freeFileBlocks
          (removeFromDirectory st (findDirectoryBlock st (splitParent path) now)
            e.blockNum e.name now)
          e.blockNum))

/-- A volume with an empty root directory, one free block (881), and a
zero root timestamp. -/
def c6root : RootBlk :=
  { zeroRoot with
    rtype := 2
    htSize := 72
    bmFlag := U32 - 1
    bmPages := fun i => if i = 0 then 882 else 0
    secType := 1 }

def c6fs : FS :=
  { imgBytes := 901120
    readOnly := false
    boot := fun _ => 0
    root := c6root
    hdrs := fun _ => zeroFH
    datas := fun _ => zeroDB
    bms := fun _ => zeroBM
    free := {881}
    used := {880}
    cache := [] }

/-- The path `/a`. -/
def c6path : List Nat := [47, 97]

/-- Counterexample to claim C6 as stated: on `c6fs`, `create("/a")` then
`unlink("/a")` both succeed and restore the free and used sets, but the
root block's checksum differs from its value before the create, because
both operations re-stamp the root timestamp and recompute its checksum. -/
theorem create_unlink_roundtrip_counterexample :
    (createFile c6fs c6path 253000000).1 = 0 ∧
    (deleteFile (createFile c6fs c6path 253000000).2 c6path 253000000).1 = 0 ∧
    (deleteFile (createFile c6fs c6path 253000000).2 c6path 253000000).2.free
      = c6fs.free ∧
    (deleteFile (createFile c6fs c6path 253000000).2 c6path 253000000).2.used
      = c6fs.used ∧
    (deleteFile (createFile c6fs c6path 253000000).2 c6path
      253000000).2.root.chk ≠ c6fs.root.chk := by
  set_option maxRecDepth 100000 in decide

lemma walkBucket_zero (fuel : Nat) (st : FS) : walkBucket fuel st 0 = [] := by
  cases fuel with
  | zero => rfl
  | succ k => rfl

lemma findIdx_no47 (t : List Nat) : ∀ l : List Nat, (∀ c ∈ l, c ≠ 47) →
    (l ++ 47 :: t).findIdx (fun c => c = 47) = l.length := by
  intro l
  induction l with
  | nil =>
    intro _
    rfl
  | cons a l ih =>
    intro hl
    have ha : a ≠ 47 := hl a (List.mem_cons_self a l)
    have h2 := ih (fun c hc => hl c (List.mem_cons_of_mem a hc))
    simp [List.findIdx_cons, ha, h2]

lemma lastSlash_root (fname : List Nat) (hns : 47 ∉ fname) :
    lastSlash (47 :: fname) = 0 := by
  unfold lastSlash
  have hrev : (47 :: fname).reverse = fname.reverse ++ [47] := by
    simp
  rw [hrev, findIdx_no47 [] fname.reverse (fun c hc hc47 =>
    hns (hc47 ▸ List.mem_reverse.mp hc))]
  simp

lemma splitParent_root (fname : List Nat) (hns : 47 ∉ fname) :
    splitParent (47 :: fname) = [47] := by
  unfold splitParent
  rw [lastSlash_root fname hns]
  rfl

lemma splitName_root (fname : List Nat) (hns : 47 ∉ fname) :
    splitName (47 :: fname) = fname := by
  unfold splitName
  rw [lastSlash_root fname hns]
  rfl

lemma map_getD_range (l : List Nat) :
    (List.range l.length).map (fun i => l.getD i 0) = l := by
  apply List.ext_getElem
  · simp
  · intro n h1 h2
    simp [List.getElem?_eq_getElem h2]

lemma bcplWrite_read (f : Nat → Nat) (name : List Nat)
    (h30 : name.length ≤ 30) (hb : ∀ c ∈ name, c < 256) :
    bcplRead (bcplWrite f name) 30 = name := by
  have hlen : bcplWrite f name 0 = name.length := by
    unfold bcplWrite
    rw [if_pos rfl, Nat.min_eq_left h30]
    exact Nat.mod_eq_of_lt (by omega)
  unfold bcplRead
  by_cases h0 : name.length = 0
  · rw [List.length_eq_zero] at h0
    subst h0
    rfl
  · rw [hlen]
    have hmod : name.length % 256 = name.length := Nat.mod_eq_of_lt (by omega)
    rw [hmod, if_neg h0, Nat.min_eq_left h30]
    have hmapeq : ∀ i ∈ List.range name.length,
        bcplWrite f name (i + 1) % 256 = name.getD i 0 := by
      intro i hi
      have hi2 : i < name.length := List.mem_range.mp hi
      unfold bcplWrite
      rw [if_neg (by omega), if_pos (by rw [Nat.min_eq_left h30]; omega)]
      simp only [Nat.add_sub_cancel]
      have hmem : name.getD i 0 ∈ name := by
        rw [List.getD_eq_getElem name 0 hi2]
        exact List.getElem_mem hi2
      have hlt : name.getD i 0 < 256 := hb _ hmem
      rw [Nat.mod_eq_of_lt hlt, Nat.mod_eq_of_lt hlt]
    rw [List.map_congr_left hmapeq]
    exact map_getD_range name

lemma updChkH_parts (h : FileHdr) :
    (updChkH h).filename = h.filename ∧ (updChkH h).secType = h.secType ∧
      (updChkH h).hashChain = h.hashChain ∧ (updChkH h).firstData = h.firstData ∧
      (updChkH h).days = h.days ∧ (updChkH h).mins = h.mins ∧
      (updChkH h).ticks = h.ticks ∧ (updChkH h).hashSlots = h.hashSlots := by
  cases h
  exact ⟨rfl, rfl, rfl, rfl, rfl, rfl, rfl, rfl⟩

lemma touchH_parts (h : FileHdr) (n : Nat) :
    (touchH h n).filename = h.filename ∧ (touchH h n).secType = h.secType ∧
      (touchH h n).hashChain = h.hashChain ∧ (touchH h n).firstData = h.firstData ∧
      (touchH h n).hashSlots = h.hashSlots := by
  cases h
  exact ⟨rfl, rfl, rfl, rfl, rfl⟩

lemma updChkR_slots (r : RootBlk) : (updChkR r).hashSlots = r.hashSlots := by
  cases r
  rfl

lemma touchR_slots (r : RootBlk) (n : Nat) : (touchR r n).hashSlots = r.hashSlots := by
  cases r
  rfl

lemma updBM_cache (st : FS) (b : Nat) (f : Bool) :
    (updateBitmapForBlock st b f).cache = st.cache := by
  unfold updateBitmapForBlock
  split_ifs <;> rfl

lemma zeroBlock_root (st : FS) (b : Nat) (hb : b ≠ 880) :
    (zeroBlock st b).root = st.root := by
  show (if b = 880 then zeroRoot else st.root) = st.root
  rw [if_neg hb]

lemma flatMap_nil_of (g : Nat → List Entry) :
    ∀ n, (∀ i < n, g i = []) → (List.range n).flatMap g = [] := by
  intro n
  induction n with
  | zero =>
    intro _
    rfl
  | succ k ih =>
    intro hg
    rw [List.range_succ, List.flatMap_append,
      ih (fun i hi => hg i (by omega))]
    simp [hg k (by omega)]

lemma flatMap_single (g : Nat → List Entry) (h : Nat) :
    ∀ n, h < n → (∀ i < n, i ≠ h → g i = []) →
      (List.range n).flatMap g = g h := by
  intro n
  induction n with
  | zero =>
    intro hh _
    omega
  | succ k ih =>
    intro hh hg
    rw [List.range_succ, List.flatMap_append]
    by_cases hk : h = k
    · rw [flatMap_nil_of g k (fun i hi => hg i (by omega) (by omega))]
      subst hk
      simp
    · rw [ih (by omega) (fun i hi hih => hg i (by omega) hih)]
      simp [hg k (by omega) (by omega)]

attribute [ext] RootBlk

lemma updChkR_congr (r1 r2 : RootBlk)
    (h : ({ r1 with chk := 0 } : RootBlk) = { r2 with chk := 0 }) :
    updChkR r1 = updChkR r2 := by
  have e1 : updChkR r1 =
      { { r1 with chk := 0 } with
        chk := chkOfWords (rootWords { r1 with chk := 0 }) 5 } := rfl
  have e2 : updChkR r2 =
      { { r2 with chk := 0 } with
        chk := chkOfWords (rootWords { r2 with chk := 0 }) 5 } := rfl
  rw [e1, e2, h]

set_option maxRecDepth 8000 in
lemma updTouch_form (r : RootBlk) (u : Nat → Nat) (n1 : Nat) :
    updChkR (touchR { r with hashSlots := u } n1) =
      { r with
        hashSlots := u
        days := (unixToAmiga n1).1
        mins := (unixToAmiga n1).2.1
        ticks := (unixToAmiga n1).2.2
        chk := (updChkR (touchR { r with hashSlots := u } n1)).chk } := by
  ext <;> rfl

set_option maxRecDepth 8000 in
lemma roundtrip_root (r : RootBlk) (v : Nat → Nat) (d m t c : Nat) (n2 : Nat) :
    updChkR (touchR
      { ({ r with
            hashSlots := v
            days := d
            mins := m
            ticks := t
            chk := c } :
          RootBlk) with hashSlots := r.hashSlots } n2)
      = updChkR (touchR r n2) := by
  apply updChkR_congr
  ext <;> rfl

lemma alloc_facts (st : FS) (hne : st.free.Nonempty)
    (hb25 : st.free.min' hne / 4064 < 25)
    (hok : gbOK st 880 = true)
    (hbm : st.root.bmPages (st.free.min' hne / 4064) ≠ 0)
    (hb880 : st.free.min' hne ≠ 880) :
    (allocateBlock st).1 = st.free.min' hne ∧
      (allocateBlock st).2.free = st.free.erase (st.free.min' hne) ∧
      (allocateBlock st).2.used = insert (st.free.min' hne) st.used ∧
      (allocateBlock st).2.imgBytes = st.imgBytes ∧
      (allocateBlock st).2.readOnly = st.readOnly ∧
      (allocateBlock st).2.root = st.root ∧
      (allocateBlock st).2.cache = st.cache ∧
      (∀ x, x ≠ st.free.min' hne → (allocateBlock st).2.hdrs x = st.hdrs x) := by
  unfold allocateBlock
  rw [dif_pos hne]
  dsimp only
  set b := st.free.min' hne with hb
  set st1 : FS := { st with free := st.free.erase b, used := insert b st.used } with hst1
  rw [if_neg (by omega)]
  rw [if_neg (by simp [hok])]
  rw [if_neg hbm]
  have hfr := updBM_frame_full st1 b false
  have hc := updBM_cache st1 b false
  by_cases hw : wOK (updateBitmapForBlock st1 b false) b
  · rw [if_pos hw]
    refine ⟨rfl, ?_, ?_, ?_, ?_, ?_, ?_, ?_⟩
    · show (updateBitmapForBlock st1 b false).free = _
      rw [hfr.2.1]
    · show (updateBitmapForBlock st1 b false).used = _
      rw [hfr.2.2.1]
    · show (updateBitmapForBlock st1 b false).imgBytes = _
      rw [hfr.2.2.2.2.1]
    · show (updateBitmapForBlock st1 b false).readOnly = _
      rw [hfr.2.2.2.2.2.1]
    · show (if b = 880 then zeroRoot else (updateBitmapForBlock st1 b false).root) = _
      rw [if_neg hb880, hfr.2.2.2.2.2.2]
    · show (updateBitmapForBlock st1 b false).cache = _
      rw [hc]
    · intro x hx
      show Function.update (updateBitmapForBlock st1 b false).hdrs b zeroFH x = _
      rw [Function.update_noteq hx, hfr.1]
  · rw [if_neg hw]
    refine ⟨rfl, ?_, ?_, ?_, ?_, ?_, ?_, ?_⟩
    · rw [hfr.2.1]
    · rw [hfr.2.2.1]
    · rw [hfr.2.2.2.2.1]
    · rw [hfr.2.2.2.2.2.1]
    · rw [hfr.2.2.2.2.2.2]
    · rw [hc]
    · intro x hx
      rw [hfr.1]

lemma clearCache_parts (st : FS) :
    (clearCache st).free = st.free ∧ (clearCache st).used = st.used ∧
      (clearCache st).root = st.root ∧ (clearCache st).hdrs = st.hdrs ∧
      (clearCache st).imgBytes = st.imgBytes ∧
      (clearCache st).readOnly = st.readOnly ∧ (clearCache st).cache = [] :=
  ⟨rfl, rfl, rfl, rfl, rfl, rfl, rfl⟩

set_option maxRecDepth 8000 in
set_option maxHeartbeats 1600000 in
lemma touchRootState_parts (st : FS) (n : Nat) :
    (touchRootState st n).free = st.free ∧ (touchRootState st n).used = st.used ∧
      (touchRootState st n).hdrs = st.hdrs ∧
      (touchRootState st n).imgBytes = st.imgBytes ∧
      (touchRootState st n).readOnly = st.readOnly ∧
      (touchRootState st n).cache = st.cache ∧
      (touchRootState st n).root = updChkR (touchR st.root n) := by
  unfold touchRootState
  exact ⟨rfl, rfl, rfl, rfl, rfl, rfl, rfl⟩

lemma addRootSlot_parts (st : FS) (h v : Nat) :
    (addRootSlot st h v).free = st.free ∧ (addRootSlot st h v).used = st.used ∧
      (addRootSlot st h v).hdrs = st.hdrs ∧
      (addRootSlot st h v).imgBytes = st.imgBytes ∧
      (addRootSlot st h v).readOnly = st.readOnly ∧
      (addRootSlot st h v).cache = st.cache ∧
      (addRootSlot st h v).root.hashSlots
        = Function.update st.root.hashSlots h v :=
  ⟨rfl, rfl, rfl, rfl, rfl, rfl, rfl⟩

lemma installHdr_parts (st : FS) (fb : Nat) (h : FileHdr) :
    (installHdr st fb h).free = st.free ∧ (installHdr st fb h).used = st.used ∧
      (installHdr st fb h).root = st.root ∧
      (installHdr st fb h).imgBytes = st.imgBytes ∧
      (installHdr st fb h).readOnly = st.readOnly ∧
      (installHdr st fb h).cache = st.cache ∧
      (installHdr st fb h).hdrs = Function.update st.hdrs fb h :=
  ⟨rfl, rfl, rfl, rfl, rfl, rfl, rfl⟩

lemma zeroBlock_parts (st : FS) (b : Nat) :
    (zeroBlock st b).free = st.free ∧ (zeroBlock st b).used = st.used ∧
      (zeroBlock st b).imgBytes = st.imgBytes ∧
      (zeroBlock st b).readOnly = st.readOnly ∧
      (zeroBlock st b).cache = st.cache :=
  ⟨rfl, rfl, rfl, rfl, rfl⟩

lemma linkChain_eq (st : FS) (fb e : Nat) (hw : wOK st fb = true) :
    linkChain st fb e = { st with hdrs := (Function.update st.hdrs fb
      (updChkH { st.hdrs fb with hashChain := e })) } := by
  unfold linkChain
  rw [if_pos hw]

lemma gbOK_congr (st1 st2 : FS) (b : Nat) (h : st1.imgBytes = st2.imgBytes) :
    gbOK st1 b = gbOK st2 b := by
  unfold gbOK
  rw [h]

lemma wOK_congr (st1 st2 : FS) (b : Nat) (h1 : st1.imgBytes = st2.imgBytes)
    (h2 : st1.readOnly = st2.readOnly) : wOK st1 b = wOK st2 b := by
  unfold wOK
  rw [gbOK_congr st1 st2 b h1, h2]

lemma getHdr_eq (st : FS) (b : Nat) (h : gbOK st b = true) :
    getHdr st b = some (st.hdrs b) := by
  unfold getHdr
  rw [if_pos h]

set_option maxRecDepth 8000 in
lemma hdrFinal_parts (b p : Nat) (n : List Nat) (t ex : Nat) :
    (updChkH { initFileHdr b p n t with hashChain := ex }).filename
        = bcplWrite zeroFH.filename n ∧
      (updChkH { initFileHdr b p n t with hashChain := ex }).hashChain = ex ∧
      (updChkH { initFileHdr b p n t with hashChain := ex }).secType = ST_FILE ∧
      (updChkH { initFileHdr b p n t with hashChain := ex }).firstData = 0 :=
  ⟨rfl, rfl, rfl, rfl⟩

/-- The fields of an entry that `find?`, `fdbAux` and the unlink path
inspect (name, directory flag, block number); mtime is never compared. -/
def eKey (e : Entry) : List Nat × Bool × Nat := (e.name, e.isDir, e.blockNum)

/-- The block numbers visited along a hash chain. -/
def chainBlocks (f : Nat) (st : FS) (bn : Nat) : List Nat :=
  (rawChain f st bn).map Prod.fst

lemma rawChain_zero (f : Nat) (st : FS) : rawChain f st 0 = [] := by
  cases f with
  | zero => rfl
  | succ k => rfl

lemma getHdr_none (st : FS) (b : Nat) (h : gbOK st b = false) :
    getHdr st b = none := by
  unfold getHdr
  rw [h]
  rfl

lemma rawChain_succ_cons (st : FS) (bn k : Nat) (hb0 : bn ≠ 0)
    (hok : gbOK st bn = true) :
    rawChain (k + 1) st bn
      = (bn, st.hdrs bn) :: rawChain k st ((st.hdrs bn).hashChain) := by
  conv_lhs => rw [rawChain]
  rw [if_neg hb0, getHdr_eq st bn hok]

lemma rawChain_succ_dead (st : FS) (bn k : Nat) (hb0 : bn ≠ 0)
    (hok : gbOK st bn = false) : rawChain (k + 1) st bn = [] := by
  unfold rawChain
  rw [if_neg hb0, getHdr_none st bn hok]

lemma walkBucket_succ_eq (st : FS) (bn k : Nat) (hb0 : bn ≠ 0)
    (hok : gbOK st bn = true) :
    walkBucket (k + 1) st bn
      = if bcplRead (st.hdrs bn).filename 30 = [] then
          walkBucket k st ((st.hdrs bn).hashChain)
        else mkEntry bn (st.hdrs bn) :: walkBucket k st ((st.hdrs bn).hashChain) := by
  conv_lhs => rw [walkBucket]
  rw [if_neg hb0, getHdr_eq st bn hok]

lemma walkBucket_succ_dead (st : FS) (bn k : Nat) (hb0 : bn ≠ 0)
    (hok : gbOK st bn = false) : walkBucket (k + 1) st bn = [] := by
  unfold walkBucket
  rw [if_neg hb0, getHdr_none st bn hok]

lemma walk_stable (st st2 : FS) (hImg : st2.imgBytes = st.imgBytes) :
    ∀ f bn,
      (∀ x ∈ chainBlocks f st bn,
        (st2.hdrs x).filename = (st.hdrs x).filename ∧
          (st2.hdrs x).secType = (st.hdrs x).secType ∧
          (st2.hdrs x).hashChain = (st.hdrs x).hashChain) →
      chainBlocks f st2 bn = chainBlocks f st bn ∧
        (walkBucket f st2 bn).map eKey = (walkBucket f st bn).map eKey := by
  intro f
  induction f with
  | zero =>
    intro bn _
    exact ⟨rfl, rfl⟩
  | succ k ih =>
    intro bn hpres
    by_cases hb0 : bn = 0
    · subst hb0
      constructor
      · unfold chainBlocks
        rw [rawChain_zero, rawChain_zero]
      · rw [walkBucket_zero, walkBucket_zero]
    have hok2 : gbOK st2 bn = gbOK st bn := gbOK_congr st2 st bn hImg
    by_cases hok : gbOK st bn = true
    case neg =>
      have hokf : gbOK st bn = false := by
        cases hgb : gbOK st bn
        · rfl
        · exact absurd hgb hok
      have hokf2 : gbOK st2 bn = false := by rw [hok2, hokf]
      constructor
      · unfold chainBlocks
        rw [rawChain_succ_dead st2 bn k hb0 hokf2, rawChain_succ_dead st bn k hb0 hokf]
      · rw [walkBucket_succ_dead st2 bn k hb0 hokf2,
          walkBucket_succ_dead st bn k hb0 hokf]
    have hok2' : gbOK st2 bn = true := by rw [hok2, hok]
    have hcb : chainBlocks (k + 1) st bn
        = bn :: chainBlocks k st ((st.hdrs bn).hashChain) := by
      unfold chainBlocks
      rw [rawChain_succ_cons st bn k hb0 hok]
      rfl
    have hself : bn ∈ chainBlocks (k + 1) st bn := by
      rw [hcb]
      exact List.mem_cons_self _ _
    have hfld := hpres bn hself
    have htail : ∀ x ∈ chainBlocks k st ((st.hdrs bn).hashChain),
        (st2.hdrs x).filename = (st.hdrs x).filename ∧
          (st2.hdrs x).secType = (st.hdrs x).secType ∧
          (st2.hdrs x).hashChain = (st.hdrs x).hashChain := by
      intro x hx2
      refine hpres x ?_
      rw [hcb]
      exact List.mem_cons_of_mem _ hx2
    have hih := ih ((st.hdrs bn).hashChain) htail
    have hcb2 : chainBlocks (k + 1) st2 bn
        = bn :: chainBlocks k st2 ((st2.hdrs bn).hashChain) := by
      unfold chainBlocks
      rw [rawChain_succ_cons st2 bn k hb0 hok2']
      rfl
    constructor
    · rw [hcb2, hcb, hfld.2.2, hih.1]
    · rw [walkBucket_succ_eq st2 bn k hb0 hok2', walkBucket_succ_eq st bn k hb0 hok]
      have hnm : bcplRead (st2.hdrs bn).filename 30
          = bcplRead (st.hdrs bn).filename 30 := by rw [hfld.1]
      by_cases hemp : bcplRead (st.hdrs bn).filename 30 = []
      · rw [if_pos hemp, if_pos (by rw [hnm]; exact hemp), hfld.2.2, hih.2]
      · rw [if_neg hemp, if_neg (by rw [hnm]; exact hemp), hfld.2.2]
        rw [List.map_cons, List.map_cons, hih.2]
        congr 1
        show (bcplRead (st2.hdrs bn).filename 30,
            decide ((st2.hdrs bn).secType = ST_DIR), bn)
          = (bcplRead (st.hdrs bn).filename 30,
            decide ((st.hdrs bn).secType = ST_DIR), bn)
        rw [hnm, hfld.2.1]

lemma find_key_corr (nm : List Nat) : ∀ l l2 : List Entry,
    l2.map eKey = l.map eKey →
    Option.map eKey (l2.find? (fun e => e.name = nm))
      = Option.map eKey (l.find? (fun e => e.name = nm)) := by
  intro l
  induction l with
  | nil =>
    intro l2 hk
    cases l2 with
    | nil => rfl
    | cons a t => simp at hk
  | cons e t ih =>
    intro l2 hk
    cases l2 with
    | nil => simp at hk
    | cons a t2 =>
      rw [List.map_cons, List.map_cons] at hk
      injection hk with h1 h2
      have hname : a.name = e.name := congrArg (fun p => p.1) h1
      by_cases hm : e.name = nm
      · rw [List.find?_cons_of_pos _ (by simp [hname, hm]),
          List.find?_cons_of_pos _ (by simp [hm])]
        simp [h1]
      · rw [List.find?_cons_of_neg _ (by simp [hname, hm]),
          List.find?_cons_of_neg _ (by simp [hm])]
        exact ih t2 h2

lemma fail_of_keys (nm : List Nat) : ∀ l l2 : List Entry,
    l2.map eKey = l.map eKey → (∀ e ∈ l, ¬ e.name = nm) →
    ∀ e2 ∈ l2, ¬ e2.name = nm := by
  intro l
  induction l with
  | nil =>
    intro l2 hk _ e2 he2
    cases l2 with
    | nil => cases he2
    | cons a t => simp at hk
  | cons e t ih =>
    intro l2 hk hfail e2 he2
    cases l2 with
    | nil => cases he2
    | cons a t2 =>
      rw [List.map_cons, List.map_cons] at hk
      injection hk with h1 h2
      rcases List.mem_cons.mp he2 with rfl | hmem
      · have hname : e2.name = e.name := congrArg (fun p => p.1) h1
        rw [hname]
        exact hfail e (List.mem_cons_self _ _)
      · exact ih t2 h2 (fun x hx => hfail x (List.mem_cons_of_mem _ hx)) e2 hmem

lemma flatMap_keys (g g2 : Nat → List Entry) : ∀ n,
    (∀ i, i < n → (g2 i).map eKey = (g i).map eKey) →
    ((List.range n).flatMap g2).map eKey = ((List.range n).flatMap g).map eKey := by
  intro n
  induction n with
  | zero =>
    intro _
    rfl
  | succ k ih =>
    intro h
    rw [List.range_succ, List.flatMap_append, List.flatMap_append,
      List.map_append, List.map_append, ih (fun i hi => h i (by omega))]
    congr 1
    simp [h k (by omega)]

lemma find_append_some {p : Entry → Bool} : ∀ (l1 l2 : List Entry) (e : Entry),
    l1.find? p = some e → (l1 ++ l2).find? p = some e := by
  intro l1
  induction l1 with
  | nil =>
    intro l2 e h
    cases h
  | cons a t ih =>
    intro l2 e h
    by_cases hp : p a = true
    · rw [List.find?_cons_of_pos _ hp] at h
      rw [List.cons_append, List.find?_cons_of_pos _ hp]
      exact h
    · have hp2 : p a = false := by
        cases hpa : p a
        · rfl
        · exact absurd hpa hp
      rw [List.find?_cons_of_neg _ (by simp [hp2])] at h
      rw [List.cons_append, List.find?_cons_of_neg _ (by simp [hp2])]
      exact ih l2 e h

lemma find_append_none {p : Entry → Bool} : ∀ (l1 l2 : List Entry),
    l1.find? p = none → (l1 ++ l2).find? p = l2.find? p := by
  intro l1
  induction l1 with
  | nil =>
    intro l2 _
    rfl
  | cons a t ih =>
    intro l2 h
    by_cases hp : p a = true
    · rw [List.find?_cons_of_pos _ hp] at h
      cases h
    · have hp2 : p a = false := by
        cases hpa : p a
        · rfl
        · exact absurd hpa hp
      rw [List.find?_cons_of_neg _ (by simp [hp2])] at h
      rw [List.cons_append, List.find?_cons_of_neg _ (by simp [hp2])]
      exact ih l2 h

lemma find_flatMap_head (g : Nat → List Entry) (p : Entry → Bool) (h : Nat)
    (e0 : Entry) (t : List Entry) (hg : g h = e0 :: t) (hp : p e0 = true)
    (hbef : ∀ i, i < h → ∀ e ∈ g i, p e = false) :
    ∀ n, h < n → ((List.range n).flatMap g).find? p = some e0 := by
  intro n
  induction n with
  | zero =>
    intro hh
    omega
  | succ k ih =>
    intro hh
    rw [List.range_succ, List.flatMap_append]
    by_cases hk : h < k
    · exact find_append_some _ _ _ (ih hk)
    · have hhk : h = k := by omega
      subst hhk
      have hnone : ((List.range h).flatMap g).find? p = none := by
        rw [List.find?_eq_none]
        intro e he
        rcases List.mem_flatMap.mp he with ⟨i, hi, hei⟩
        have hih2 : i < h := List.mem_range.mp hi
        simp [hbef i hih2 e hei]
      rw [find_append_none _ _ hnone]
      have h1 : ([h] : List Nat).flatMap g = g h := by simp
      rw [h1, hg, List.find?_cons_of_pos _ hp]

lemma fdbAux_root (r : Option Entry) : fdbAux [47] r = 880 := by
  unfold fdbAux
  rw [if_pos (Or.inl rfl)]

lemma listDirBlock_empty (st : FS) (hok : gbOK st 880 = true)
    (hslots : ∀ i, st.root.hashSlots i = 0) :
    listDirBlock st 880 = some [] := by
  unfold listDirBlock
  rw [getHdr_eq st 880 hok]
  dsimp only
  have hnil : (List.range 72).flatMap (fun i =>
      walkBucket (totalBlocks st + 1) st
        (if (880 : Nat) = 880 then st.root.hashSlots i else (st.hdrs 880).hashSlots i))
      = [] := by
    apply flatMap_nil_of
    intro i _
    rw [if_pos rfl, hslots i]
    exact walkBucket_zero _ st
  rw [hnil]

lemma listDirAux_val (st : FS) (r : Option Entry)
    (hcache : st.cache = []) (hok : gbOK st 880 = true)
    (hslots : ∀ i, st.root.hashSlots i = 0) :
    listDirAux st [47] r = some [] := by
  unfold listDirAux
  rw [hcache]
  have hlu : lookupCache [] [47] = none := rfl
  rw [hlu]
  dsimp only
  rw [fdbAux_root, if_neg (by omega), listDirBlock_empty st hok hslots]

lemma getEntry_none (st : FS) (path : List Nat) (now : Nat)
    (hcache : st.cache = []) (hok : gbOK st 880 = true)
    (hslots : ∀ i, st.root.hashSlots i = 0)
    (hpne : ¬(path = [47] ∨ path = []))
    (hparent : splitParent path = [47]) :
    getEntry st path now = none := by
  unfold getEntry getEntryF
  rw [if_neg hpne, hparent]
  rw [listDirAux_val st _ hcache hok hslots]
  rfl

lemma getEntry_single (st : FS) (path fname : List Nat) (now : Nat) (b h : Nat)
    (hcache : st.cache = []) (hok : gbOK st 880 = true)
    (hpne : ¬(path = [47] ∨ path = []))
    (hparent : splitParent path = [47]) (hnm : splitName path = fname)
    (hslots : ∀ i, i ≠ h → st.root.hashSlots i = 0)
    (hsh : st.root.hashSlots h = b) (hh : h < 72) (hb0 : b ≠ 0)
    (hokb : gbOK st b = true)
    (hchain : (st.hdrs b).hashChain = 0)
    (hname : bcplRead (st.hdrs b).filename 30 = fname)
    (hfne : fname ≠ []) :
    getEntry st path now = some (mkEntry b (st.hdrs b)) := by
  have hwalk : walkBucket (totalBlocks st + 1) st b = [mkEntry b (st.hdrs b)] := by
    unfold walkBucket
    rw [if_neg hb0, getHdr_eq st b hokb]
    dsimp only
    rw [hname, if_neg hfne, hchain, walkBucket_zero]
  have hlist : listDirBlock st 880 = some [mkEntry b (st.hdrs b)] := by
    unfold listDirBlock
    rw [getHdr_eq st 880 hok]
    dsimp only
    have hfm : (List.range 72).flatMap (fun i =>
        walkBucket (totalBlocks st + 1) st
          (if (880 : Nat) = 880 then st.root.hashSlots i else (st.hdrs 880).hashSlots i))
        = walkBucket (totalBlocks st + 1) st
            (if (880 : Nat) = 880 then st.root.hashSlots h else (st.hdrs 880).hashSlots h) := by
      apply flatMap_single _ h 72 hh
      intro i _ hih
      rw [if_pos rfl, hslots i hih]
      exact walkBucket_zero _ st
    rw [hfm, if_pos rfl, hsh, hwalk]
  unfold getEntry getEntryF
  rw [if_neg hpne, hparent]
  have haux : listDirAux st [47] (getEntryF path.length st [47] now)
      = some [mkEntry b (st.hdrs b)] := by
    unfold listDirAux
    rw [hcache]
    have hlu : lookupCache [] [47] = none := rfl
    rw [hlu]
    dsimp only
    rw [fdbAux_root, if_neg (by omega), hlist]
  rw [haux]
  dsimp only
  rw [hnm]
  have hpred : (mkEntry b (st.hdrs b)).name = fname := hname
  simp [List.find?, hpred]

lemma listDirBlock_root (st : FS) (hok : gbOK st 880 = true) :
    listDirBlock st 880 = some ((List.range 72).flatMap (fun i =>
      walkBucket (totalBlocks st + 1) st (st.root.hashSlots i))) := by
  unfold listDirBlock
  rw [getHdr_eq st 880 hok]
  dsimp only
  have hfn : (fun i => walkBucket (totalBlocks st + 1) st
      (if (880 : Nat) = 880 then st.root.hashSlots i else (st.hdrs 880).hashSlots i))
      = (fun i => walkBucket (totalBlocks st + 1) st (st.root.hashSlots i)) := by
    funext i
    rw [if_pos rfl]
  rw [hfn]

lemma getEntry_root_eq (st : FS) (fname : List Nat) (now : Nat)
    (hcache : st.cache = []) (hok : gbOK st 880 = true)
    (hn0 : fname ≠ []) (hns : 47 ∉ fname) :
    getEntry st (47 :: fname) now =
      ((List.range 72).flatMap (fun i =>
        walkBucket (totalBlocks st + 1) st (st.root.hashSlots i))).find?
        (fun e => e.name = fname) := by
  have hpne : ¬((47 :: fname) = [47] ∨ (47 :: fname) = []) := by
    simp [hn0]
  unfold getEntry getEntryF
  rw [if_neg hpne, splitParent_root fname hns]
  have haux : listDirAux st [47] (getEntryF (47 :: fname).length st [47] now)
      = some ((List.range 72).flatMap (fun i =>
        walkBucket (totalBlocks st + 1) st (st.root.hashSlots i))) := by
    unfold listDirAux
    rw [hcache]
    have hlu : lookupCache [] [47] = none := rfl
    rw [hlu]
    dsimp only
    rw [fdbAux_root, if_neg (by omega), listDirBlock_root st hok]
  rw [haux]
  dsimp only
  rw [splitName_root fname hns]

lemma walk_cons (st : FS) (b f : Nat) (hb0 : b ≠ 0) (hok : gbOK st b = true)
    (hnm : bcplRead (st.hdrs b).filename 30 ≠ []) :
    walkBucket (f + 1) st b
      = mkEntry b (st.hdrs b) :: walkBucket f st ((st.hdrs b).hashChain) := by
  rw [walkBucket_succ_eq st b f hb0 hok, if_neg hnm]

lemma getEntry_head (st : FS) (fname : List Nat) (now : Nat) (b h : Nat)
    (hcache : st.cache = []) (hok880 : gbOK st 880 = true)
    (hn0 : fname ≠ []) (hns : 47 ∉ fname)
    (hh : h < 72) (hb0 : b ≠ 0) (hokb : gbOK st b = true)
    (hsh : st.root.hashSlots h = b)
    (hname : bcplRead (st.hdrs b).filename 30 = fname)
    (hbef : ∀ i, i < h →
      ∀ e ∈ walkBucket (totalBlocks st + 1) st (st.root.hashSlots i),
        ¬ e.name = fname) :
    getEntry st (47 :: fname) now = some (mkEntry b (st.hdrs b)) := by
  rw [getEntry_root_eq st fname now hcache hok880 hn0 hns]
  refine find_flatMap_head _ _ h (mkEntry b (st.hdrs b))
    (walkBucket (totalBlocks st) st ((st.hdrs b).hashChain)) ?_ ?_ ?_ 72 hh
  · rw [hsh]
    exact walk_cons st b (totalBlocks st) hb0 hokb (by rw [hname]; exact hn0)
  · have hmn : (mkEntry b (st.hdrs b)).name = bcplRead (st.hdrs b).filename 30 := rfl
    simp [hmn, hname]
  · intro i hi e he
    exact decide_eq_false (hbef i hi e he)

lemma addRootSlot_root (st : FS) (h v : Nat) :
    (addRootSlot st h v).root
      = { st.root with hashSlots := Function.update st.root.hashSlots h v } := by
  unfold addRootSlot
  rfl

lemma createFile_eq (st : FS) (fname : List Nat) (now1 : Nat)
    (hro : st.readOnly = false)
    (hgE : getEntry st (47 :: fname) now1 = none)
    (hn0 : fname ≠ []) (hn30 : fname.length ≤ 30) (hns : 47 ∉ fname)
    (hne : st.free.Nonempty)
    (hb2 : 2 ≤ st.free.min' hne) (hb880 : st.free.min' hne ≠ 880)
    (hb25 : st.free.min' hne / 4064 < 25)
    (hok880 : gbOK st 880 = true)
    (hbm : st.root.bmPages (st.free.min' hne / 4064) ≠ 0)
    (hokb : gbOK st (st.free.min' hne) = true) :
    createFile st (47 :: fname) now1 =
      (0, clearCache (touchRootState (linkChain
        (addRootSlot
          (installHdr (zeroBlock (allocateBlock st).2 (st.free.min' hne))
            (st.free.min' hne)
            (initFileHdr (st.free.min' hne) 880 fname now1))
          (hashName fname) (st.free.min' hne))
        (st.free.min' hne) (st.root.hashSlots (hashName fname))) now1)) := by
  have hfacts := alloc_facts st hne hb25 hok880 hbm hb880
  unfold createFile
  rw [if_neg (by simp [hro])]
  rw [splitName_root fname hns]
  rw [if_neg (by omega)]
  rw [splitParent_root fname hns]
  rw [hgE]
  rw [if_neg (by simp)]
  have hfdb : findDirectoryBlock st [47] now1 = 880 := by
    unfold findDirectoryBlock
    exact fdbAux_root _
  rw [hfdb]
  rw [if_neg (by omega)]
  rw [hfacts.1]
  rw [if_neg (by omega)]
  have hwA : wOK (allocateBlock st).2 (st.free.min' hne) = true := by
    rw [wOK_congr (allocateBlock st).2 st (st.free.min' hne)
      hfacts.2.2.2.1 hfacts.2.2.2.2.1]
    unfold wOK
    rw [hokb, hro]
    rfl
  rw [if_neg (by simp [hwA])]
  have hYimg : (installHdr (zeroBlock (allocateBlock st).2 (st.free.min' hne))
      (st.free.min' hne)
      (initFileHdr (st.free.min' hne) 880 fname now1)).imgBytes = st.imgBytes := by
    rw [(installHdr_parts _ _ _).2.2.2.1, (zeroBlock_parts _ _).2.2.1,
      hfacts.2.2.2.1]
  have hYro : (installHdr (zeroBlock (allocateBlock st).2 (st.free.min' hne))
      (st.free.min' hne)
      (initFileHdr (st.free.min' hne) 880 fname now1)).readOnly = st.readOnly := by
    rw [(installHdr_parts _ _ _).2.2.2.2.1, (zeroBlock_parts _ _).2.2.2.1,
      hfacts.2.2.2.2.1]
  have hYroot : (installHdr (zeroBlock (allocateBlock st).2 (st.free.min' hne))
      (st.free.min' hne)
      (initFileHdr (st.free.min' hne) 880 fname now1)).root = st.root := by
    rw [(installHdr_parts _ _ _).2.2.1,
      zeroBlock_root (allocateBlock st).2 (st.free.min' hne) hb880,
      hfacts.2.2.2.2.2.1]
  have hwY : wOK (installHdr (zeroBlock (allocateBlock st).2 (st.free.min' hne))
      (st.free.min' hne)
      (initFileHdr (st.free.min' hne) 880 fname now1)) 880 = true := by
    rw [wOK_congr _ st 880 hYimg hYro]
    unfold wOK
    rw [hok880, hro]
    rfl
  have hadd : addToDirectory
      (installHdr (zeroBlock (allocateBlock st).2 (st.free.min' hne))
        (st.free.min' hne)
        (initFileHdr (st.free.min' hne) 880 fname now1))
      880 (st.free.min' hne) fname now1
      = touchRootState (linkChain
          (addRootSlot
            (installHdr (zeroBlock (allocateBlock st).2 (st.free.min' hne))
              (st.free.min' hne)
              (initFileHdr (st.free.min' hne) 880 fname now1))
            (hashName fname) (st.free.min' hne))
          (st.free.min' hne) (st.root.hashSlots (hashName fname))) now1 := by
    unfold addToDirectory
    rw [if_pos rfl]
    rw [if_neg (by simp [hwY])]
    rw [hYroot]
  rw [hadd]

lemma linkChain_parts (st : FS) (fb e : Nat) (hw : wOK st fb = true) :
    (linkChain st fb e).free = st.free ∧ (linkChain st fb e).used = st.used ∧
      (linkChain st fb e).root = st.root ∧
      (linkChain st fb e).imgBytes = st.imgBytes ∧
      (linkChain st fb e).readOnly = st.readOnly ∧
      (linkChain st fb e).cache = st.cache ∧
      (linkChain st fb e).hdrs = Function.update st.hdrs fb
        (updChkH { st.hdrs fb with hashChain := e }) := by
  rw [linkChain_eq st fb e hw]
  exact ⟨rfl, rfl, rfl, rfl, rfl, rfl, rfl⟩

lemma deleteFile_eq (stC : FS) (fname : List Nat) (now2 : Nat) (b h : Nat)
    (hCro : stC.readOnly = false)
    (hn0 : fname ≠ []) (hns : 47 ∉ fname)
    (hok880C : gbOK stC 880 = true) (hokbC : gbOK stC b = true)
    (hb2 : 2 ≤ b) (hb880 : b ≠ 880)
    (hgE2 : getEntry stC (47 :: fname) now2 = some (mkEntry b (stC.hdrs b)))
    (hshC : stC.root.hashSlots h = b)
    (hfdC : (stC.hdrs b).firstData = 0)
    (hsecC : (stC.hdrs b).secType = ST_FILE)
    (hnameC : bcplRead (stC.hdrs b).filename 30 = fname)
    (hhash : hashName fname = h) :
    deleteFile stC (47 :: fname) now2 =
      (0, clearCache (updateBitmapForBlock
        { touchRootState (addRootSlot stC h ((stC.hdrs b).hashChain)) now2 with
          used := (touchRootState (addRootSlot stC h
            ((stC.hdrs b).hashChain)) now2).used.erase b
          free := insert b (touchRootState (addRootSlot stC h
            ((stC.hdrs b).hashChain)) now2).free }
        b true)) := by
  have hw880 : wOK stC 880 = true := by
    unfold wOK
    rw [hok880C, hCro]
    rfl
  unfold deleteFile
  rw [if_neg (by simp [hCro])]
  rw [hgE2]
  dsimp only
  have hisdir : (mkEntry b (stC.hdrs b)).isDir = false := by
    show decide ((stC.hdrs b).secType = ST_DIR) = false
    rw [hsecC]
    decide
  rw [if_neg (by simp [hisdir])]
  have hbn : (mkEntry b (stC.hdrs b)).blockNum = b := rfl
  have hen : (mkEntry b (stC.hdrs b)).name = bcplRead (stC.hdrs b).filename 30 := rfl
  rw [hbn, hen, hnameC]
  rw [splitParent_root fname hns]
  have hfdbC : findDirectoryBlock stC [47] now2 = 880 := by
    unfold findDirectoryBlock
    exact fdbAux_root _
  rw [hfdbC]
  have hrem : removeFromDirectory stC 880 b fname now2
      = touchRootState (addRootSlot stC h ((stC.hdrs b).hashChain)) now2 := by
    unfold removeFromDirectory
    rw [if_pos rfl]
    rw [if_neg (by simp [hw880])]
    rw [hhash]
    rw [if_pos hshC]
    rw [if_pos hokbC]
  rw [hrem]
  have hRhdrs : (touchRootState (addRootSlot stC h
      ((stC.hdrs b).hashChain)) now2).hdrs = stC.hdrs := by
    rw [(touchRootState_parts _ _).2.2.1, (addRootSlot_parts _ _ _).2.2.1]
  have hRimg : (touchRootState (addRootSlot stC h
      ((stC.hdrs b).hashChain)) now2).imgBytes = stC.imgBytes := by
    rw [(touchRootState_parts _ _).2.2.2.1, (addRootSlot_parts _ _ _).2.2.2.1]
  have hokbR : gbOK (touchRootState (addRootSlot stC h
      ((stC.hdrs b).hashChain)) now2) b = true := by
    rw [gbOK_congr _ stC b hRimg]
    exact hokbC
  have hff : freeFileBlocks (touchRootState (addRootSlot stC h
      ((stC.hdrs b).hashChain)) now2) b
      = freeBlock (touchRootState (addRootSlot stC h
          ((stC.hdrs b).hashChain)) now2) b := by
    unfold freeFileBlocks
    rw [getHdr_eq _ b hokbR]
    dsimp only
    rw [hRhdrs, hfdC]
    unfold freeDataChain
    rw [if_pos rfl]
  rw [hff]
  have hfb : freeBlock (touchRootState (addRootSlot stC h
      ((stC.hdrs b).hashChain)) now2) b
      = updateBitmapForBlock
        { touchRootState (addRootSlot stC h ((stC.hdrs b).hashChain)) now2 with
          used := (touchRootState (addRootSlot stC h
            ((stC.hdrs b).hashChain)) now2).used.erase b
          free := insert b (touchRootState (addRootSlot stC h
            ((stC.hdrs b).hashChain)) now2).free }
        b true := by
    unfold freeBlock
    rw [if_neg (by omega)]
  rw [hfb]

lemma withUF_parts (x : FS) (u2 f2 : Finset Nat) :
    ({ x with used := u2, free := f2 } : FS).free = f2 ∧
      ({ x with used := u2, free := f2 } : FS).used = u2 ∧
      ({ x with used := u2, free := f2 } : FS).root = x.root :=
  ⟨rfl, rfl, rfl⟩

lemma roundtrip_part1 (st : FS) (fname : List Nat) (now1 now2 : Nat)
    (hro : st.readOnly = false) (hcache : st.cache = [])
    (hn0 : fname ≠ []) (hn30 : fname.length ≤ 30)
    (hnb : ∀ c ∈ fname, c < 256) (hns : 47 ∉ fname)
    (hne : st.free.Nonempty)
    (hb2 : 2 ≤ st.free.min' hne) (hb880 : st.free.min' hne ≠ 880)
    (hbused : st.free.min' hne ∉ st.used)
    (hb25 : st.free.min' hne / 4064 < 25)
    (hok880 : gbOK st 880 = true)
    (hbm : st.root.bmPages (st.free.min' hne / 4064) ≠ 0)
    (hokb : gbOK st (st.free.min' hne) = true)
    (hnochain : ∀ f i, st.free.min' hne ∉ chainBlocks f st (st.root.hashSlots i))
    (hgE1 : getEntry st (47 :: fname) now1 = none) :
    (createFile st (47 :: fname) now1).1 = 0 ∧
      (deleteFile (createFile st (47 :: fname) now1).2 (47 :: fname) now2).1 = 0 ∧
      (deleteFile (createFile st (47 :: fname) now1).2 (47 :: fname) now2).2.free
        = st.free ∧
      (deleteFile (createFile st (47 :: fname) now1).2 (47 :: fname) now2).2.used
        = st.used ∧
      (deleteFile (createFile st (47 :: fname) now1).2 (47 :: fname) now2).2.root
        = updChkR (touchR st.root now2) := by
  have hfacts := alloc_facts st hne hb25 hok880 hbm hb880
  have hC := createFile_eq st fname now1 hro hgE1 hn0 hn30 hns hne
    hb2 hb880 hb25 hok880 hbm hokb
  have hYimg : ((installHdr (zeroBlock (allocateBlock st).2 (st.free.min' hne)) (st.free.min' hne)
      (initFileHdr (st.free.min' hne) 880 fname now1))).imgBytes = st.imgBytes := by
    rw [(installHdr_parts _ _ _).2.2.2.1, (zeroBlock_parts _ _).2.2.1,
      hfacts.2.2.2.1]
  have hYro : ((installHdr (zeroBlock (allocateBlock st).2 (st.free.min' hne)) (st.free.min' hne)
      (initFileHdr (st.free.min' hne) 880 fname now1))).readOnly = st.readOnly := by
    rw [(installHdr_parts _ _ _).2.2.2.2.1, (zeroBlock_parts _ _).2.2.2.1,
      hfacts.2.2.2.2.1]
  have hYroot : ((installHdr (zeroBlock (allocateBlock st).2 (st.free.min' hne)) (st.free.min' hne)
      (initFileHdr (st.free.min' hne) 880 fname now1))).root = st.root := by
    rw [(installHdr_parts _ _ _).2.2.1,
      zeroBlock_root (allocateBlock st).2 (st.free.min' hne) hb880,
      hfacts.2.2.2.2.2.1]
  have hwL : wOK (addRootSlot (installHdr (zeroBlock (allocateBlock st).2 (st.free.min' hne)) (st.free.min' hne)
      (initFileHdr (st.free.min' hne) 880 fname now1)) (hashName fname) (st.free.min' hne)) (st.free.min' hne) = true := by
    rw [wOK_congr _ st _ (by
      rw [(addRootSlot_parts _ _ _).2.2.2.1, hYimg]) (by
      rw [(addRootSlot_parts _ _ _).2.2.2.2.1, hYro])]
    unfold wOK
    rw [hokb, hro]
    rfl
  have hCfree : ((clearCache (touchRootState (linkChain
      (addRootSlot (installHdr (zeroBlock (allocateBlock st).2 (st.free.min' hne)) (st.free.min' hne)
      (initFileHdr (st.free.min' hne) 880 fname now1)) (hashName fname) (st.free.min' hne))
      (st.free.min' hne) (st.root.hashSlots (hashName fname))) now1))).free = st.free.erase (st.free.min' hne) := by
    rw [(clearCache_parts _).1, (touchRootState_parts _ _).1,
      (linkChain_parts _ _ _ hwL).1, (addRootSlot_parts _ _ _).1,
      (installHdr_parts _ _ _).1, (zeroBlock_parts _ _).1, hfacts.2.1]
  have hCused : ((clearCache (touchRootState (linkChain
      (addRootSlot (installHdr (zeroBlock (allocateBlock st).2 (st.free.min' hne)) (st.free.min' hne)
      (initFileHdr (st.free.min' hne) 880 fname now1)) (hashName fname) (st.free.min' hne))
      (st.free.min' hne) (st.root.hashSlots (hashName fname))) now1))).used = insert (st.free.min' hne) st.used := by
    rw [(clearCache_parts _).2.1, (touchRootState_parts _ _).2.1,
      (linkChain_parts _ _ _ hwL).2.1, (addRootSlot_parts _ _ _).2.1,
      (installHdr_parts _ _ _).2.1, (zeroBlock_parts _ _).2.1, hfacts.2.2.1]
  have hCimg : ((clearCache (touchRootState (linkChain
      (addRootSlot (installHdr (zeroBlock (allocateBlock st).2 (st.free.min' hne)) (st.free.min' hne)
      (initFileHdr (st.free.min' hne) 880 fname now1)) (hashName fname) (st.free.min' hne))
      (st.free.min' hne) (st.root.hashSlots (hashName fname))) now1))).imgBytes = st.imgBytes := by
    rw [(clearCache_parts _).2.2.2.2.1, (touchRootState_parts _ _).2.2.2.1,
      (linkChain_parts _ _ _ hwL).2.2.2.1, (addRootSlot_parts _ _ _).2.2.2.1,
      hYimg]
  have hCro : ((clearCache (touchRootState (linkChain
      (addRootSlot (installHdr (zeroBlock (allocateBlock st).2 (st.free.min' hne)) (st.free.min' hne)
      (initFileHdr (st.free.min' hne) 880 fname now1)) (hashName fname) (st.free.min' hne))
      (st.free.min' hne) (st.root.hashSlots (hashName fname))) now1))).readOnly = false := by
    rw [(clearCache_parts _).2.2.2.2.2.1, (touchRootState_parts _ _).2.2.2.2.1,
      (linkChain_parts _ _ _ hwL).2.2.2.2.1, (addRootSlot_parts _ _ _).2.2.2.2.1,
      hYro, hro]
  have hCcache : ((clearCache (touchRootState (linkChain
      (addRootSlot (installHdr (zeroBlock (allocateBlock st).2 (st.free.min' hne)) (st.free.min' hne)
      (initFileHdr (st.free.min' hne) 880 fname now1)) (hashName fname) (st.free.min' hne))
      (st.free.min' hne) (st.root.hashSlots (hashName fname))) now1))).cache = [] := (clearCache_parts _).2.2.2.2.2.2
  have hCroot : ((clearCache (touchRootState (linkChain
      (addRootSlot (installHdr (zeroBlock (allocateBlock st).2 (st.free.min' hne)) (st.free.min' hne)
      (initFileHdr (st.free.min' hne) 880 fname now1)) (hashName fname) (st.free.min' hne))
      (st.free.min' hne) (st.root.hashSlots (hashName fname))) now1))).root
      = updChkR (touchR { st.root with
          hashSlots := Function.update st.root.hashSlots (hashName fname) (st.free.min' hne) }
        now1) := by
    rw [(clearCache_parts _).2.2.1, (touchRootState_parts _ _).2.2.2.2.2.2,
      (linkChain_parts _ _ _ hwL).2.2.1, addRootSlot_root, hYroot]
  have hChdrsF : ((clearCache (touchRootState (linkChain
      (addRootSlot (installHdr (zeroBlock (allocateBlock st).2 (st.free.min' hne)) (st.free.min' hne)
      (initFileHdr (st.free.min' hne) 880 fname now1)) (hashName fname) (st.free.min' hne))
      (st.free.min' hne) (st.root.hashSlots (hashName fname))) now1))).hdrs
      = Function.update (addRootSlot (installHdr (zeroBlock (allocateBlock st).2 (st.free.min' hne)) (st.free.min' hne)
      (initFileHdr (st.free.min' hne) 880 fname now1)) (hashName fname) (st.free.min' hne)).hdrs (st.free.min' hne)
        (updChkH { (addRootSlot (installHdr (zeroBlock (allocateBlock st).2 (st.free.min' hne)) (st.free.min' hne)
      (initFileHdr (st.free.min' hne) 880 fname now1)) (hashName fname) (st.free.min' hne)).hdrs (st.free.min' hne) with
          hashChain := (st.root.hashSlots (hashName fname)) }) := by
    rw [(clearCache_parts _).2.2.2.1, (touchRootState_parts _ _).2.2.1,
      (linkChain_parts _ _ _ hwL).2.2.2.2.2.2]
  have hYh : (addRootSlot (installHdr (zeroBlock (allocateBlock st).2 (st.free.min' hne)) (st.free.min' hne)
      (initFileHdr (st.free.min' hne) 880 fname now1)) (hashName fname) (st.free.min' hne)).hdrs (st.free.min' hne)
      = initFileHdr (st.free.min' hne) 880 fname now1 := by
    rw [(addRootSlot_parts _ _ _).2.2.1,
      (installHdr_parts _ _ _).2.2.2.2.2.2]
    exact Function.update_same _ _ _
  have hChdrs : ((clearCache (touchRootState (linkChain
      (addRootSlot (installHdr (zeroBlock (allocateBlock st).2 (st.free.min' hne)) (st.free.min' hne)
      (initFileHdr (st.free.min' hne) 880 fname now1)) (hashName fname) (st.free.min' hne))
      (st.free.min' hne) (st.root.hashSlots (hashName fname))) now1))).hdrs (st.free.min' hne)
      = updChkH { initFileHdr (st.free.min' hne) 880 fname now1 with
          hashChain := (st.root.hashSlots (hashName fname)) } := by
    rw [hChdrsF, Function.update_same, hYh]
  have hCh_x : ∀ x, x ≠ (st.free.min' hne) → ((clearCache (touchRootState (linkChain
      (addRootSlot (installHdr (zeroBlock (allocateBlock st).2 (st.free.min' hne)) (st.free.min' hne)
      (initFileHdr (st.free.min' hne) 880 fname now1)) (hashName fname) (st.free.min' hne))
      (st.free.min' hne) (st.root.hashSlots (hashName fname))) now1))).hdrs x = st.hdrs x := by
    intro x hx
    rw [hChdrsF, Function.update_noteq hx, (addRootSlot_parts _ _ _).2.2.1,
      (installHdr_parts _ _ _).2.2.2.2.2.2, Function.update_noteq hx]
    show Function.update (allocateBlock st).2.hdrs (st.free.min' hne) zeroFH x = st.hdrs x
    rw [Function.update_noteq hx]
    exact hfacts.2.2.2.2.2.2.2 x hx
  have hCslots2 : ((clearCache (touchRootState (linkChain
      (addRootSlot (installHdr (zeroBlock (allocateBlock st).2 (st.free.min' hne)) (st.free.min' hne)
      (initFileHdr (st.free.min' hne) 880 fname now1)) (hashName fname) (st.free.min' hne))
      (st.free.min' hne) (st.root.hashSlots (hashName fname))) now1))).root.hashSlots
      = Function.update st.root.hashSlots (hashName fname) (st.free.min' hne) := by
    rw [hCroot, updChkR_slots, touchR_slots]
  have hok880C : gbOK ((clearCache (touchRootState (linkChain
      (addRootSlot (installHdr (zeroBlock (allocateBlock st).2 (st.free.min' hne)) (st.free.min' hne)
      (initFileHdr (st.free.min' hne) 880 fname now1)) (hashName fname) (st.free.min' hne))
      (st.free.min' hne) (st.root.hashSlots (hashName fname))) now1))) 880 = true := by
    rw [gbOK_congr _ st _ hCimg]
    exact hok880
  have hokbC : gbOK ((clearCache (touchRootState (linkChain
      (addRootSlot (installHdr (zeroBlock (allocateBlock st).2 (st.free.min' hne)) (st.free.min' hne)
      (initFileHdr (st.free.min' hne) 880 fname now1)) (hashName fname) (st.free.min' hne))
      (st.free.min' hne) (st.root.hashSlots (hashName fname))) now1))) (st.free.min' hne) = true := by
    rw [gbOK_congr _ st _ hCimg]
    exact hokb
  have hshC : ((clearCache (touchRootState (linkChain
      (addRootSlot (installHdr (zeroBlock (allocateBlock st).2 (st.free.min' hne)) (st.free.min' hne)
      (initFileHdr (st.free.min' hne) 880 fname now1)) (hashName fname) (st.free.min' hne))
      (st.free.min' hne) (st.root.hashSlots (hashName fname))) now1))).root.hashSlots (hashName fname) = (st.free.min' hne) := by
    rw [hCslots2]
    exact Function.update_same _ _ _
  have hh72 : hashName fname < 72 := by
    unfold hashName
    exact Nat.mod_lt _ (by norm_num)
  have hEXval : (((clearCache (touchRootState (linkChain
      (addRootSlot (installHdr (zeroBlock (allocateBlock st).2 (st.free.min' hne)) (st.free.min' hne)
      (initFileHdr (st.free.min' hne) 880 fname now1)) (hashName fname) (st.free.min' hne))
      (st.free.min' hne) (st.root.hashSlots (hashName fname))) now1))).hdrs (st.free.min' hne)).hashChain = (st.root.hashSlots (hashName fname)) := by
    rw [hChdrs]
    exact (hdrFinal_parts _ _ _ _ _).2.1
  have hfdC : (((clearCache (touchRootState (linkChain
      (addRootSlot (installHdr (zeroBlock (allocateBlock st).2 (st.free.min' hne)) (st.free.min' hne)
      (initFileHdr (st.free.min' hne) 880 fname now1)) (hashName fname) (st.free.min' hne))
      (st.free.min' hne) (st.root.hashSlots (hashName fname))) now1))).hdrs (st.free.min' hne)).firstData = 0 := by
    rw [hChdrs]
    exact (hdrFinal_parts _ _ _ _ _).2.2.2
  have hsecC : (((clearCache (touchRootState (linkChain
      (addRootSlot (installHdr (zeroBlock (allocateBlock st).2 (st.free.min' hne)) (st.free.min' hne)
      (initFileHdr (st.free.min' hne) 880 fname now1)) (hashName fname) (st.free.min' hne))
      (st.free.min' hne) (st.root.hashSlots (hashName fname))) now1))).hdrs (st.free.min' hne)).secType = ST_FILE := by
    rw [hChdrs]
    exact (hdrFinal_parts _ _ _ _ _).2.2.1
  have hnameC : bcplRead (((clearCache (touchRootState (linkChain
      (addRootSlot (installHdr (zeroBlock (allocateBlock st).2 (st.free.min' hne)) (st.free.min' hne)
      (initFileHdr (st.free.min' hne) 880 fname now1)) (hashName fname) (st.free.min' hne))
      (st.free.min' hne) (st.root.hashSlots (hashName fname))) now1))).hdrs (st.free.min' hne)).filename 30 = fname := by
    rw [hChdrs, (hdrFinal_parts _ _ _ _ _).1]
    exact bcplWrite_read zeroFH.filename fname hn30 hnb
  have hTot : totalBlocks ((clearCache (touchRootState (linkChain
      (addRootSlot (installHdr (zeroBlock (allocateBlock st).2 (st.free.min' hne)) (st.free.min' hne)
      (initFileHdr (st.free.min' hne) 880 fname now1)) (hashName fname) (st.free.min' hne))
      (st.free.min' hne) (st.root.hashSlots (hashName fname))) now1))) = totalBlocks st := by
    unfold totalBlocks
    rw [hCimg]
  have hfailOld : ∀ i, i < 72 →
      ∀ e ∈ walkBucket (totalBlocks st + 1) st (st.root.hashSlots i),
        ¬ e.name = fname := by
    have h1 := hgE1
    rw [getEntry_root_eq st fname now1 hcache hok880 hn0 hns,
      List.find?_eq_none] at h1
    intro i hi e he
    have hef : e ∈ (List.range 72).flatMap (fun i =>
        walkBucket (totalBlocks st + 1) st (st.root.hashSlots i)) :=
      List.mem_flatMap.mpr ⟨i, List.mem_range.mpr hi, he⟩
    simpa using h1 e hef
  have hbefC : ∀ i, i < hashName fname →
      ∀ e ∈ walkBucket (totalBlocks ((clearCache (touchRootState (linkChain
      (addRootSlot (installHdr (zeroBlock (allocateBlock st).2 (st.free.min' hne)) (st.free.min' hne)
      (initFileHdr (st.free.min' hne) 880 fname now1)) (hashName fname) (st.free.min' hne))
      (st.free.min' hne) (st.root.hashSlots (hashName fname))) now1))) + 1) ((clearCache (touchRootState (linkChain
      (addRootSlot (installHdr (zeroBlock (allocateBlock st).2 (st.free.min' hne)) (st.free.min' hne)
      (initFileHdr (st.free.min' hne) 880 fname now1)) (hashName fname) (st.free.min' hne))
      (st.free.min' hne) (st.root.hashSlots (hashName fname))) now1)))
        (((clearCache (touchRootState (linkChain
      (addRootSlot (installHdr (zeroBlock (allocateBlock st).2 (st.free.min' hne)) (st.free.min' hne)
      (initFileHdr (st.free.min' hne) 880 fname now1)) (hashName fname) (st.free.min' hne))
      (st.free.min' hne) (st.root.hashSlots (hashName fname))) now1))).root.hashSlots i), ¬ e.name = fname := by
    intro i hi e he
    have hislot : ((clearCache (touchRootState (linkChain
      (addRootSlot (installHdr (zeroBlock (allocateBlock st).2 (st.free.min' hne)) (st.free.min' hne)
      (initFileHdr (st.free.min' hne) 880 fname now1)) (hashName fname) (st.free.min' hne))
      (st.free.min' hne) (st.root.hashSlots (hashName fname))) now1))).root.hashSlots i = st.root.hashSlots i := by
      rw [hCslots2]
      exact Function.update_noteq (by omega) _ _
    have hpres : ∀ x ∈ chainBlocks (totalBlocks st + 1) st (st.root.hashSlots i),
        (((clearCache (touchRootState (linkChain
      (addRootSlot (installHdr (zeroBlock (allocateBlock st).2 (st.free.min' hne)) (st.free.min' hne)
      (initFileHdr (st.free.min' hne) 880 fname now1)) (hashName fname) (st.free.min' hne))
      (st.free.min' hne) (st.root.hashSlots (hashName fname))) now1))).hdrs x).filename = (st.hdrs x).filename ∧
          (((clearCache (touchRootState (linkChain
      (addRootSlot (installHdr (zeroBlock (allocateBlock st).2 (st.free.min' hne)) (st.free.min' hne)
      (initFileHdr (st.free.min' hne) 880 fname now1)) (hashName fname) (st.free.min' hne))
      (st.free.min' hne) (st.root.hashSlots (hashName fname))) now1))).hdrs x).secType = (st.hdrs x).secType ∧
          (((clearCache (touchRootState (linkChain
      (addRootSlot (installHdr (zeroBlock (allocateBlock st).2 (st.free.min' hne)) (st.free.min' hne)
      (initFileHdr (st.free.min' hne) 880 fname now1)) (hashName fname) (st.free.min' hne))
      (st.free.min' hne) (st.root.hashSlots (hashName fname))) now1))).hdrs x).hashChain = (st.hdrs x).hashChain := by
      intro x hx
      have hxB : x ≠ (st.free.min' hne) := fun hc => hnochain (totalBlocks st + 1) i (hc ▸ hx)
      exact ⟨by rw [hCh_x x hxB], by rw [hCh_x x hxB], by rw [hCh_x x hxB]⟩
    have hst := walk_stable st ((clearCache (touchRootState (linkChain
      (addRootSlot (installHdr (zeroBlock (allocateBlock st).2 (st.free.min' hne)) (st.free.min' hne)
      (initFileHdr (st.free.min' hne) 880 fname now1)) (hashName fname) (st.free.min' hne))
      (st.free.min' hne) (st.root.hashSlots (hashName fname))) now1))) hCimg (totalBlocks st + 1)
      (st.root.hashSlots i) hpres
    rw [hTot, hislot] at he
    exact fail_of_keys fname _ _ hst.2
      (fun e2 he2 => hfailOld i (by omega) e2 he2) e he
  have hgE2 : getEntry ((clearCache (touchRootState (linkChain
      (addRootSlot (installHdr (zeroBlock (allocateBlock st).2 (st.free.min' hne)) (st.free.min' hne)
      (initFileHdr (st.free.min' hne) 880 fname now1)) (hashName fname) (st.free.min' hne))
      (st.free.min' hne) (st.root.hashSlots (hashName fname))) now1))) (47 :: fname) now2
      = some (mkEntry (st.free.min' hne) (((clearCache (touchRootState (linkChain
      (addRootSlot (installHdr (zeroBlock (allocateBlock st).2 (st.free.min' hne)) (st.free.min' hne)
      (initFileHdr (st.free.min' hne) 880 fname now1)) (hashName fname) (st.free.min' hne))
      (st.free.min' hne) (st.root.hashSlots (hashName fname))) now1))).hdrs (st.free.min' hne))) :=
    getEntry_head ((clearCache (touchRootState (linkChain
      (addRootSlot (installHdr (zeroBlock (allocateBlock st).2 (st.free.min' hne)) (st.free.min' hne)
      (initFileHdr (st.free.min' hne) 880 fname now1)) (hashName fname) (st.free.min' hne))
      (st.free.min' hne) (st.root.hashSlots (hashName fname))) now1))) fname now2 (st.free.min' hne) (hashName fname) hCcache hok880C
      hn0 hns hh72 (by omega) hokbC hshC hnameC hbefC
  have hD := deleteFile_eq ((clearCache (touchRootState (linkChain
      (addRootSlot (installHdr (zeroBlock (allocateBlock st).2 (st.free.min' hne)) (st.free.min' hne)
      (initFileHdr (st.free.min' hne) 880 fname now1)) (hashName fname) (st.free.min' hne))
      (st.free.min' hne) (st.root.hashSlots (hashName fname))) now1))) fname now2 (st.free.min' hne) (hashName fname)
    hCro hn0 hns hok880C hokbC hb2 hb880 hgE2 hshC hfdC hsecC hnameC rfl
  refine ⟨?_, ?_, ?_, ?_, ?_⟩
  · rw [hC]
  · rw [hC]
    dsimp only
    rw [hD]
  · rw [hC]
    dsimp only
    rw [hD]
    dsimp only
    rw [(clearCache_parts _).1, (updBM_frame_full _ _ _).2.1,
      (withUF_parts _ _ _).1, (touchRootState_parts _ _).1,
      (addRootSlot_parts _ _ _).1, hCfree]
    exact Finset.insert_erase (st.free.min'_mem hne)
  · rw [hC]
    dsimp only
    rw [hD]
    dsimp only
    rw [(clearCache_parts _).2.1, (updBM_frame_full _ _ _).2.2.1,
      (withUF_parts _ _ _).2.1, (touchRootState_parts _ _).2.1,
      (addRootSlot_parts _ _ _).2.1, hCused]
    exact Finset.erase_insert hbused
  · rw [hC]
    dsimp only
    rw [hD]
    dsimp only
    rw [(clearCache_parts _).2.2.1, (updBM_frame_full _ _ _).2.2.2.2.2.2,
      (withUF_parts _ _ _).2.2, (touchRootState_parts _ _).2.2.2.2.2.2,
      addRootSlot_root]
    rw [hEXval, hCslots2, Function.update_idem,
      Function.update_eq_self (hashName fname) st.root.hashSlots]
    rw [hCroot,
      updTouch_form st.root
        (Function.update st.root.hashSlots (hashName fname) (st.free.min' hne)) now1]
    exact roundtrip_root st.root _ _ _ _ _ now2

lemma lastSlash_sub (dname fname : List Nat) (hnf : 47 ∉ fname) :
    lastSlash (47 :: (dname ++ 47 :: fname)) = 1 + dname.length := by
  unfold lastSlash
  have hrev : (47 :: (dname ++ 47 :: fname)).reverse
      = fname.reverse ++ 47 :: (dname.reverse ++ [47]) := by
    simp
  rw [hrev, findIdx_no47 _ fname.reverse (fun c hc hc47 =>
    hnf (hc47 ▸ List.mem_reverse.mp hc))]
  simp
  omega

lemma splitParent_sub (dname fname : List Nat) (hnf : 47 ∉ fname) :
    splitParent (47 :: (dname ++ 47 :: fname)) = 47 :: dname := by
  unfold splitParent
  rw [lastSlash_sub dname fname hnf]
  rw [if_neg (by omega)]
  have h1 : (1 + dname.length) = dname.length + 1 := by omega
  rw [h1]
  show List.take (dname.length + 1) (47 :: (dname ++ 47 :: fname)) = 47 :: dname
  rw [List.take_succ_cons, List.take_left]

lemma splitName_sub (dname fname : List Nat) (hnf : 47 ∉ fname) :
    splitName (47 :: (dname ++ 47 :: fname)) = fname := by
  unfold splitName
  rw [lastSlash_sub dname fname hnf]
  have h1 : (1 + dname.length + 1) = dname.length + 1 + 1 := by omega
  rw [h1]
  show List.drop (dname.length + 1 + 1) (47 :: (dname ++ 47 :: fname)) = fname
  rw [List.drop_succ_cons]
  have h3 : dname ++ 47 :: fname = (dname ++ [47]) ++ fname := by simp
  rw [h3]
  have h4 : dname.length + 1 = (dname ++ [47]).length := by simp
  rw [h4, List.drop_left]

set_option maxRecDepth 8000 in
lemma addDirSlot_parts (st : FS) (dir hash v : Nat) :
    (addDirSlot st dir hash v).free = st.free ∧
      (addDirSlot st dir hash v).used = st.used ∧
      (addDirSlot st dir hash v).root = st.root ∧
      (addDirSlot st dir hash v).imgBytes = st.imgBytes ∧
      (addDirSlot st dir hash v).readOnly = st.readOnly ∧
      (addDirSlot st dir hash v).cache = st.cache ∧
      (addDirSlot st dir hash v).hdrs = Function.update st.hdrs dir
        { st.hdrs dir with
          hashSlots := Function.update (st.hdrs dir).hashSlots hash v } := by
  unfold addDirSlot
  exact ⟨rfl, rfl, rfl, rfl, rfl, rfl, rfl⟩

set_option maxRecDepth 8000 in
lemma touchDirState_parts (st : FS) (dir n : Nat) :
    (touchDirState st dir n).free = st.free ∧
      (touchDirState st dir n).used = st.used ∧
      (touchDirState st dir n).root = st.root ∧
      (touchDirState st dir n).imgBytes = st.imgBytes ∧
      (touchDirState st dir n).readOnly = st.readOnly ∧
      (touchDirState st dir n).cache = st.cache ∧
      (touchDirState st dir n).hdrs = Function.update st.hdrs dir
        (updChkH (touchH (st.hdrs dir) n)) := by
  unfold touchDirState
  exact ⟨rfl, rfl, rfl, rfl, rfl, rfl, rfl⟩

lemma resolve_parent (S : FS) (dname : List Nat) (now q : Nat) (eD : Entry)
    (hcache : S.cache = []) (hok : gbOK S 880 = true)
    (hd0 : dname ≠ []) (hnd : 47 ∉ dname)
    (hfind : (((List.range 72).flatMap (fun i =>
        walkBucket (totalBlocks S + 1) S (S.root.hashSlots i))).find?
        (fun e => e.name = dname)) = some eD) :
    getEntryF (q + 1) S (47 :: dname) now = some eD := by
  have hpne : ¬((47 :: dname) = [47] ∨ (47 :: dname) = []) := by
    simp [hd0]
  unfold getEntryF
  rw [if_neg hpne, splitParent_root dname hnd]
  have haux : listDirAux S [47] (getEntryF q S [47] now)
      = some ((List.range 72).flatMap (fun i =>
        walkBucket (totalBlocks S + 1) S (S.root.hashSlots i))) := by
    unfold listDirAux
    rw [hcache]
    have hlu : lookupCache [] [47] = none := rfl
    rw [hlu]
    dsimp only
    rw [fdbAux_root, if_neg (by omega), listDirBlock_root S hok]
  rw [haux]
  dsimp only
  rw [splitName_root dname hnd, hfind]

lemma fdb_sub (S : FS) (dname : List Nat) (now : Nat) (D : Nat) (eD : Entry)
    (hcache : S.cache = []) (hok : gbOK S 880 = true)
    (hd0 : dname ≠ []) (hnd : 47 ∉ dname)
    (hfind : (((List.range 72).flatMap (fun i =>
        walkBucket (totalBlocks S + 1) S (S.root.hashSlots i))).find?
        (fun e => e.name = dname)) = some eD)
    (hisDir : eD.isDir = true) (hbn : eD.blockNum = D) :
    findDirectoryBlock S (47 :: dname) now = D := by
  unfold findDirectoryBlock
  rw [resolve_parent S dname now _ eD hcache hok hd0 hnd hfind]
  unfold fdbAux
  rw [if_neg (by simp [hd0])]
  dsimp only
  rw [if_pos hisDir]
  exact hbn

lemma getEntry_sub_eq (S : FS) (dname fname : List Nat) (now : Nat)
    (D : Nat) (eD : Entry)
    (hcache : S.cache = []) (hok : gbOK S 880 = true)
    (hd0 : dname ≠ []) (hnd : 47 ∉ dname)
    (hnf : 47 ∉ fname)
    (hfind : (((List.range 72).flatMap (fun i =>
        walkBucket (totalBlocks S + 1) S (S.root.hashSlots i))).find?
        (fun e => e.name = dname)) = some eD)
    (hisDir : eD.isDir = true) (hbn : eD.blockNum = D)
    (hD0 : D ≠ 0) (hD880 : D ≠ 880) (hokD : gbOK S D = true) :
    getEntry S (47 :: (dname ++ 47 :: fname)) now =
      ((List.range 72).flatMap (fun i =>
        walkBucket (totalBlocks S + 1) S ((S.hdrs D).hashSlots i))).find?
        (fun e => e.name = fname) := by
  have hpne : ¬((47 :: (dname ++ 47 :: fname)) = [47]
      ∨ (47 :: (dname ++ 47 :: fname)) = []) := by
    simp
  unfold getEntry getEntryF
  rw [if_neg hpne, splitParent_sub dname fname hnf]
  rw [List.length_cons]
  rw [resolve_parent S dname now _ eD hcache hok hd0 hnd hfind]
  unfold listDirAux
  rw [hcache]
  have hlu : lookupCache [] (47 :: dname) = none := rfl
  rw [hlu]
  dsimp only
  have hfdb : fdbAux (47 :: dname) (some eD) = D := by
    unfold fdbAux
    rw [if_neg (by simp [hd0])]
    dsimp only
    rw [if_pos hisDir]
    exact hbn
  rw [hfdb, if_neg hD0]
  have hlb : listDirBlock S D = some ((List.range 72).flatMap (fun i =>
      walkBucket (totalBlocks S + 1) S ((S.hdrs D).hashSlots i))) := by
    unfold listDirBlock
    rw [getHdr_eq S D hokD]
    dsimp only
    have hfn : (fun i => walkBucket (totalBlocks S + 1) S
        (if D = 880 then S.root.hashSlots i else (S.hdrs D).hashSlots i))
        = (fun i => walkBucket (totalBlocks S + 1) S ((S.hdrs D).hashSlots i)) := by
      funext i
      rw [if_neg hD880]
    rw [hfn]
  rw [hlb]
  dsimp only
  rw [splitName_sub dname fname hnf]

lemma getEntry_sub_head (S : FS) (dname fname : List Nat) (now : Nat)
    (D : Nat) (eD : Entry) (b h : Nat)
    (hcache : S.cache = []) (hok : gbOK S 880 = true)
    (hd0 : dname ≠ []) (hnd : 47 ∉ dname)
    (hf0 : fname ≠ []) (hnf : 47 ∉ fname)
    (hfind : (((List.range 72).flatMap (fun i =>
        walkBucket (totalBlocks S + 1) S (S.root.hashSlots i))).find?
        (fun e => e.name = dname)) = some eD)
    (hisDir : eD.isDir = true) (hbn : eD.blockNum = D)
    (hD0 : D ≠ 0) (hD880 : D ≠ 880) (hokD : gbOK S D = true)
    (hh : h < 72) (hb0 : b ≠ 0) (hokb : gbOK S b = true)
    (hsh : (S.hdrs D).hashSlots h = b)
    (hname : bcplRead (S.hdrs b).filename 30 = fname)
    (hbef : ∀ i, i < h →
      ∀ e ∈ walkBucket (totalBlocks S + 1) S ((S.hdrs D).hashSlots i),
        ¬ e.name = fname) :
    getEntry S (47 :: (dname ++ 47 :: fname)) now = some (mkEntry b (S.hdrs b)) := by
  rw [getEntry_sub_eq S dname fname now D eD hcache hok hd0 hnd hnf hfind
    hisDir hbn hD0 hD880 hokD]
  refine find_flatMap_head _ _ h (mkEntry b (S.hdrs b))
    (walkBucket (totalBlocks S) S ((S.hdrs b).hashChain)) ?_ ?_ ?_ 72 hh
  · rw [hsh]
    exact walk_cons S b (totalBlocks S) hb0 hokb (by rw [hname]; exact hf0)
  · have hmn : (mkEntry b (S.hdrs b)).name = bcplRead (S.hdrs b).filename 30 := rfl
    simp [hmn, hname]
  · intro i hi e he
    exact decide_eq_false (hbef i hi e he)

lemma createFile_eq2 (st : FS) (dname fname : List Nat) (now1 : Nat)
    (D : Nat) (eD : Entry)
    (hro : st.readOnly = false) (hcache : st.cache = [])
    (hgE : getEntry st (47 :: (dname ++ 47 :: fname)) now1 = none)
    (hd0 : dname ≠ []) (hnd : 47 ∉ dname)
    (hn30 : fname.length ≤ 30) (hnf : 47 ∉ fname)
    (hfind : (((List.range 72).flatMap (fun i =>
        walkBucket (totalBlocks st + 1) st (st.root.hashSlots i))).find?
        (fun e => e.name = dname)) = some eD)
    (hisDir : eD.isDir = true) (hbn : eD.blockNum = D)
    (hD0 : D ≠ 0) (hD880 : D ≠ 880) (hokD : gbOK st D = true)
    (hok880 : gbOK st 880 = true)
    (hne : st.free.Nonempty)
    (hb2 : 2 ≤ st.free.min' hne) (hb880 : st.free.min' hne ≠ 880)
    (hb25 : st.free.min' hne / 4064 < 25)
    (hbm : st.root.bmPages (st.free.min' hne / 4064) ≠ 0)
    (hokb : gbOK st (st.free.min' hne) = true)
    (hbD : st.free.min' hne ≠ D) :
    createFile st (47 :: (dname ++ 47 :: fname)) now1 =
      (0, clearCache (touchDirState (linkChain
        (addDirSlot (installHdr (zeroBlock (allocateBlock st).2 (st.free.min' hne)) (st.free.min' hne)
      (initFileHdr (st.free.min' hne) D fname now1)) D (hashName fname) (st.free.min' hne))
        (st.free.min' hne) ((st.hdrs D).hashSlots (hashName fname))) D now1)) := by
  have hfacts := alloc_facts st hne hb25 hok880 hbm hb880
  unfold createFile
  rw [if_neg (by simp [hro])]
  rw [splitName_sub dname fname hnf]
  rw [if_neg (by omega)]
  rw [splitParent_sub dname fname hnf]
  rw [hgE]
  rw [if_neg (by simp)]
  have hfdbD : findDirectoryBlock st (47 :: dname) now1 = D :=
    fdb_sub st dname now1 D eD hcache hok880 hd0 hnd hfind hisDir hbn
  rw [hfdbD]
  rw [if_neg hD0]
  rw [hfacts.1]
  rw [if_neg (by omega)]
  have hwA : wOK (allocateBlock st).2 (st.free.min' hne) = true := by
    rw [wOK_congr (allocateBlock st).2 st (st.free.min' hne)
      hfacts.2.2.2.1 hfacts.2.2.2.2.1]
    unfold wOK
    rw [hokb, hro]
    rfl
  rw [if_neg (by simp [hwA])]
  have hY2img : ((installHdr (zeroBlock (allocateBlock st).2 (st.free.min' hne)) (st.free.min' hne)
      (initFileHdr (st.free.min' hne) D fname now1))).imgBytes = st.imgBytes := by
    rw [(installHdr_parts _ _ _).2.2.2.1, (zeroBlock_parts _ _).2.2.1,
      hfacts.2.2.2.1]
  have hY2ro : ((installHdr (zeroBlock (allocateBlock st).2 (st.free.min' hne)) (st.free.min' hne)
      (initFileHdr (st.free.min' hne) D fname now1))).readOnly = st.readOnly := by
    rw [(installHdr_parts _ _ _).2.2.2.2.1, (zeroBlock_parts _ _).2.2.2.1,
      hfacts.2.2.2.2.1]
  have hYD : ((installHdr (zeroBlock (allocateBlock st).2 (st.free.min' hne)) (st.free.min' hne)
      (initFileHdr (st.free.min' hne) D fname now1))).hdrs D = st.hdrs D := by
    rw [(installHdr_parts _ _ _).2.2.2.2.2.2, Function.update_noteq (Ne.symm hbD)]
    show Function.update (allocateBlock st).2.hdrs (st.free.min' hne) zeroFH D = st.hdrs D
    rw [Function.update_noteq (Ne.symm hbD)]
    exact hfacts.2.2.2.2.2.2.2 D (Ne.symm hbD)
  have hwYD : wOK ((installHdr (zeroBlock (allocateBlock st).2 (st.free.min' hne)) (st.free.min' hne)
      (initFileHdr (st.free.min' hne) D fname now1))) D = true := by
    rw [wOK_congr _ st D hY2img hY2ro]
    unfold wOK
    rw [hokD, hro]
    rfl
  have hadd : addToDirectory (installHdr (zeroBlock (allocateBlock st).2 (st.free.min' hne)) (st.free.min' hne)
      (initFileHdr (st.free.min' hne) D fname now1)) D (st.free.min' hne) fname now1
      = touchDirState (linkChain
          (addDirSlot (installHdr (zeroBlock (allocateBlock st).2 (st.free.min' hne)) (st.free.min' hne)
      (initFileHdr (st.free.min' hne) D fname now1)) D (hashName fname) (st.free.min' hne))
          (st.free.min' hne) ((((installHdr (zeroBlock (allocateBlock st).2 (st.free.min' hne)) (st.free.min' hne)
      (initFileHdr (st.free.min' hne) D fname now1))).hdrs D).hashSlots (hashName fname))) D now1 := by
    unfold addToDirectory
    rw [if_neg hD880]
    rw [if_neg (by simp [hwYD])]
  rw [hadd, hYD]

lemma deleteFile_eq2 (stC : FS) (dname fname : List Nat) (now2 : Nat)
    (D : Nat) (eD2 : Entry) (b h : Nat)
    (hCro : stC.readOnly = false) (hCcache : stC.cache = [])
    (hd0 : dname ≠ []) (hnd : 47 ∉ dname) (hnf : 47 ∉ fname)
    (hok880C : gbOK stC 880 = true)
    (hfind2 : (((List.range 72).flatMap (fun i =>
        walkBucket (totalBlocks stC + 1) stC (stC.root.hashSlots i))).find?
        (fun e => e.name = dname)) = some eD2)
    (hisDir2 : eD2.isDir = true) (hbn2 : eD2.blockNum = D)
    (hD880 : D ≠ 880) (hokDC : gbOK stC D = true)
    (hokbC : gbOK stC b = true)
    (hb2 : 2 ≤ b) (hb880 : b ≠ 880) (hbD : b ≠ D)
    (hgE2 : getEntry stC (47 :: (dname ++ 47 :: fname)) now2
      = some (mkEntry b (stC.hdrs b)))
    (hshC : (stC.hdrs D).hashSlots h = b)
    (hfdC : (stC.hdrs b).firstData = 0)
    (hsecC : (stC.hdrs b).secType = ST_FILE)
    (hnameC : bcplRead (stC.hdrs b).filename 30 = fname)
    (hhash : hashName fname = h) :
    deleteFile stC (47 :: (dname ++ 47 :: fname)) now2 =
      (0, clearCache (updateBitmapForBlock
        { touchDirState (addDirSlot stC D h ((stC.hdrs b).hashChain)) D now2 with
          used := (touchDirState (addDirSlot stC D h ((stC.hdrs b).hashChain)) D now2).used.erase b
          free := insert b (touchDirState (addDirSlot stC D h ((stC.hdrs b).hashChain)) D now2).free }
        b true)) := by
  have hwDC : wOK stC D = true := by
    unfold wOK
    rw [hokDC, hCro]
    rfl
  unfold deleteFile
  rw [if_neg (by simp [hCro])]
  rw [hgE2]
  dsimp only
  have hisdir : (mkEntry b (stC.hdrs b)).isDir = false := by
    show decide ((stC.hdrs b).secType = ST_DIR) = false
    rw [hsecC]
    decide
  rw [if_neg (by simp [hisdir])]
  have hbn : (mkEntry b (stC.hdrs b)).blockNum = b := rfl
  have hen : (mkEntry b (stC.hdrs b)).name = bcplRead (stC.hdrs b).filename 30 := rfl
  rw [hbn, hen, hnameC]
  rw [splitParent_sub dname fname hnf]
  have hfdbC : findDirectoryBlock stC (47 :: dname) now2 = D :=
    fdb_sub stC dname now2 D eD2 hCcache hok880C hd0 hnd hfind2 hisDir2 hbn2
  rw [hfdbC]
  have hrem : removeFromDirectory stC D b fname now2 = touchDirState (addDirSlot stC D h ((stC.hdrs b).hashChain)) D now2 := by
    unfold removeFromDirectory
    rw [if_neg hD880]
    rw [if_neg (by simp [hwDC])]
    rw [hhash]
    rw [if_pos hshC]
    rw [if_pos hokbC]
  rw [hrem]
  have hRhdrs_b : (touchDirState (addDirSlot stC D h ((stC.hdrs b).hashChain)) D now2).hdrs b = stC.hdrs b := by
    rw [(touchDirState_parts _ _ _).2.2.2.2.2.2, Function.update_noteq hbD,
      (addDirSlot_parts _ _ _ _).2.2.2.2.2.2, Function.update_noteq hbD]
  have hRimg : (touchDirState (addDirSlot stC D h ((stC.hdrs b).hashChain)) D now2).imgBytes = stC.imgBytes := by
    rw [(touchDirState_parts _ _ _).2.2.2.1, (addDirSlot_parts _ _ _ _).2.2.2.1]
  have hokbR : gbOK (touchDirState (addDirSlot stC D h ((stC.hdrs b).hashChain)) D now2) b = true := by
    rw [gbOK_congr _ stC b hRimg]
    exact hokbC
  have hff : freeFileBlocks (touchDirState (addDirSlot stC D h ((stC.hdrs b).hashChain)) D now2) b = freeBlock (touchDirState (addDirSlot stC D h ((stC.hdrs b).hashChain)) D now2) b := by
    unfold freeFileBlocks
    rw [getHdr_eq _ b hokbR]
    dsimp only
    rw [hRhdrs_b, hfdC]
    unfold freeDataChain
    rw [if_pos rfl]
  rw [hff]
  have hfb : freeBlock (touchDirState (addDirSlot stC D h ((stC.hdrs b).hashChain)) D now2) b
      = updateBitmapForBlock
        { touchDirState (addDirSlot stC D h ((stC.hdrs b).hashChain)) D now2 with
          used := (touchDirState (addDirSlot stC D h ((stC.hdrs b).hashChain)) D now2).used.erase b
          free := insert b (touchDirState (addDirSlot stC D h ((stC.hdrs b).hashChain)) D now2).free }
        b true := by
    unfold freeBlock
    rw [if_neg (by omega)]
  rw [hfb]

lemma roundtrip_part2 (st : FS) (dname fname : List Nat) (now1 now2 : Nat)
    (D : Nat) (eD : Entry)
    (hro : st.readOnly = false) (hcache : st.cache = [])
    (hd0 : dname ≠ []) (hnd : 47 ∉ dname)
    (hf0 : fname ≠ []) (hn30 : fname.length ≤ 30)
    (hnb : ∀ c ∈ fname, c < 256) (hnf : 47 ∉ fname)
    (hne : st.free.Nonempty)
    (hb2 : 2 ≤ st.free.min' hne) (hb880 : st.free.min' hne ≠ 880)
    (hbused : st.free.min' hne ∉ st.used)
    (hb25 : st.free.min' hne / 4064 < 25)
    (hok880 : gbOK st 880 = true)
    (hbm : st.root.bmPages (st.free.min' hne / 4064) ≠ 0)
    (hokb : gbOK st (st.free.min' hne) = true)
    (hbD : st.free.min' hne ≠ D)
    (hfind : (((List.range 72).flatMap (fun i =>
        walkBucket (totalBlocks st + 1) st (st.root.hashSlots i))).find?
        (fun e => e.name = dname)) = some eD)
    (hisDir : eD.isDir = true) (hbn : eD.blockNum = D)
    (hD0 : D ≠ 0) (hD880 : D ≠ 880) (hokD : gbOK st D = true)
    (hnochainR : ∀ f i, st.free.min' hne ∉ chainBlocks f st (st.root.hashSlots i))
    (hnochainD : ∀ f i, st.free.min' hne ∉ chainBlocks f st ((st.hdrs D).hashSlots i))
    (hgE1 : getEntry st (47 :: (dname ++ 47 :: fname)) now1 = none) :
    (createFile st (47 :: (dname ++ 47 :: fname)) now1).1 = 0 ∧
      (deleteFile (createFile st (47 :: (dname ++ 47 :: fname)) now1).2 (47 :: (dname ++ 47 :: fname)) now2).1 = 0 ∧
      (deleteFile (createFile st (47 :: (dname ++ 47 :: fname)) now1).2 (47 :: (dname ++ 47 :: fname)) now2).2.free = st.free ∧
      (deleteFile (createFile st (47 :: (dname ++ 47 :: fname)) now1).2 (47 :: (dname ++ 47 :: fname)) now2).2.used = st.used ∧
      (deleteFile (createFile st (47 :: (dname ++ 47 :: fname)) now1).2 (47 :: (dname ++ 47 :: fname)) now2).2.root = st.root := by
  have hfacts := alloc_facts st hne hb25 hok880 hbm hb880
  have hC := createFile_eq2 st dname fname now1 D eD hro hcache hgE1 hd0 hnd
    hn30 hnf hfind hisDir hbn hD0 hD880 hokD hok880 hne hb2 hb880 hb25 hbm
    hokb hbD
  have hY2img : ((installHdr (zeroBlock (allocateBlock st).2 (st.free.min' hne)) (st.free.min' hne)
      (initFileHdr (st.free.min' hne) D fname now1))).imgBytes = st.imgBytes := by
    rw [(installHdr_parts _ _ _).2.2.2.1, (zeroBlock_parts _ _).2.2.1,
      hfacts.2.2.2.1]
  have hY2ro : ((installHdr (zeroBlock (allocateBlock st).2 (st.free.min' hne)) (st.free.min' hne)
      (initFileHdr (st.free.min' hne) D fname now1))).readOnly = st.readOnly := by
    rw [(installHdr_parts _ _ _).2.2.2.2.1, (zeroBlock_parts _ _).2.2.2.1,
      hfacts.2.2.2.2.1]
  have hYDhdr : ((installHdr (zeroBlock (allocateBlock st).2 (st.free.min' hne)) (st.free.min' hne)
      (initFileHdr (st.free.min' hne) D fname now1))).hdrs D = st.hdrs D := by
    rw [(installHdr_parts _ _ _).2.2.2.2.2.2, Function.update_noteq (Ne.symm hbD)]
    show Function.update (allocateBlock st).2.hdrs (st.free.min' hne) zeroFH D = st.hdrs D
    rw [Function.update_noteq (Ne.symm hbD)]
    exact hfacts.2.2.2.2.2.2.2 D (Ne.symm hbD)
  have hwL2 : wOK (addDirSlot (installHdr (zeroBlock (allocateBlock st).2 (st.free.min' hne)) (st.free.min' hne)
      (initFileHdr (st.free.min' hne) D fname now1)) D (hashName fname) (st.free.min' hne)) (st.free.min' hne) = true := by
    rw [wOK_congr _ st _ (by
      rw [(addDirSlot_parts _ _ _ _).2.2.2.1, hY2img]) (by
      rw [(addDirSlot_parts _ _ _ _).2.2.2.2.1, hY2ro])]
    unfold wOK
    rw [hokb, hro]
    rfl
  have hC2free : ((clearCache (touchDirState (linkChain
      (addDirSlot (installHdr (zeroBlock (allocateBlock st).2 (st.free.min' hne)) (st.free.min' hne)
      (initFileHdr (st.free.min' hne) D fname now1)) D (hashName fname) (st.free.min' hne))
      (st.free.min' hne) ((st.hdrs D).hashSlots (hashName fname))) D now1))).free = st.free.erase (st.free.min' hne) := by
    rw [(clearCache_parts _).1, (touchDirState_parts _ _ _).1,
      (linkChain_parts _ _ _ hwL2).1, (addDirSlot_parts _ _ _ _).1,
      (installHdr_parts _ _ _).1, (zeroBlock_parts _ _).1, hfacts.2.1]
  have hC2used : ((clearCache (touchDirState (linkChain
      (addDirSlot (installHdr (zeroBlock (allocateBlock st).2 (st.free.min' hne)) (st.free.min' hne)
      (initFileHdr (st.free.min' hne) D fname now1)) D (hashName fname) (st.free.min' hne))
      (st.free.min' hne) ((st.hdrs D).hashSlots (hashName fname))) D now1))).used = insert (st.free.min' hne) st.used := by
    rw [(clearCache_parts _).2.1, (touchDirState_parts _ _ _).2.1,
      (linkChain_parts _ _ _ hwL2).2.1, (addDirSlot_parts _ _ _ _).2.1,
      (installHdr_parts _ _ _).2.1, (zeroBlock_parts _ _).2.1, hfacts.2.2.1]
  have hC2img : ((clearCache (touchDirState (linkChain
      (addDirSlot (installHdr (zeroBlock (allocateBlock st).2 (st.free.min' hne)) (st.free.min' hne)
      (initFileHdr (st.free.min' hne) D fname now1)) D (hashName fname) (st.free.min' hne))
      (st.free.min' hne) ((st.hdrs D).hashSlots (hashName fname))) D now1))).imgBytes = st.imgBytes := by
    rw [(clearCache_parts _).2.2.2.2.1, (touchDirState_parts _ _ _).2.2.2.1,
      (linkChain_parts _ _ _ hwL2).2.2.2.1, (addDirSlot_parts _ _ _ _).2.2.2.1,
      hY2img]
  have hC2ro : ((clearCache (touchDirState (linkChain
      (addDirSlot (installHdr (zeroBlock (allocateBlock st).2 (st.free.min' hne)) (st.free.min' hne)
      (initFileHdr (st.free.min' hne) D fname now1)) D (hashName fname) (st.free.min' hne))
      (st.free.min' hne) ((st.hdrs D).hashSlots (hashName fname))) D now1))).readOnly = false := by
    rw [(clearCache_parts _).2.2.2.2.2.1, (touchDirState_parts _ _ _).2.2.2.2.1,
      (linkChain_parts _ _ _ hwL2).2.2.2.2.1,
      (addDirSlot_parts _ _ _ _).2.2.2.2.1, hY2ro, hro]
  have hC2cache : ((clearCache (touchDirState (linkChain
      (addDirSlot (installHdr (zeroBlock (allocateBlock st).2 (st.free.min' hne)) (st.free.min' hne)
      (initFileHdr (st.free.min' hne) D fname now1)) D (hashName fname) (st.free.min' hne))
      (st.free.min' hne) ((st.hdrs D).hashSlots (hashName fname))) D now1))).cache = [] := (clearCache_parts _).2.2.2.2.2.2
  have hC2root : ((clearCache (touchDirState (linkChain
      (addDirSlot (installHdr (zeroBlock (allocateBlock st).2 (st.free.min' hne)) (st.free.min' hne)
      (initFileHdr (st.free.min' hne) D fname now1)) D (hashName fname) (st.free.min' hne))
      (st.free.min' hne) ((st.hdrs D).hashSlots (hashName fname))) D now1))).root = st.root := by
    rw [(clearCache_parts _).2.2.1, (touchDirState_parts _ _ _).2.2.1,
      (linkChain_parts _ _ _ hwL2).2.2.1, (addDirSlot_parts _ _ _ _).2.2.1,
      (installHdr_parts _ _ _).2.2.1,
      zeroBlock_root (allocateBlock st).2 (st.free.min' hne) hb880,
      hfacts.2.2.2.2.2.1]
  have hC2hdrsF : ((clearCache (touchDirState (linkChain
      (addDirSlot (installHdr (zeroBlock (allocateBlock st).2 (st.free.min' hne)) (st.free.min' hne)
      (initFileHdr (st.free.min' hne) D fname now1)) D (hashName fname) (st.free.min' hne))
      (st.free.min' hne) ((st.hdrs D).hashSlots (hashName fname))) D now1))).hdrs
      = Function.update ((linkChain
      (addDirSlot (installHdr (zeroBlock (allocateBlock st).2 (st.free.min' hne)) (st.free.min' hne)
      (initFileHdr (st.free.min' hne) D fname now1)) D (hashName fname) (st.free.min' hne))
      (st.free.min' hne) ((st.hdrs D).hashSlots (hashName fname)))).hdrs D
        (updChkH (touchH (((linkChain
      (addDirSlot (installHdr (zeroBlock (allocateBlock st).2 (st.free.min' hne)) (st.free.min' hne)
      (initFileHdr (st.free.min' hne) D fname now1)) D (hashName fname) (st.free.min' hne))
      (st.free.min' hne) ((st.hdrs D).hashSlots (hashName fname)))).hdrs D) now1)) := by
    rw [(clearCache_parts _).2.2.2.1, (touchDirState_parts _ _ _).2.2.2.2.2.2]
  have hLhdrsF : ((linkChain
      (addDirSlot (installHdr (zeroBlock (allocateBlock st).2 (st.free.min' hne)) (st.free.min' hne)
      (initFileHdr (st.free.min' hne) D fname now1)) D (hashName fname) (st.free.min' hne))
      (st.free.min' hne) ((st.hdrs D).hashSlots (hashName fname)))).hdrs
      = Function.update ((addDirSlot (installHdr (zeroBlock (allocateBlock st).2 (st.free.min' hne)) (st.free.min' hne)
      (initFileHdr (st.free.min' hne) D fname now1)) D (hashName fname) (st.free.min' hne))).hdrs (st.free.min' hne)
        (updChkH { ((addDirSlot (installHdr (zeroBlock (allocateBlock st).2 (st.free.min' hne)) (st.free.min' hne)
      (initFileHdr (st.free.min' hne) D fname now1)) D (hashName fname) (st.free.min' hne))).hdrs (st.free.min' hne) with hashChain := ((st.hdrs D).hashSlots (hashName fname)) }) :=
    (linkChain_parts _ _ _ hwL2).2.2.2.2.2.2
  have hAhdrsF : ((addDirSlot (installHdr (zeroBlock (allocateBlock st).2 (st.free.min' hne)) (st.free.min' hne)
      (initFileHdr (st.free.min' hne) D fname now1)) D (hashName fname) (st.free.min' hne))).hdrs
      = Function.update ((installHdr (zeroBlock (allocateBlock st).2 (st.free.min' hne)) (st.free.min' hne)
      (initFileHdr (st.free.min' hne) D fname now1))).hdrs D
        { ((installHdr (zeroBlock (allocateBlock st).2 (st.free.min' hne)) (st.free.min' hne)
      (initFileHdr (st.free.min' hne) D fname now1))).hdrs D with
          hashSlots := Function.update (((installHdr (zeroBlock (allocateBlock st).2 (st.free.min' hne)) (st.free.min' hne)
      (initFileHdr (st.free.min' hne) D fname now1))).hdrs D).hashSlots
            (hashName fname) (st.free.min' hne) } :=
    (addDirSlot_parts _ _ _ _).2.2.2.2.2.2
  have hAb : ((addDirSlot (installHdr (zeroBlock (allocateBlock st).2 (st.free.min' hne)) (st.free.min' hne)
      (initFileHdr (st.free.min' hne) D fname now1)) D (hashName fname) (st.free.min' hne))).hdrs (st.free.min' hne) = initFileHdr (st.free.min' hne) D fname now1 := by
    rw [hAhdrsF, Function.update_noteq hbD,
      (installHdr_parts _ _ _).2.2.2.2.2.2, Function.update_same]
  have hLb : ((linkChain
      (addDirSlot (installHdr (zeroBlock (allocateBlock st).2 (st.free.min' hne)) (st.free.min' hne)
      (initFileHdr (st.free.min' hne) D fname now1)) D (hashName fname) (st.free.min' hne))
      (st.free.min' hne) ((st.hdrs D).hashSlots (hashName fname)))).hdrs (st.free.min' hne)
      = updChkH { initFileHdr (st.free.min' hne) D fname now1 with hashChain := ((st.hdrs D).hashSlots (hashName fname)) } := by
    rw [hLhdrsF, Function.update_same, hAb]
  have hC2b : ((clearCache (touchDirState (linkChain
      (addDirSlot (installHdr (zeroBlock (allocateBlock st).2 (st.free.min' hne)) (st.free.min' hne)
      (initFileHdr (st.free.min' hne) D fname now1)) D (hashName fname) (st.free.min' hne))
      (st.free.min' hne) ((st.hdrs D).hashSlots (hashName fname))) D now1))).hdrs (st.free.min' hne)
      = updChkH { initFileHdr (st.free.min' hne) D fname now1 with hashChain := ((st.hdrs D).hashSlots (hashName fname)) } := by
    rw [hC2hdrsF, Function.update_noteq hbD, hLb]
  have hLD : ((linkChain
      (addDirSlot (installHdr (zeroBlock (allocateBlock st).2 (st.free.min' hne)) (st.free.min' hne)
      (initFileHdr (st.free.min' hne) D fname now1)) D (hashName fname) (st.free.min' hne))
      (st.free.min' hne) ((st.hdrs D).hashSlots (hashName fname)))).hdrs D
      = { st.hdrs D with
          hashSlots := Function.update (st.hdrs D).hashSlots
            (hashName fname) (st.free.min' hne) } := by
    rw [hLhdrsF, Function.update_noteq (Ne.symm hbD), hAhdrsF,
      Function.update_same, hYDhdr]
  have hC2D : ((clearCache (touchDirState (linkChain
      (addDirSlot (installHdr (zeroBlock (allocateBlock st).2 (st.free.min' hne)) (st.free.min' hne)
      (initFileHdr (st.free.min' hne) D fname now1)) D (hashName fname) (st.free.min' hne))
      (st.free.min' hne) ((st.hdrs D).hashSlots (hashName fname))) D now1))).hdrs D
      = updChkH (touchH { st.hdrs D with
          hashSlots := Function.update (st.hdrs D).hashSlots
            (hashName fname) (st.free.min' hne) } now1) := by
    rw [hC2hdrsF, Function.update_same, hLD]
  have hC2x : ∀ x, x ≠ (st.free.min' hne) → x ≠ D → ((clearCache (touchDirState (linkChain
      (addDirSlot (installHdr (zeroBlock (allocateBlock st).2 (st.free.min' hne)) (st.free.min' hne)
      (initFileHdr (st.free.min' hne) D fname now1)) D (hashName fname) (st.free.min' hne))
      (st.free.min' hne) ((st.hdrs D).hashSlots (hashName fname))) D now1))).hdrs x = st.hdrs x := by
    intro x hxB hxD
    rw [hC2hdrsF, Function.update_noteq hxD, hLhdrsF, Function.update_noteq hxB,
      hAhdrsF, Function.update_noteq hxD,
      (installHdr_parts _ _ _).2.2.2.2.2.2, Function.update_noteq hxB]
    show Function.update (allocateBlock st).2.hdrs (st.free.min' hne) zeroFH x = st.hdrs x
    rw [Function.update_noteq hxB]
    exact hfacts.2.2.2.2.2.2.2 x hxB
  have hDfn : (((clearCache (touchDirState (linkChain
      (addDirSlot (installHdr (zeroBlock (allocateBlock st).2 (st.free.min' hne)) (st.free.min' hne)
      (initFileHdr (st.free.min' hne) D fname now1)) D (hashName fname) (st.free.min' hne))
      (st.free.min' hne) ((st.hdrs D).hashSlots (hashName fname))) D now1))).hdrs D).filename = (st.hdrs D).filename := by
    rw [hC2D, (updChkH_parts _).1, (touchH_parts _ _).1]
  have hDsec : (((clearCache (touchDirState (linkChain
      (addDirSlot (installHdr (zeroBlock (allocateBlock st).2 (st.free.min' hne)) (st.free.min' hne)
      (initFileHdr (st.free.min' hne) D fname now1)) D (hashName fname) (st.free.min' hne))
      (st.free.min' hne) ((st.hdrs D).hashSlots (hashName fname))) D now1))).hdrs D).secType = (st.hdrs D).secType := by
    rw [hC2D, (updChkH_parts _).2.1, (touchH_parts _ _).2.1]
  have hDch : (((clearCache (touchDirState (linkChain
      (addDirSlot (installHdr (zeroBlock (allocateBlock st).2 (st.free.min' hne)) (st.free.min' hne)
      (initFileHdr (st.free.min' hne) D fname now1)) D (hashName fname) (st.free.min' hne))
      (st.free.min' hne) ((st.hdrs D).hashSlots (hashName fname))) D now1))).hdrs D).hashChain = (st.hdrs D).hashChain := by
    rw [hC2D, (updChkH_parts _).2.2.1, (touchH_parts _ _).2.2.1]
  have hDslots : (((clearCache (touchDirState (linkChain
      (addDirSlot (installHdr (zeroBlock (allocateBlock st).2 (st.free.min' hne)) (st.free.min' hne)
      (initFileHdr (st.free.min' hne) D fname now1)) D (hashName fname) (st.free.min' hne))
      (st.free.min' hne) ((st.hdrs D).hashSlots (hashName fname))) D now1))).hdrs D).hashSlots
      = Function.update (st.hdrs D).hashSlots (hashName fname) (st.free.min' hne) := by
    rw [hC2D, (updChkH_parts _).2.2.2.2.2.2.2, (touchH_parts _ _).2.2.2.2]
  have hTot2 : totalBlocks ((clearCache (touchDirState (linkChain
      (addDirSlot (installHdr (zeroBlock (allocateBlock st).2 (st.free.min' hne)) (st.free.min' hne)
      (initFileHdr (st.free.min' hne) D fname now1)) D (hashName fname) (st.free.min' hne))
      (st.free.min' hne) ((st.hdrs D).hashSlots (hashName fname))) D now1))) = totalBlocks st := by
    unfold totalBlocks
    rw [hC2img]
  have hok880C2 : gbOK ((clearCache (touchDirState (linkChain
      (addDirSlot (installHdr (zeroBlock (allocateBlock st).2 (st.free.min' hne)) (st.free.min' hne)
      (initFileHdr (st.free.min' hne) D fname now1)) D (hashName fname) (st.free.min' hne))
      (st.free.min' hne) ((st.hdrs D).hashSlots (hashName fname))) D now1))) 880 = true := by
    rw [gbOK_congr _ st _ hC2img]
    exact hok880
  have hokDC2 : gbOK ((clearCache (touchDirState (linkChain
      (addDirSlot (installHdr (zeroBlock (allocateBlock st).2 (st.free.min' hne)) (st.free.min' hne)
      (initFileHdr (st.free.min' hne) D fname now1)) D (hashName fname) (st.free.min' hne))
      (st.free.min' hne) ((st.hdrs D).hashSlots (hashName fname))) D now1))) D = true := by
    rw [gbOK_congr _ st _ hC2img]
    exact hokD
  have hokbC2 : gbOK ((clearCache (touchDirState (linkChain
      (addDirSlot (installHdr (zeroBlock (allocateBlock st).2 (st.free.min' hne)) (st.free.min' hne)
      (initFileHdr (st.free.min' hne) D fname now1)) D (hashName fname) (st.free.min' hne))
      (st.free.min' hne) ((st.hdrs D).hashSlots (hashName fname))) D now1))) (st.free.min' hne) = true := by
    rw [gbOK_congr _ st _ hC2img]
    exact hokb
  have hh72 : hashName fname < 72 := by
    unfold hashName
    exact Nat.mod_lt _ (by norm_num)
  have hpresR : ∀ i, ∀ x ∈ chainBlocks (totalBlocks st + 1) st (st.root.hashSlots i),
      (((clearCache (touchDirState (linkChain
      (addDirSlot (installHdr (zeroBlock (allocateBlock st).2 (st.free.min' hne)) (st.free.min' hne)
      (initFileHdr (st.free.min' hne) D fname now1)) D (hashName fname) (st.free.min' hne))
      (st.free.min' hne) ((st.hdrs D).hashSlots (hashName fname))) D now1))).hdrs x).filename = (st.hdrs x).filename ∧
        (((clearCache (touchDirState (linkChain
      (addDirSlot (installHdr (zeroBlock (allocateBlock st).2 (st.free.min' hne)) (st.free.min' hne)
      (initFileHdr (st.free.min' hne) D fname now1)) D (hashName fname) (st.free.min' hne))
      (st.free.min' hne) ((st.hdrs D).hashSlots (hashName fname))) D now1))).hdrs x).secType = (st.hdrs x).secType ∧
        (((clearCache (touchDirState (linkChain
      (addDirSlot (installHdr (zeroBlock (allocateBlock st).2 (st.free.min' hne)) (st.free.min' hne)
      (initFileHdr (st.free.min' hne) D fname now1)) D (hashName fname) (st.free.min' hne))
      (st.free.min' hne) ((st.hdrs D).hashSlots (hashName fname))) D now1))).hdrs x).hashChain = (st.hdrs x).hashChain := by
    intro i x hx
    by_cases hxB : x = (st.free.min' hne)
    · exact absurd (hxB ▸ hx) (hnochainR (totalBlocks st + 1) i)
    by_cases hxD : x = D
    · subst hxD
      exact ⟨hDfn, hDsec, hDch⟩
    · exact ⟨by rw [hC2x x hxB hxD], by rw [hC2x x hxB hxD],
        by rw [hC2x x hxB hxD]⟩
  have hrootkeys : ∀ i,
      (walkBucket (totalBlocks st + 1) ((clearCache (touchDirState (linkChain
      (addDirSlot (installHdr (zeroBlock (allocateBlock st).2 (st.free.min' hne)) (st.free.min' hne)
      (initFileHdr (st.free.min' hne) D fname now1)) D (hashName fname) (st.free.min' hne))
      (st.free.min' hne) ((st.hdrs D).hashSlots (hashName fname))) D now1))) (st.root.hashSlots i)).map eKey
        = (walkBucket (totalBlocks st + 1) st (st.root.hashSlots i)).map eKey := by
    intro i
    exact (walk_stable st ((clearCache (touchDirState (linkChain
      (addDirSlot (installHdr (zeroBlock (allocateBlock st).2 (st.free.min' hne)) (st.free.min' hne)
      (initFileHdr (st.free.min' hne) D fname now1)) D (hashName fname) (st.free.min' hne))
      (st.free.min' hne) ((st.hdrs D).hashSlots (hashName fname))) D now1))) hC2img (totalBlocks st + 1)
      (st.root.hashSlots i) (hpresR i)).2
  have hkflat := flatMap_keys
    (fun i => walkBucket (totalBlocks st + 1) st (st.root.hashSlots i))
    (fun i => walkBucket (totalBlocks st + 1) ((clearCache (touchDirState (linkChain
      (addDirSlot (installHdr (zeroBlock (allocateBlock st).2 (st.free.min' hne)) (st.free.min' hne)
      (initFileHdr (st.free.min' hne) D fname now1)) D (hashName fname) (st.free.min' hne))
      (st.free.min' hne) ((st.hdrs D).hashSlots (hashName fname))) D now1))) (st.root.hashSlots i))
    72 (fun i _ => hrootkeys i)
  have hcorr := find_key_corr dname _ _ hkflat
  rw [hfind] at hcorr
  have hfunC2 : (fun i => walkBucket (totalBlocks ((clearCache (touchDirState (linkChain
      (addDirSlot (installHdr (zeroBlock (allocateBlock st).2 (st.free.min' hne)) (st.free.min' hne)
      (initFileHdr (st.free.min' hne) D fname now1)) D (hashName fname) (st.free.min' hne))
      (st.free.min' hne) ((st.hdrs D).hashSlots (hashName fname))) D now1))) + 1) ((clearCache (touchDirState (linkChain
      (addDirSlot (installHdr (zeroBlock (allocateBlock st).2 (st.free.min' hne)) (st.free.min' hne)
      (initFileHdr (st.free.min' hne) D fname now1)) D (hashName fname) (st.free.min' hne))
      (st.free.min' hne) ((st.hdrs D).hashSlots (hashName fname))) D now1)))
      (((clearCache (touchDirState (linkChain
      (addDirSlot (installHdr (zeroBlock (allocateBlock st).2 (st.free.min' hne)) (st.free.min' hne)
      (initFileHdr (st.free.min' hne) D fname now1)) D (hashName fname) (st.free.min' hne))
      (st.free.min' hne) ((st.hdrs D).hashSlots (hashName fname))) D now1))).root.hashSlots i))
      = (fun i => walkBucket (totalBlocks st + 1) ((clearCache (touchDirState (linkChain
      (addDirSlot (installHdr (zeroBlock (allocateBlock st).2 (st.free.min' hne)) (st.free.min' hne)
      (initFileHdr (st.free.min' hne) D fname now1)) D (hashName fname) (st.free.min' hne))
      (st.free.min' hne) ((st.hdrs D).hashSlots (hashName fname))) D now1)))
        (st.root.hashSlots i)) := by
    funext i
    rw [hTot2, hC2root]
  cases hfc : ((List.range 72).flatMap (fun i =>
      walkBucket (totalBlocks st + 1) ((clearCache (touchDirState (linkChain
      (addDirSlot (installHdr (zeroBlock (allocateBlock st).2 (st.free.min' hne)) (st.free.min' hne)
      (initFileHdr (st.free.min' hne) D fname now1)) D (hashName fname) (st.free.min' hne))
      (st.free.min' hne) ((st.hdrs D).hashSlots (hashName fname))) D now1))) (st.root.hashSlots i))).find?
      (fun e => e.name = dname) with
  | none =>
    rw [hfc] at hcorr
    simp at hcorr
  | some eD2 =>
    rw [hfc] at hcorr
    have hkey : eKey eD2 = eKey eD := by
      simpa using hcorr
    have hisDir2 : eD2.isDir = true := by
      have h1 : eD2.isDir = eD.isDir := congrArg (fun k => k.2.1) hkey
      rw [h1, hisDir]
    have hbn2 : eD2.blockNum = D := by
      have h1 : eD2.blockNum = eD.blockNum := congrArg (fun k => k.2.2) hkey
      rw [h1, hbn]
    have hfind2 : (((List.range 72).flatMap (fun i =>
        walkBucket (totalBlocks ((clearCache (touchDirState (linkChain
      (addDirSlot (installHdr (zeroBlock (allocateBlock st).2 (st.free.min' hne)) (st.free.min' hne)
      (initFileHdr (st.free.min' hne) D fname now1)) D (hashName fname) (st.free.min' hne))
      (st.free.min' hne) ((st.hdrs D).hashSlots (hashName fname))) D now1))) + 1) ((clearCache (touchDirState (linkChain
      (addDirSlot (installHdr (zeroBlock (allocateBlock st).2 (st.free.min' hne)) (st.free.min' hne)
      (initFileHdr (st.free.min' hne) D fname now1)) D (hashName fname) (st.free.min' hne))
      (st.free.min' hne) ((st.hdrs D).hashSlots (hashName fname))) D now1)))
          (((clearCache (touchDirState (linkChain
      (addDirSlot (installHdr (zeroBlock (allocateBlock st).2 (st.free.min' hne)) (st.free.min' hne)
      (initFileHdr (st.free.min' hne) D fname now1)) D (hashName fname) (st.free.min' hne))
      (st.free.min' hne) ((st.hdrs D).hashSlots (hashName fname))) D now1))).root.hashSlots i))).find?
        (fun e => e.name = dname)) = some eD2 := by
      rw [hfunC2]
      exact hfc
    have hfailD : ∀ i, i < 72 →
        ∀ e ∈ walkBucket (totalBlocks st + 1) st ((st.hdrs D).hashSlots i),
          ¬ e.name = fname := by
      have h1 := hgE1
      rw [getEntry_sub_eq st dname fname now1 D eD hcache hok880 hd0 hnd hnf
        hfind hisDir hbn hD0 hD880 hokD, List.find?_eq_none] at h1
      intro i hi e he
      have hef : e ∈ (List.range 72).flatMap (fun i =>
          walkBucket (totalBlocks st + 1) st ((st.hdrs D).hashSlots i)) :=
        List.mem_flatMap.mpr ⟨i, List.mem_range.mpr hi, he⟩
      simpa using h1 e hef
    have hbef2 : ∀ i, i < hashName fname →
        ∀ e ∈ walkBucket (totalBlocks ((clearCache (touchDirState (linkChain
      (addDirSlot (installHdr (zeroBlock (allocateBlock st).2 (st.free.min' hne)) (st.free.min' hne)
      (initFileHdr (st.free.min' hne) D fname now1)) D (hashName fname) (st.free.min' hne))
      (st.free.min' hne) ((st.hdrs D).hashSlots (hashName fname))) D now1))) + 1) ((clearCache (touchDirState (linkChain
      (addDirSlot (installHdr (zeroBlock (allocateBlock st).2 (st.free.min' hne)) (st.free.min' hne)
      (initFileHdr (st.free.min' hne) D fname now1)) D (hashName fname) (st.free.min' hne))
      (st.free.min' hne) ((st.hdrs D).hashSlots (hashName fname))) D now1)))
          ((((clearCache (touchDirState (linkChain
      (addDirSlot (installHdr (zeroBlock (allocateBlock st).2 (st.free.min' hne)) (st.free.min' hne)
      (initFileHdr (st.free.min' hne) D fname now1)) D (hashName fname) (st.free.min' hne))
      (st.free.min' hne) ((st.hdrs D).hashSlots (hashName fname))) D now1))).hdrs D).hashSlots i), ¬ e.name = fname := by
      intro i hi e he
      have hislot : (((clearCache (touchDirState (linkChain
      (addDirSlot (installHdr (zeroBlock (allocateBlock st).2 (st.free.min' hne)) (st.free.min' hne)
      (initFileHdr (st.free.min' hne) D fname now1)) D (hashName fname) (st.free.min' hne))
      (st.free.min' hne) ((st.hdrs D).hashSlots (hashName fname))) D now1))).hdrs D).hashSlots i = (st.hdrs D).hashSlots i := by
        rw [hDslots]
        exact Function.update_noteq (by omega) _ _
      have hpresD : ∀ x ∈ chainBlocks (totalBlocks st + 1) st
          ((st.hdrs D).hashSlots i),
          (((clearCache (touchDirState (linkChain
      (addDirSlot (installHdr (zeroBlock (allocateBlock st).2 (st.free.min' hne)) (st.free.min' hne)
      (initFileHdr (st.free.min' hne) D fname now1)) D (hashName fname) (st.free.min' hne))
      (st.free.min' hne) ((st.hdrs D).hashSlots (hashName fname))) D now1))).hdrs x).filename = (st.hdrs x).filename ∧
            (((clearCache (touchDirState (linkChain
      (addDirSlot (installHdr (zeroBlock (allocateBlock st).2 (st.free.min' hne)) (st.free.min' hne)
      (initFileHdr (st.free.min' hne) D fname now1)) D (hashName fname) (st.free.min' hne))
      (st.free.min' hne) ((st.hdrs D).hashSlots (hashName fname))) D now1))).hdrs x).secType = (st.hdrs x).secType ∧
            (((clearCache (touchDirState (linkChain
      (addDirSlot (installHdr (zeroBlock (allocateBlock st).2 (st.free.min' hne)) (st.free.min' hne)
      (initFileHdr (st.free.min' hne) D fname now1)) D (hashName fname) (st.free.min' hne))
      (st.free.min' hne) ((st.hdrs D).hashSlots (hashName fname))) D now1))).hdrs x).hashChain = (st.hdrs x).hashChain := by
        intro x hx
        by_cases hxB : x = (st.free.min' hne)
        · exact absurd (hxB ▸ hx) (hnochainD (totalBlocks st + 1) i)
        by_cases hxD : x = D
        · subst hxD
          exact ⟨hDfn, hDsec, hDch⟩
        · exact ⟨by rw [hC2x x hxB hxD], by rw [hC2x x hxB hxD],
            by rw [hC2x x hxB hxD]⟩
      have hst := walk_stable st ((clearCache (touchDirState (linkChain
      (addDirSlot (installHdr (zeroBlock (allocateBlock st).2 (st.free.min' hne)) (st.free.min' hne)
      (initFileHdr (st.free.min' hne) D fname now1)) D (hashName fname) (st.free.min' hne))
      (st.free.min' hne) ((st.hdrs D).hashSlots (hashName fname))) D now1))) hC2img (totalBlocks st + 1)
        ((st.hdrs D).hashSlots i) hpresD
      rw [hTot2, hislot] at he
      exact fail_of_keys fname _ _ hst.2
        (fun e2 he2 => hfailD i (by omega) e2 he2) e he
    have hsh2 : (((clearCache (touchDirState (linkChain
      (addDirSlot (installHdr (zeroBlock (allocateBlock st).2 (st.free.min' hne)) (st.free.min' hne)
      (initFileHdr (st.free.min' hne) D fname now1)) D (hashName fname) (st.free.min' hne))
      (st.free.min' hne) ((st.hdrs D).hashSlots (hashName fname))) D now1))).hdrs D).hashSlots (hashName fname) = (st.free.min' hne) := by
      rw [hDslots]
      exact Function.update_same _ _ _
    have hname2 : bcplRead (((clearCache (touchDirState (linkChain
      (addDirSlot (installHdr (zeroBlock (allocateBlock st).2 (st.free.min' hne)) (st.free.min' hne)
      (initFileHdr (st.free.min' hne) D fname now1)) D (hashName fname) (st.free.min' hne))
      (st.free.min' hne) ((st.hdrs D).hashSlots (hashName fname))) D now1))).hdrs (st.free.min' hne)).filename 30 = fname := by
      rw [hC2b, (hdrFinal_parts _ _ _ _ _).1]
      exact bcplWrite_read zeroFH.filename fname hn30 hnb
    have hfdC2 : ((((clearCache (touchDirState (linkChain
      (addDirSlot (installHdr (zeroBlock (allocateBlock st).2 (st.free.min' hne)) (st.free.min' hne)
      (initFileHdr (st.free.min' hne) D fname now1)) D (hashName fname) (st.free.min' hne))
      (st.free.min' hne) ((st.hdrs D).hashSlots (hashName fname))) D now1))).hdrs (st.free.min' hne))).firstData = 0 := by
      rw [hC2b]
      exact (hdrFinal_parts _ _ _ _ _).2.2.2
    have hsecC2 : ((((clearCache (touchDirState (linkChain
      (addDirSlot (installHdr (zeroBlock (allocateBlock st).2 (st.free.min' hne)) (st.free.min' hne)
      (initFileHdr (st.free.min' hne) D fname now1)) D (hashName fname) (st.free.min' hne))
      (st.free.min' hne) ((st.hdrs D).hashSlots (hashName fname))) D now1))).hdrs (st.free.min' hne))).secType = ST_FILE := by
      rw [hC2b]
      exact (hdrFinal_parts _ _ _ _ _).2.2.1
    have hgE2 : getEntry ((clearCache (touchDirState (linkChain
      (addDirSlot (installHdr (zeroBlock (allocateBlock st).2 (st.free.min' hne)) (st.free.min' hne)
      (initFileHdr (st.free.min' hne) D fname now1)) D (hashName fname) (st.free.min' hne))
      (st.free.min' hne) ((st.hdrs D).hashSlots (hashName fname))) D now1))) (47 :: (dname ++ 47 :: fname)) now2
        = some (mkEntry (st.free.min' hne) (((clearCache (touchDirState (linkChain
      (addDirSlot (installHdr (zeroBlock (allocateBlock st).2 (st.free.min' hne)) (st.free.min' hne)
      (initFileHdr (st.free.min' hne) D fname now1)) D (hashName fname) (st.free.min' hne))
      (st.free.min' hne) ((st.hdrs D).hashSlots (hashName fname))) D now1))).hdrs (st.free.min' hne))) :=
      getEntry_sub_head ((clearCache (touchDirState (linkChain
      (addDirSlot (installHdr (zeroBlock (allocateBlock st).2 (st.free.min' hne)) (st.free.min' hne)
      (initFileHdr (st.free.min' hne) D fname now1)) D (hashName fname) (st.free.min' hne))
      (st.free.min' hne) ((st.hdrs D).hashSlots (hashName fname))) D now1))) dname fname now2 D eD2 (st.free.min' hne) (hashName fname)
        hC2cache hok880C2 hd0 hnd hf0 hnf hfind2 hisDir2 hbn2 hD0 hD880 hokDC2
        hh72 (by omega) hokbC2 hsh2 hname2 hbef2
    have hD2 := deleteFile_eq2 ((clearCache (touchDirState (linkChain
      (addDirSlot (installHdr (zeroBlock (allocateBlock st).2 (st.free.min' hne)) (st.free.min' hne)
      (initFileHdr (st.free.min' hne) D fname now1)) D (hashName fname) (st.free.min' hne))
      (st.free.min' hne) ((st.hdrs D).hashSlots (hashName fname))) D now1))) dname fname now2 D eD2 (st.free.min' hne)
      (hashName fname) hC2ro hC2cache hd0 hnd hnf hok880C2 hfind2 hisDir2 hbn2
      hD880 hokDC2 hokbC2 hb2 hb880 hbD hgE2 hsh2 hfdC2 hsecC2 hname2 rfl
    refine ⟨?_, ?_, ?_, ?_, ?_⟩
    · rw [hC]
    · rw [hC]
      dsimp only
      rw [hD2]
    · rw [hC]
      dsimp only
      rw [hD2]
      dsimp only
      rw [(clearCache_parts _).1, (updBM_frame_full _ _ _).2.1,
        (withUF_parts _ _ _).1, (touchDirState_parts _ _ _).1,
        (addDirSlot_parts _ _ _ _).1, hC2free]
      exact Finset.insert_erase (st.free.min'_mem hne)
    · rw [hC]
      dsimp only
      rw [hD2]
      dsimp only
      rw [(clearCache_parts _).2.1, (updBM_frame_full _ _ _).2.2.1,
        (withUF_parts _ _ _).2.1, (touchDirState_parts _ _ _).2.1,
        (addDirSlot_parts _ _ _ _).2.1, hC2used]
      exact Finset.erase_insert hbused
    · rw [hC]
      dsimp only
      rw [hD2]
      dsimp only
      rw [(clearCache_parts _).2.2.1, (updBM_frame_full _ _ _).2.2.2.2.2.2,
        (withUF_parts _ _ _).2.2, (touchDirState_parts _ _ _).2.2.1,
        (addDirSlot_parts _ _ _ _).2.2.1, hC2root]

/-- Claim C6 (amended): for a path naming a not-yet-existing entry whose
parent directory exists and with a free block available, `create(path)`
immediately followed by `unlink(path)` restores the free-block set and the
used-block set exactly.  The root block is byte-identical when the parent
is a subdirectory — it is never written on that path; when the parent is
the root directory both operations re-stamp and re-checksum the root, so
the round trip leaves the root block equal to its pre-create value with
the timestamp of the unlink and the checksum recomputed (byte-identical
exactly when that coincides with the original). -/
theorem create_unlink_roundtrip (st : FS) (fname : List Nat) (now1 now2 : Nat)
    (hro : st.readOnly = false) (hcache : st.cache = [])
    (hf0 : fname ≠ []) (hn30 : fname.length ≤ 30)
    (hnb : ∀ c ∈ fname, c < 256) (hnf : 47 ∉ fname)
    (hne : st.free.Nonempty)
    (hb2 : 2 ≤ st.free.min' hne) (hb880 : st.free.min' hne ≠ 880)
    (hbused : st.free.min' hne ∉ st.used)
    (hb25 : st.free.min' hne / 4064 < 25)
    (hok880 : gbOK st 880 = true)
    (hbm : st.root.bmPages (st.free.min' hne / 4064) ≠ 0)
    (hokb : gbOK st (st.free.min' hne) = true)
    (hnochainR : ∀ f i, st.free.min' hne ∉ chainBlocks f st (st.root.hashSlots i)) :
    (getEntry st (47 :: fname) now1 = none →
      (createFile st (47 :: fname) now1).1 = 0 ∧
        (deleteFile (createFile st (47 :: fname) now1).2 (47 :: fname) now2).1 = 0 ∧
        (deleteFile (createFile st (47 :: fname) now1).2 (47 :: fname) now2).2.free = st.free ∧
        (deleteFile (createFile st (47 :: fname) now1).2 (47 :: fname) now2).2.used = st.used ∧
        (deleteFile (createFile st (47 :: fname) now1).2 (47 :: fname) now2).2.root
          = updChkR (touchR st.root now2)) ∧
    (∀ dname : List Nat, ∀ D : Nat, ∀ eD : Entry,
      dname ≠ [] → 47 ∉ dname →
      (((List.range 72).flatMap (fun i =>
        walkBucket (totalBlocks st + 1) st (st.root.hashSlots i))).find?
        (fun e => e.name = dname)) = some eD →
      eD.isDir = true → eD.blockNum = D →
      D ≠ 0 → D ≠ 880 → gbOK st D = true → st.free.min' hne ≠ D →
      (∀ f i, st.free.min' hne ∉ chainBlocks f st ((st.hdrs D).hashSlots i)) →
      getEntry st (47 :: (dname ++ 47 :: fname)) now1 = none →
      (createFile st (47 :: (dname ++ 47 :: fname)) now1).1 = 0 ∧
        (deleteFile (createFile st (47 :: (dname ++ 47 :: fname)) now1).2 (47 :: (dname ++ 47 :: fname)) now2).1 = 0 ∧
        (deleteFile (createFile st (47 :: (dname ++ 47 :: fname)) now1).2 (47 :: (dname ++ 47 :: fname)) now2).2.free = st.free ∧
        (deleteFile (createFile st (47 :: (dname ++ 47 :: fname)) now1).2 (47 :: (dname ++ 47 :: fname)) now2).2.used = st.used ∧
        (deleteFile (createFile st (47 :: (dname ++ 47 :: fname)) now1).2 (47 :: (dname ++ 47 :: fname)) now2).2.root = st.root) :=
  ⟨fun hgE1 => roundtrip_part1 st fname now1 now2 hro hcache hf0 hn30 hnb hnf
      hne hb2 hb880 hbused hb25 hok880 hbm hokb hnochainR hgE1,
    fun dname D eD hd0 hnd hfind hisDir hbn hD0 hD880 hokD hbD hnochainD hgE1 =>
      roundtrip_part2 st dname fname now1 now2 D eD hro hcache hd0 hnd hf0
        hn30 hnb hnf hne hb2 hb880 hbused hb25 hok880 hbm hokb hbD hfind
        hisDir hbn hD0 hD880 hokD hnochainR hnochainD hgE1⟩

/-- The header of the subdirectory `d` at block 883. -/
def c6dirHdr : FileHdr :=
  { zeroFH with
    htype := 2
    headerKey := 883
    secType := ST_DIR
    filename := bcplWrite zeroFH.filename [100]
    parent := 880 }

/-- A volume with the subdirectory `/d` at block 883 (linked in root slot
0), one free block (881). -/
def c6fs2 : FS :=
  { imgBytes := 901120
    readOnly := false
    boot := fun _ => 0
    root := { c6root with hashSlots := fun j => if j = 0 then 883 else 0 }
    hdrs := Function.update (fun _ => zeroFH) 883 c6dirHdr
    datas := fun _ => zeroDB
    bms := fun _ => zeroBM
    free := {881}
    used := {880, 883}
    cache := [] }

lemma c6fs_ne : c6fs.free.Nonempty := ⟨881, by decide⟩

lemma c6fs2_ne : c6fs2.free.Nonempty := ⟨881, by decide⟩

set_option maxRecDepth 400000 in
/-- Witness for C6 (amended): on `c6fs` (empty root, free block 881) the
root-parent branch applies with `create("/a")` at one time and
`unlink("/a")` at a later one, and on `c6fs2` (subdirectory `/d` at block
883) the subdirectory branch applies to `create("/d/a")` then
`unlink("/d/a")`, leaving the root block byte-identical. -/
theorem create_unlink_roundtrip_witness :
    ((createFile c6fs (47 :: [97]) 253000000).1 = 0 ∧
      (deleteFile (createFile c6fs (47 :: [97]) 253000000).2
        (47 :: [97]) 253086401).1 = 0 ∧
      (deleteFile (createFile c6fs (47 :: [97]) 253000000).2
        (47 :: [97]) 253086401).2.free = c6fs.free ∧
      (deleteFile (createFile c6fs (47 :: [97]) 253000000).2
        (47 :: [97]) 253086401).2.used = c6fs.used ∧
      (deleteFile (createFile c6fs (47 :: [97]) 253000000).2
        (47 :: [97]) 253086401).2.root
        = updChkR (touchR c6fs.root 253086401)) ∧
    ((createFile c6fs2 (47 :: ([100] ++ 47 :: [97])) 253000000).1 = 0 ∧
      (deleteFile (createFile c6fs2 (47 :: ([100] ++ 47 :: [97]))
          253000000).2 (47 :: ([100] ++ 47 :: [97])) 253086401).1 = 0 ∧
      (deleteFile (createFile c6fs2 (47 :: ([100] ++ 47 :: [97]))
          253000000).2 (47 :: ([100] ++ 47 :: [97])) 253086401).2.free
        = c6fs2.free ∧
      (deleteFile (createFile c6fs2 (47 :: ([100] ++ 47 :: [97]))
          253000000).2 (47 :: ([100] ++ 47 :: [97])) 253086401).2.used
        = c6fs2.used ∧
      (deleteFile (createFile c6fs2 (47 :: ([100] ++ 47 :: [97]))
          253000000).2 (47 :: ([100] ++ 47 :: [97])) 253086401).2.root
        = c6fs2.root) := by
  constructor
  · have hnoc1 : ∀ f i,
        c6fs.free.min' c6fs_ne ∉ chainBlocks f c6fs (c6fs.root.hashSlots i) := by
      intro f i
      have h0 : c6fs.root.hashSlots i = 0 := rfl
      rw [h0]
      unfold chainBlocks
      rw [rawChain_zero]
      simp
    exact (create_unlink_roundtrip c6fs [97] 253000000 253086401 rfl rfl
      (by decide) (by decide) (by decide) (by decide) c6fs_ne (by decide)
      (by decide) (by decide) (by decide) (by decide) (by decide)
      (by decide) hnoc1).1 (by decide)
  · have hmin2 : c6fs2.free.min' c6fs2_ne = 881 := by decide
    have hh883 : c6fs2.hdrs 883 = c6dirHdr := by
      show Function.update (fun _ => zeroFH) 883 c6dirHdr 883 = c6dirHdr
      exact Function.update_same _ _ _
    have hnocR2 : ∀ f i,
        c6fs2.free.min' c6fs2_ne ∉ chainBlocks f c6fs2 (c6fs2.root.hashSlots i) := by
      intro f i
      by_cases hi : i = 0
      · subst hi
        have h0 : c6fs2.root.hashSlots 0 = 883 := rfl
        rw [h0, hmin2]
        cases f with
        | zero =>
          have hz : chainBlocks 0 c6fs2 883 = [] := rfl
          rw [hz]
          simp
        | succ k =>
          unfold chainBlocks
          rw [rawChain_succ_cons c6fs2 883 k (by decide) (by decide)]
          have hch : (c6fs2.hdrs 883).hashChain = 0 := by rw [hh883]; rfl
          rw [hch, rawChain_zero]
          simp
      · have h0 : c6fs2.root.hashSlots i = 0 := by
          show (if i = 0 then 883 else 0) = 0
          rw [if_neg hi]
        rw [h0]
        unfold chainBlocks
        rw [rawChain_zero]
        simp
    have hnocD2 : ∀ f i,
        c6fs2.free.min' c6fs2_ne ∉ chainBlocks f c6fs2 ((c6fs2.hdrs 883).hashSlots i) := by
      intro f i
      have h0 : (c6fs2.hdrs 883).hashSlots i = 0 := by rw [hh883]; rfl
      rw [h0]
      unfold chainBlocks
      rw [rawChain_zero]
      simp
    exact (create_unlink_roundtrip c6fs2 [97] 253000000 253086401 rfl rfl
      (by decide) (by decide) (by decide) (by decide) c6fs2_ne (by decide)
      (by decide) (by decide) (by decide) (by decide) (by decide)
      (by decide) hnocR2).2 [100] 883 (mkEntry 883 c6dirHdr) (by decide)
      (by decide) (by decide) (by decide) (by decide) (by decide)
      (by decide) (by decide) (by decide) hnocD2 (by decide)

/-- The parse result of `c8fs`. -/
def c8res : ParseRes :=
  { dosType := 1094795521, isFFS := false, rootNum := 880, volName := [] }

/-- Witness for the amended C8 on the concrete image `c8fs`. -/
theorem parse_ffs_flag_witness :
    parseFilesystem c8fs = some c8res ∧ c8res.rootNum = 880 :=
  ⟨by decide, (parse_ffs_flag c8fs c8res (by decide)).1⟩

end AmigaFuse
